import Mathlib

/-!
# nshader container codec: embedding and verification

Shallow embedding of the binary codec of `luppichristian/nshader`
(`src/nshader_writer.c`, `src/nshader_reader.c`) and theorems about it.

Conventions of the embedding.

* A byte is a `Fin 256`; buffers are lists of bytes.
* `uint32_t` values, enum values and `size_t` counts are natural numbers.
  A conversion to `uint32_t` is an explicit `% 2 ^ 32`, a conversion to
  `uint8_t` an explicit `% 256`. The `size_t` accumulators `written` and
  `remaining` are not reduced: they count bytes of objects that exist in
  memory.
* A pointer/count pair (`stages`/`num_stages`, `inputs`/`input_count`,
  `data`/`size`) is a list; a nullable pointer to one object is an `Option`.
* The C sources leave two things to the implementation, and both decide what
  the codec does: the size of an object of enum type (`sizeof(val)` in
  `READ_U8(val)` and `sizeof(binding->type)`), and the byte order of the host.
  They are the fields of `Host`; `host_x64` is the usual desktop ABI
  (4-byte enums, little-endian).
* Allocation (`nshader_malloc`, `nshader_calloc`) always succeeds.
-/

namespace NShader

/-! ## Bytes and integer representation -/

abbrev Byte := Fin 256

/-- Conversion of an integer to `uint8_t`. -/
def byte_of (n : Nat) : Byte := ⟨n % 256, Nat.mod_lt n (by decide)⟩

/-- Implementation-defined parameters of the C translation unit. -/
structure Host where
  /-- The value of `sizeof` for the enum types `nshader_type_t`, `nshader_stage_type_t`,
  `nshader_backend_t` and `nshader_binding_type_t`. -/
  enum_size : Nat
  /-- Whether `__BYTE_ORDER__ == __ORDER_BIG_ENDIAN__`. -/
  big_endian : Bool
deriving DecidableEq, Repr

/-- The usual desktop ABI (x86-64 and AArch64 with GCC, Clang or MSVC): enums are as
wide as `int`, the host is little-endian. -/
def host_x64 : Host := { enum_size := 4, big_endian := false }

/-- An ABI with one-byte enums (for instance `-fshort-enums`), little-endian. -/
def host_short_enums : Host := { enum_size := 1, big_endian := false }

/-- The `n` low-order bytes of `v`, least significant first. -/
def le_bytes : Nat → Nat → List Byte
  | 0, _ => []
  | n + 1, v => byte_of v :: le_bytes n (v / 256)

/-- The number whose little-endian digits are the given bytes. -/
def le_value : List Byte → Nat
  | [] => 0
  | b :: bs => b.val + 256 * le_value bs

/-- Object representation of an unsigned integer object of `size` bytes holding `v`:
what `memcpy` from the object yields on this host. -/
def Host.store (h : Host) (size v : Nat) : List Byte :=
  if h.big_endian then (le_bytes size v).reverse else le_bytes size v

/-- Value of an unsigned integer object after `memcpy` of the given bytes over it. -/
def Host.load (h : Host) (bs : List Byte) : Nat :=
  if h.big_endian then le_value bs.reverse else le_value bs

/-- The byte swap both `to_le32` and `from_le32` perform on a big-endian host:
`((val & 0xFF000000) >> 24) | ((val & 0x00FF0000) >> 8) | ((val & 0x0000FF00) << 8) |
((val & 0x000000FF) << 24)` on a `uint32_t`. -/
def bswap32 (val : Nat) : Nat :=
  (val / 2 ^ 24) % 256 + ((val / 2 ^ 16) % 256) * 2 ^ 8 + ((val / 2 ^ 8) % 256) * 2 ^ 16
    + (val % 256) * 2 ^ 24

/-- The helper `to_le32` of nshader_writer.c. -/
def to_le32 (h : Host) (val : Nat) : Nat :=
  if h.big_endian then bswap32 (val % 2 ^ 32) else val % 2 ^ 32

/-- The helper `from_le32` of nshader_reader.c. -/
def from_le32 (h : Host) (val : Nat) : Nat :=
  if h.big_endian then bswap32 (val % 2 ^ 32) else val % 2 ^ 32

/-! ## Data model (nshader_info.h, nshader_type.h) -/

def NSHADER_BACKEND_DXIL : Nat := 0
def NSHADER_BACKEND_DXBC : Nat := 1
def NSHADER_BACKEND_MSL : Nat := 2
def NSHADER_BACKEND_SPV : Nat := 3
def NSHADER_BACKEND_COUNT : Nat := 4

def NSHADER_SHADER_TYPE_GRAPHICS : Nat := 0
def NSHADER_SHADER_TYPE_COMPUTE : Nat := 1

def NSHADER_STAGE_TYPE_VERTEX : Nat := 0
def NSHADER_STAGE_TYPE_FRAGMENT : Nat := 1
def NSHADER_STAGE_TYPE_COMPUTE : Nat := 2
def NSHADER_STAGE_TYPE_COUNT : Nat := 3

/-- Binary format constant `NSHADER_MAGIC` of nshader_writer.c, "NSDR" in little-endian.
nshader_reader.c takes the macro from the internal header that nshader_writer.c also
includes before defining it, so both files use this one value. -/
def NSHADER_MAGIC : Nat := 0x5244534E

def NSHADER_VERSION : Nat := 1

/-- A C string: the bytes of the array in front of its terminating NUL. -/
abbrev CString := List Byte

/-- The C function `strlen`: the number of bytes in front of the first NUL. -/
def strlen (s : CString) : Nat := (s.takeWhile (fun b => b ≠ 0)).length

structure nshader_stage_binding_t where
  name : Option CString
  location : Nat
  vector_size : Nat
  type : Nat
deriving DecidableEq, Repr, Inhabited

structure nshader_stage_metadata_vertex_t where
  num_samplers : Nat
  num_storage_textures : Nat
  num_storage_buffers : Nat
  num_uniform_buffers : Nat
  inputs : List nshader_stage_binding_t
  outputs : List nshader_stage_binding_t
deriving DecidableEq, Repr, Inhabited

structure nshader_stage_metadata_fragment_t where
  num_samplers : Nat
  num_storage_textures : Nat
  num_storage_buffers : Nat
  num_uniform_buffers : Nat
  inputs : List nshader_stage_binding_t
  outputs : List nshader_stage_binding_t
deriving DecidableEq, Repr, Inhabited

structure nshader_stage_metadata_compute_t where
  num_samplers : Nat
  num_readonly_storage_textures : Nat
  num_readonly_storage_buffers : Nat
  num_readwrite_storage_textures : Nat
  num_readwrite_storage_buffers : Nat
  num_uniform_buffers : Nat
  threadcount_x : Nat
  threadcount_y : Nat
  threadcount_z : Nat
deriving DecidableEq, Repr, Inhabited

/-- The union `nshader_stage_metadata_t`, one field per member. The codec only touches
the member that the stage type selects; a freshly `calloc`ed union is `default`. -/
structure nshader_stage_metadata_t where
  vertex : nshader_stage_metadata_vertex_t
  fragment : nshader_stage_metadata_fragment_t
  compute : nshader_stage_metadata_compute_t
deriving DecidableEq, Repr, Inhabited

structure nshader_stage_t where
  type : Nat
  entry_point : Option CString
  metadata : nshader_stage_metadata_t
deriving DecidableEq, Repr, Inhabited

structure nshader_info_t where
  type : Nat
  stages : List nshader_stage_t
  backends : List Nat
deriving DecidableEq, Repr, Inhabited

/-- The struct `nshader_blob_t`: `data` is the pointer (none for NULL) together with the
`size` bytes it points to. -/
structure nshader_blob_t where
  data : Option (List Byte)
deriving DecidableEq, Repr, Inhabited

/-- The field `size` of a blob. -/
def nshader_blob_t.size (b : nshader_blob_t) : Nat :=
  match b.data with
  | some d => d.length
  | none => 0

/-- The struct `nshader_t` (declared in the internal header): the info block and the
table `blobs[NSHADER_STAGE_TYPE_COUNT][NSHADER_BACKEND_COUNT]` of blob pointers, stored
as its rows. -/
structure nshader_t where
  info : nshader_info_t
  blobs : List (List (Option nshader_blob_t))
deriving DecidableEq, Repr, Inhabited

/-- The table entry `shader->blobs[stage_idx][backend_idx]`. -/
def nshader_t.blob_at (shader : nshader_t) (stage_idx backend_idx : Nat) :
    Option nshader_blob_t :=
  ((shader.blobs.getD stage_idx []).getD backend_idx none)

/-! ## Sequencing with early exit

A C function that threads `buffer`, `remaining` (and `written`) through pointers and
leaves through `return false` or `goto error` is a function from the state to an optional
result and the state at the point where it returned. -/

def Step (σ α : Type) : Type := σ → Option α × σ

def Step.pure {σ α : Type} (a : α) : Step σ α := fun s => (some a, s)

def Step.bind {σ α β : Type} (m : Step σ α) (f : α → Step σ β) : Step σ β :=
  fun s =>
    match m s with
    | (some a, s1) => f a s1
    | (none, s1) => (none, s1)

/-- Leaving through the failure exit. -/
def Step.fail {σ α : Type} : Step σ α := fun s => (none, s)

instance {σ : Type} : Monad (Step σ) where
  pure := Step.pure
  bind := Step.bind

/-! ## Writer (nshader_writer.c) -/

/-- The locals of `nshader_write_to_memory` that `write_data` updates through pointers,
together with the destination storage they refer to. -/
structure Writer where
  /-- Contents of the caller's destination storage. -/
  memory : List Byte
  /-- The pointer `buffer`: none for NULL, otherwise its offset into `memory`. -/
  buffer : Option Nat
  remaining : Nat
  written : Nat
deriving DecidableEq, Repr

/-- The helper `write_data(data, size, buffer, remaining, written)`; `size` is the length
of `data`. The `memcpy` overwrites `size` bytes of the destination at the cursor. -/
def write_data (data : List Byte) : Step Writer Unit := fun w =>
  match w.buffer with
  | some off =>
    if w.remaining < data.length then (none, w)
    else
      (some (),
        { memory := w.memory.take off ++ data ++ w.memory.drop (off + data.length)
          buffer := some (off + data.length)
          remaining := w.remaining - data.length
          written := w.written + data.length })
  | none => (some (), { w with written := w.written + data.length })

/-- The macro `WRITE_U8(val)`: `uint8_t v = (val)` and one byte written. -/
def WRITE_U8 (val : Nat) : Step Writer Unit := write_data [byte_of val]

/-- The macro `WRITE_U32(val)`: `uint32_t v = to_le32(val)` and `sizeof(v)` bytes of the
object `v` written. -/
def WRITE_U32 (h : Host) (val : Nat) : Step Writer Unit :=
  write_data (h.store 4 (to_le32 h val))

/-- The macro `WRITE_BYTES(ptr, len)`. -/
def WRITE_BYTES (data : List Byte) : Step Writer Unit := write_data data

def write_string (h : Host) (str : Option CString) : Step Writer Unit :=
  let len : Nat := match str with
    | some s => strlen s % 2 ^ 32
    | none => 0
  let len_le := to_le32 h len
  do
    write_data (h.store 4 len_le)
    if len > 0 then
      write_data ((str.getD []).take len)
    else
      pure ()

def write_binding (h : Host) (binding : nshader_stage_binding_t) : Step Writer Unit :=
  do
    write_string h binding.name
    let loc := to_le32 h binding.location
    let vec := to_le32 h binding.vector_size
    write_data (h.store 4 loc)
    write_data (h.store 4 vec)
    write_data (h.store h.enum_size binding.type)

/-- The loops `for (i = 0; i < count; i++) write_binding(&bindings[i], ...)` of
`write_stage_metadata`. -/
def write_bindings (h : Host) : List nshader_stage_binding_t → Step Writer Unit
  | [] => pure ()
  | binding :: rest => do
    write_binding h binding
    write_bindings h rest

def write_stage_metadata (h : Host) (stage_type : Nat) (metadata : nshader_stage_metadata_t) :
    Step Writer Unit :=
  if stage_type = NSHADER_STAGE_TYPE_VERTEX then
    let vert := metadata.vertex
    do
      write_data (h.store 4 (to_le32 h vert.num_samplers))
      write_data (h.store 4 (to_le32 h vert.num_storage_textures))
      write_data (h.store 4 (to_le32 h vert.num_storage_buffers))
      write_data (h.store 4 (to_le32 h vert.num_uniform_buffers))
      write_data (h.store 4 (to_le32 h (vert.inputs.length % 2 ^ 32)))
      write_bindings h vert.inputs
      write_data (h.store 4 (to_le32 h (vert.outputs.length % 2 ^ 32)))
      write_bindings h vert.outputs
  else if stage_type = NSHADER_STAGE_TYPE_FRAGMENT then
    let frag := metadata.fragment
    do
      write_data (h.store 4 (to_le32 h frag.num_samplers))
      write_data (h.store 4 (to_le32 h frag.num_storage_textures))
      write_data (h.store 4 (to_le32 h frag.num_storage_buffers))
      write_data (h.store 4 (to_le32 h frag.num_uniform_buffers))
      write_data (h.store 4 (to_le32 h (frag.inputs.length % 2 ^ 32)))
      write_bindings h frag.inputs
      write_data (h.store 4 (to_le32 h (frag.outputs.length % 2 ^ 32)))
      write_bindings h frag.outputs
  else if stage_type = NSHADER_STAGE_TYPE_COMPUTE then
    let comp := metadata.compute
    do
      write_data (h.store 4 (to_le32 h comp.num_samplers))
      write_data (h.store 4 (to_le32 h comp.num_readonly_storage_textures))
      write_data (h.store 4 (to_le32 h comp.num_readonly_storage_buffers))
      write_data (h.store 4 (to_le32 h comp.num_readwrite_storage_textures))
      write_data (h.store 4 (to_le32 h comp.num_readwrite_storage_buffers))
      write_data (h.store 4 (to_le32 h comp.num_uniform_buffers))
      write_data (h.store 4 (to_le32 h comp.threadcount_x))
      write_data (h.store 4 (to_le32 h comp.threadcount_y))
      write_data (h.store 4 (to_le32 h comp.threadcount_z))
  else
    Step.fail

/-- The stage loop of `nshader_write_to_memory`. -/
def write_stages (h : Host) : List nshader_stage_t → Step Writer Unit
  | [] => pure ()
  | stage :: rest => do
    WRITE_U8 stage.type
    write_string h stage.entry_point
    write_stage_metadata h stage.type stage.metadata
    write_stages h rest

/-- The backend loop of `nshader_write_to_memory`. -/
def write_backends : List Nat → Step Writer Unit
  | [] => pure ()
  | backend :: rest => do
    WRITE_U8 backend
    write_backends rest

/-- The body of the two blob loops of `nshader_write_to_memory` for one table entry. -/
def write_blob (h : Host) (blob : Option nshader_blob_t) : Step Writer Unit :=
  match blob with
  | some b =>
    match b.data with
    | some data =>
      if b.size > 0 then do
        WRITE_U8 1
        WRITE_U32 h (b.size % 2 ^ 32)
        WRITE_BYTES data
      else
        WRITE_U8 0
    | none => WRITE_U8 0
  | none => WRITE_U8 0

/-- Running `body` for each index of a counted loop in turn. -/
def for_each {σ : Type} : List Nat → (Nat → Step σ Unit) → Step σ Unit
  | [], _ => pure ()
  | i :: rest, body => do
    body i
    for_each rest body

/-- The two nested blob loops of `nshader_write_to_memory`. -/
def write_blobs (h : Host) (shader : nshader_t) : Step Writer Unit :=
  for_each (List.range NSHADER_STAGE_TYPE_COUNT) fun stage_idx =>
    for_each (List.range NSHADER_BACKEND_COUNT) fun backend_idx =>
      write_blob h (shader.blob_at stage_idx backend_idx)

/-- The statements of `nshader_write_to_memory` after the NULL check, up to the final
`return written`; failure is each `return 0`. -/
def write_shader (h : Host) (shader : nshader_t) : Step Writer Unit :=
  do
    let magic := NSHADER_MAGIC
    WRITE_U32 h magic
    WRITE_U32 h NSHADER_VERSION
    let info := shader.info
    WRITE_U8 info.type
    WRITE_U32 h (info.stages.length % 2 ^ 32)
    write_stages h info.stages
    WRITE_U32 h (info.backends.length % 2 ^ 32)
    write_backends info.backends
    write_blobs h shader

/-- The initial locals of `nshader_write_to_memory(shader, buffer, buffer_size)`: `buffer`
is none for NULL, otherwise the current contents of the destination. -/
def Writer.init (buffer : Option (List Byte)) (buffer_size : Nat) : Writer :=
  { memory := buffer.getD []
    buffer := buffer.map fun _ => 0
    remaining := buffer_size
    written := 0 }

/-- The function `nshader_write_to_memory`: the returned `size_t` and the final state
(which holds the destination contents). -/
def nshader_write_to_memory_run (h : Host) (shader : Option nshader_t)
    (buffer : Option (List Byte)) (buffer_size : Nat) : Nat × Writer :=
  match shader with
  | none => (0, Writer.init buffer buffer_size)
  | some sh =>
    match write_shader h sh (Writer.init buffer buffer_size) with
    | (some _, w) => (w.written, w)
    | (none, w) => (0, w)

/-- The value `nshader_write_to_memory` returns. -/
def nshader_write_to_memory (h : Host) (shader : Option nshader_t)
    (buffer : Option (List Byte)) (buffer_size : Nat) : Nat :=
  (nshader_write_to_memory_run h shader buffer buffer_size).1

/-- The dry run `nshader_write_to_memory(shader, NULL, 0)`. -/
def encoded_size (h : Host) (shader : nshader_t) : Nat :=
  nshader_write_to_memory h (some shader) none 0

/-- The two-phase use of the writer (as in `nshader_write_to_file`): a dry run for the
size, then a write into a zero-filled destination of exactly that size. The result is
the destination after the write. -/
def encode (h : Host) (shader : nshader_t) : List Byte :=
  let size := encoded_size h shader
  (nshader_write_to_memory_run h (some shader) (some (List.replicate size 0)) size).2.memory

/-! ## Reader (nshader_reader.c) -/

/-- Ghost record of one `memcpy(data, *buffer, size)` of `read_data`: the offset of
`*buffer` in the input, `size`, and the value of `*remaining` before the call. -/
structure Access where
  offset : Nat
  size : Nat
  remaining : Nat
deriving DecidableEq, Repr

/-- The locals `buffer` and `remaining` of `nshader_read_from_memory`, which `read_data`
updates through pointers, together with the input storage they refer to and two ghost
fields that record what `read_data` did. -/
structure Cursor where
  /-- Contents of the caller's input storage (`buffer_size` bytes). -/
  memory : List Byte
  /-- The pointer `buffer`, as its offset into `memory`. -/
  buffer : Nat
  remaining : Nat
  /-- Ghost: every `memcpy` that `read_data` performed, latest first. -/
  copied : List Access
  /-- Ghost: how many calls of `read_data` returned false. -/
  refused : Nat
deriving DecidableEq, Repr

/-- The helper `read_data(data, size, buffer, remaining)`; the result is what the
`memcpy` stored in `data`. -/
def read_data (size : Nat) : Step Cursor (List Byte) := fun c =>
  if c.remaining < size then (none, { c with refused := c.refused + 1 })
  else
    (some ((c.memory.drop c.buffer).take size),
      { c with
        buffer := c.buffer + size
        remaining := c.remaining - size
        copied := { offset := c.buffer, size := size, remaining := c.remaining } :: c.copied })

/-- The macro `READ_U8(val)`: `read_data(&(val), sizeof(val), ...)`. The number of bytes
read is the size of the object `val`, which the caller passes as `sizeof_val`; the result
is the value of that object afterwards. -/
def READ_U8 (h : Host) (sizeof_val : Nat) : Step Cursor Nat :=
  do
    let bytes ← read_data sizeof_val
    pure (h.load bytes)

/-- The macro `READ_U32(val)`. -/
def READ_U32 (h : Host) : Step Cursor Nat :=
  do
    let tmp ← read_data 4
    pure (from_le32 h (h.load tmp))

/-- The macro `READ_BYTES(ptr, len)`. -/
def READ_BYTES (len : Nat) : Step Cursor (List Byte) := read_data len

/-- The helper `read_string`; no result stands for the NULL it returns, both for a zero
length and for a failed read. -/
def read_string (h : Host) : Step Cursor CString :=
  do
    let len_le ← read_data 4
    let len := from_le32 h (h.load len_le)
    if len = 0 then
      Step.fail
    else
      read_data len

/-- Running a callee whose failure the caller does not act upon: the caller continues
from the state the callee left, holding its optional result. -/
def Step.attempt {σ α : Type} (m : Step σ α) : Step σ (Option α) :=
  fun s => (some (m s).1, (m s).2)

def read_binding (h : Host) : Step Cursor nshader_stage_binding_t :=
  do
    let name ← Step.attempt (read_string h)
    let tmp ← read_data 4
    let location := from_le32 h (h.load tmp)
    let tmp ← read_data 4
    let vector_size := from_le32 h (h.load tmp)
    let type ← read_data h.enum_size
    pure { name := name, location := location, vector_size := vector_size,
           type := h.load type }

/-- A counted loop `for (i = 0; i < count; i++)` whose body fills element `i` of a
freshly allocated array and leaves the function when the element cannot be read. -/
def read_array {α : Type} (element : Step Cursor α) : Nat → Step Cursor (List α)
  | 0 => pure []
  | count + 1 => do
    let first ← element
    let rest ← read_array element count
    pure (first :: rest)

def read_stage_metadata (h : Host) (stage_type : Nat) (metadata : nshader_stage_metadata_t) :
    Step Cursor nshader_stage_metadata_t :=
  if stage_type = NSHADER_STAGE_TYPE_VERTEX then
    do
      let num_samplers ← READ_U32 h
      let num_storage_textures ← READ_U32 h
      let num_storage_buffers ← READ_U32 h
      let num_uniform_buffers ← READ_U32 h
      let input_count ← READ_U32 h
      let inputs ← read_array (read_binding h) input_count
      let output_count ← READ_U32 h
      let outputs ← read_array (read_binding h) output_count
      pure { metadata with vertex :=
        { num_samplers := num_samplers, num_storage_textures := num_storage_textures,
          num_storage_buffers := num_storage_buffers,
          num_uniform_buffers := num_uniform_buffers,
          inputs := inputs, outputs := outputs } }
  else if stage_type = NSHADER_STAGE_TYPE_FRAGMENT then
    do
      let num_samplers ← READ_U32 h
      let num_storage_textures ← READ_U32 h
      let num_storage_buffers ← READ_U32 h
      let num_uniform_buffers ← READ_U32 h
      let input_count ← READ_U32 h
      let inputs ← read_array (read_binding h) input_count
      let output_count ← READ_U32 h
      let outputs ← read_array (read_binding h) output_count
      pure { metadata with fragment :=
        { num_samplers := num_samplers, num_storage_textures := num_storage_textures,
          num_storage_buffers := num_storage_buffers,
          num_uniform_buffers := num_uniform_buffers,
          inputs := inputs, outputs := outputs } }
  else if stage_type = NSHADER_STAGE_TYPE_COMPUTE then
    do
      let num_samplers ← READ_U32 h
      let num_readonly_storage_textures ← READ_U32 h
      let num_readonly_storage_buffers ← READ_U32 h
      let num_readwrite_storage_textures ← READ_U32 h
      let num_readwrite_storage_buffers ← READ_U32 h
      let num_uniform_buffers ← READ_U32 h
      let threadcount_x ← READ_U32 h
      let threadcount_y ← READ_U32 h
      let threadcount_z ← READ_U32 h
      pure { metadata with compute :=
        { num_samplers := num_samplers,
          num_readonly_storage_textures := num_readonly_storage_textures,
          num_readonly_storage_buffers := num_readonly_storage_buffers,
          num_readwrite_storage_textures := num_readwrite_storage_textures,
          num_readwrite_storage_buffers := num_readwrite_storage_buffers,
          num_uniform_buffers := num_uniform_buffers,
          threadcount_x := threadcount_x, threadcount_y := threadcount_y,
          threadcount_z := threadcount_z } }
  else
    Step.fail

/-- The body of the stage loop of `nshader_read_from_memory`; the stage array comes
zeroed from `nshader_calloc`. `READ_U8(stage->type)` reads an object of enum type. -/
def read_stage (h : Host) : Step Cursor nshader_stage_t :=
  do
    let type ← READ_U8 h h.enum_size
    let entry_point ← read_string h
    let metadata ← read_stage_metadata h type default
    pure { type := type, entry_point := some entry_point, metadata := metadata }

/-- The body of the two blob loops of `nshader_read_from_memory` for one table entry;
`has_blob` is a `uint8_t`. -/
def read_blob (h : Host) : Step Cursor (Option nshader_blob_t) :=
  do
    let has_blob ← READ_U8 h 1
    if has_blob ≠ 0 then
      do
        let blob_size ← READ_U32 h
        let data ← READ_BYTES blob_size
        pure (some { data := some data })
    else
      pure none

/-- The statements of `nshader_read_from_memory` after the check of its arguments;
failure is `goto error`. `READ_U8(info->type)` and `READ_U8(info->backends[i])` read
objects of enum type. -/
def read_shader (h : Host) : Step Cursor nshader_t :=
  do
    let magic ← READ_U32 h
    if magic ≠ NSHADER_MAGIC then
      Step.fail
    else do
      let version ← READ_U32 h
      if version ≠ NSHADER_VERSION then
        Step.fail
      else do
        let type ← READ_U8 h h.enum_size
        let num_stages ← READ_U32 h
        let stages ← read_array (read_stage h) num_stages
        let num_backends ← READ_U32 h
        let backends ← read_array (READ_U8 h h.enum_size) num_backends
        let blobs ← read_array (read_array (read_blob h) NSHADER_BACKEND_COUNT)
          NSHADER_STAGE_TYPE_COUNT
        pure { info := { type := type, stages := stages, backends := backends },
               blobs := blobs }

/-- The initial locals of `nshader_read_from_memory(buffer, buffer_size)`. -/
def Cursor.init (buffer : List Byte) : Cursor :=
  { memory := buffer, buffer := 0, remaining := buffer.length, copied := [], refused := 0 }

/-- The function `nshader_read_from_memory` on a buffer of `buffer.length` bytes: the
returned shader (none for NULL) and the final state. -/
def nshader_read_from_memory_run (h : Host) (buffer : List Byte) :
    Option nshader_t × Cursor :=
  if buffer.length = 0 then (none, Cursor.init buffer)
  else read_shader h (Cursor.init buffer)

/-- The value `nshader_read_from_memory` returns. -/
def nshader_read_from_memory (h : Host) (buffer : List Byte) : Option nshader_t :=
  (nshader_read_from_memory_run h buffer).1

/-! ## The writer as a sequence of fields -/

/-- Writing a sequence of fields, one `write_data` call per field. -/
def write_fields : List (List Byte) → Step Writer Unit
  | [] => pure ()
  | field :: rest => do
    write_data field
    write_fields rest

/-- The concatenation of a sequence of fields. -/
def concat_fields : List (List Byte) → List Byte
  | [] => []
  | field :: rest => field ++ concat_fields rest

/-- The fields `write_string` emits. -/
def string_fields (h : Host) (str : Option CString) : List (List Byte) :=
  let len : Nat := match str with
    | some s => strlen s % 2 ^ 32
    | none => 0
  [h.store 4 (to_le32 h len)] ++ (if len > 0 then [(str.getD []).take len] else [])

/-- The fields `write_binding` emits. -/
def binding_fields (h : Host) (binding : nshader_stage_binding_t) : List (List Byte) :=
  string_fields h binding.name ++
    [h.store 4 (to_le32 h binding.location), h.store 4 (to_le32 h binding.vector_size),
     h.store h.enum_size binding.type]

/-- The fields a binding loop emits. -/
def bindings_fields (h : Host) : List nshader_stage_binding_t → List (List Byte)
  | [] => []
  | binding :: rest => binding_fields h binding ++ bindings_fields h rest

/-- A stage type for which `write_stage_metadata` and `read_stage_metadata` have a case. -/
def valid_stage_type (stage_type : Nat) : Prop :=
  stage_type = NSHADER_STAGE_TYPE_VERTEX ∨ stage_type = NSHADER_STAGE_TYPE_FRAGMENT ∨
    stage_type = NSHADER_STAGE_TYPE_COMPUTE

instance (stage_type : Nat) : Decidable (valid_stage_type stage_type) := by
  unfold valid_stage_type
  infer_instance

/-- Every stage of the shader has a valid stage type. -/
def valid_stage_types (shader : nshader_t) : Prop :=
  ∀ stage ∈ shader.info.stages, valid_stage_type stage.type

instance (shader : nshader_t) : Decidable (valid_stage_types shader) := by
  unfold valid_stage_types
  infer_instance

/-- The field a `uint32_t` written through `to_le32` occupies. -/
def u32_field (h : Host) (val : Nat) : List Byte := h.store 4 (to_le32 h val)

/-- The fields `write_stage_metadata` emits for a valid stage type. -/
def metadata_fields (h : Host) (stage_type : Nat) (metadata : nshader_stage_metadata_t) :
    List (List Byte) :=
  if stage_type = NSHADER_STAGE_TYPE_VERTEX then
    [u32_field h metadata.vertex.num_samplers, u32_field h metadata.vertex.num_storage_textures,
     u32_field h metadata.vertex.num_storage_buffers,
     u32_field h metadata.vertex.num_uniform_buffers,
     u32_field h (metadata.vertex.inputs.length % 2 ^ 32)]
      ++ bindings_fields h metadata.vertex.inputs
      ++ [u32_field h (metadata.vertex.outputs.length % 2 ^ 32)]
      ++ bindings_fields h metadata.vertex.outputs
  else if stage_type = NSHADER_STAGE_TYPE_FRAGMENT then
    [u32_field h metadata.fragment.num_samplers,
     u32_field h metadata.fragment.num_storage_textures,
     u32_field h metadata.fragment.num_storage_buffers,
     u32_field h metadata.fragment.num_uniform_buffers,
     u32_field h (metadata.fragment.inputs.length % 2 ^ 32)]
      ++ bindings_fields h metadata.fragment.inputs
      ++ [u32_field h (metadata.fragment.outputs.length % 2 ^ 32)]
      ++ bindings_fields h metadata.fragment.outputs
  else
    [u32_field h metadata.compute.num_samplers,
     u32_field h metadata.compute.num_readonly_storage_textures,
     u32_field h metadata.compute.num_readonly_storage_buffers,
     u32_field h metadata.compute.num_readwrite_storage_textures,
     u32_field h metadata.compute.num_readwrite_storage_buffers,
     u32_field h metadata.compute.num_uniform_buffers,
     u32_field h metadata.compute.threadcount_x, u32_field h metadata.compute.threadcount_y,
     u32_field h metadata.compute.threadcount_z]

/-- The fields one iteration of the stage loop emits. -/
def stage_fields (h : Host) (stage : nshader_stage_t) : List (List Byte) :=
  [[byte_of stage.type]] ++ string_fields h stage.entry_point
    ++ metadata_fields h stage.type stage.metadata

/-- The fields the stage loop emits. -/
def stages_fields (h : Host) : List nshader_stage_t → List (List Byte)
  | [] => []
  | stage :: rest => stage_fields h stage ++ stages_fields h rest

/-- The fields the backend loop emits. -/
def backends_fields : List Nat → List (List Byte)
  | [] => []
  | backend :: rest => [byte_of backend] :: backends_fields rest

/-- The fields the blob loops emit for one table entry. -/
def blob_fields (h : Host) (blob : Option nshader_blob_t) : List (List Byte) :=
  match blob with
  | some b =>
    match b.data with
    | some data =>
      if b.size > 0 then [[byte_of 1], u32_field h (b.size % 2 ^ 32), data]
      else [[byte_of 0]]
    | none => [[byte_of 0]]
  | none => [[byte_of 0]]

/-- The fields a counted loop emits when each iteration emits `fields i`. -/
def fields_for_each : List Nat → (Nat → List (List Byte)) → List (List Byte)
  | [], _ => []
  | i :: rest, fields => fields i ++ fields_for_each rest fields

/-- The fields the two blob loops emit. -/
def blobs_fields (h : Host) (shader : nshader_t) : List (List Byte) :=
  fields_for_each (List.range NSHADER_STAGE_TYPE_COUNT) fun stage_idx =>
    fields_for_each (List.range NSHADER_BACKEND_COUNT) fun backend_idx =>
      blob_fields h (shader.blob_at stage_idx backend_idx)

/-- The fields `nshader_write_to_memory` emits for a shader with valid stage types. -/
def shader_fields (h : Host) (shader : nshader_t) : List (List Byte) :=
  [u32_field h NSHADER_MAGIC, u32_field h NSHADER_VERSION, [byte_of shader.info.type],
   u32_field h (shader.info.stages.length % 2 ^ 32)]
    ++ stages_fields h shader.info.stages
    ++ [u32_field h (shader.info.backends.length % 2 ^ 32)]
    ++ backends_fields shader.info.backends
    ++ blobs_fields h shader

/-! ## What writing a sequence of fields does to the state -/

/-- The state after a `memcpy` of `data` at offset `off` into a destination `w`. -/
def Writer.stored (w : Writer) (off : Nat) (data : List Byte) : Writer :=
  { memory := w.memory.take off ++ data ++ w.memory.drop (off + data.length)
    buffer := some (off + data.length)
    remaining := w.remaining - data.length
    written := w.written + data.length }

/-- The bytes `nshader_write_to_memory` emits for a shader with valid stage types. -/
def shader_bytes (h : Host) (shader : nshader_t) : List Byte :=
  concat_fields (shader_fields h shader)

/-! ## The reading primitive -/

/-- The state after a successful `read_data` of `size` bytes. -/
def Cursor.advance (c : Cursor) (size : Nat) : Cursor :=
  { c with
    buffer := c.buffer + size
    remaining := c.remaining - size
    copied := { offset := c.buffer, size := size, remaining := c.remaining } :: c.copied }

/-- The state after a refused `read_data`. -/
def Cursor.refuse (c : Cursor) : Cursor := { c with refused := c.refused + 1 }

/-- The `size` bytes of the input at the cursor. -/
def Cursor.next (c : Cursor) (size : Nat) : List Byte := (c.memory.drop c.buffer).take size

/-- The cursor is inside the input: what remains is really there. -/
def Cursor.in_bounds (c : Cursor) : Prop := c.buffer + c.remaining ≤ c.memory.length

/-! ## The cursor stays inside the input -/

/-- The cursor invariant for the caller's buffer `input`: the buffer is untouched,
consumed plus remaining is its size, and every `memcpy` performed so far started from a
state with the same property and copied no more than what remained. -/
def Cursor.safe (input : List Byte) (c : Cursor) : Prop :=
  c.memory = input ∧ c.buffer + c.remaining = input.length ∧
    ∀ a ∈ c.copied, a.offset + a.remaining = input.length ∧ a.size ≤ a.remaining

/-- A function of the reader that keeps a property of the cursor, whether it succeeds or
fails. -/
def Preserves {α : Type} (P : Cursor → Prop) (m : Step Cursor α) : Prop :=
  ∀ c, P c → P (m c).2

/-! ## Valid bundles -/

/-- A string without NUL byte whose length fits a `uint32_t`. -/
def valid_string (s : CString) : Prop := (∀ b ∈ s, b ≠ 0) ∧ s.length < 2 ^ 32

instance (s : CString) : Decidable (valid_string s) := by
  unfold valid_string
  infer_instance

/-- A binding whose name (if any) is a valid string, whose `uint32_t` fields are in
range and whose type is one of the eleven `nshader_binding_type_t` values. -/
def valid_binding (b : nshader_stage_binding_t) : Prop :=
  valid_string (b.name.getD []) ∧ b.location < 2 ^ 32 ∧ b.vector_size < 2 ^ 32 ∧ b.type ≤ 10

instance (b : nshader_stage_binding_t) : Decidable (valid_binding b) := by
  unfold valid_binding
  infer_instance

/-- Validity of the metadata member that the stage type selects. -/
def valid_metadata (stage_type : Nat) (m : nshader_stage_metadata_t) : Prop :=
  if stage_type = NSHADER_STAGE_TYPE_VERTEX then
    m.vertex.num_samplers < 2 ^ 32 ∧ m.vertex.num_storage_textures < 2 ^ 32 ∧
    m.vertex.num_storage_buffers < 2 ^ 32 ∧ m.vertex.num_uniform_buffers < 2 ^ 32 ∧
    m.vertex.inputs.length < 2 ^ 32 ∧ m.vertex.outputs.length < 2 ^ 32 ∧
    (∀ b ∈ m.vertex.inputs, valid_binding b) ∧ (∀ b ∈ m.vertex.outputs, valid_binding b)
  else if stage_type = NSHADER_STAGE_TYPE_FRAGMENT then
    m.fragment.num_samplers < 2 ^ 32 ∧ m.fragment.num_storage_textures < 2 ^ 32 ∧
    m.fragment.num_storage_buffers < 2 ^ 32 ∧ m.fragment.num_uniform_buffers < 2 ^ 32 ∧
    m.fragment.inputs.length < 2 ^ 32 ∧ m.fragment.outputs.length < 2 ^ 32 ∧
    (∀ b ∈ m.fragment.inputs, valid_binding b) ∧ (∀ b ∈ m.fragment.outputs, valid_binding b)
  else
    m.compute.num_samplers < 2 ^ 32 ∧ m.compute.num_readonly_storage_textures < 2 ^ 32 ∧
    m.compute.num_readonly_storage_buffers < 2 ^ 32 ∧
    m.compute.num_readwrite_storage_textures < 2 ^ 32 ∧
    m.compute.num_readwrite_storage_buffers < 2 ^ 32 ∧
    m.compute.num_uniform_buffers < 2 ^ 32 ∧ m.compute.threadcount_x < 2 ^ 32 ∧
    m.compute.threadcount_y < 2 ^ 32 ∧ m.compute.threadcount_z < 2 ^ 32

instance (stage_type : Nat) (m : nshader_stage_metadata_t) :
    Decidable (valid_metadata stage_type m) := by
  unfold valid_metadata
  infer_instance

/-- A stage of valid type with a non-empty valid entry point and valid metadata. -/
def valid_stage (stage : nshader_stage_t) : Prop :=
  valid_stage_type stage.type ∧ stage.entry_point.getD [] ≠ [] ∧
    valid_string (stage.entry_point.getD []) ∧ valid_metadata stage.type stage.metadata

instance (stage : nshader_stage_t) : Decidable (valid_stage stage) := by
  unfold valid_stage
  infer_instance

/-- A blob table entry that is empty or holds a non-empty blob whose size fits a
`uint32_t`. -/
def valid_slot : Option nshader_blob_t → Prop
  | none => True
  | some b => 0 < b.size ∧ b.size < 2 ^ 32

instance : (slot : Option nshader_blob_t) → Decidable (valid_slot slot)
  | none => isTrue trivial
  | some b => inferInstanceAs (Decidable (0 < b.size ∧ b.size < 2 ^ 32))

/-- A valid bundle: the shader type is Graphics or Compute, every stage is valid, every
backend is one of the four backends, the counts fit a `uint32_t`, and each of the twelve
table entries is empty or holds a non-empty blob. -/
def valid_bundle (shader : nshader_t) : Prop :=
  shader.info.type ≤ NSHADER_SHADER_TYPE_COMPUTE ∧
    shader.info.stages.length < 2 ^ 32 ∧ shader.info.backends.length < 2 ^ 32 ∧
    (∀ stage ∈ shader.info.stages, valid_stage stage) ∧
    (∀ backend ∈ shader.info.backends, backend < NSHADER_BACKEND_COUNT) ∧
    (∀ stage_idx < NSHADER_STAGE_TYPE_COUNT, ∀ backend_idx < NSHADER_BACKEND_COUNT,
      valid_slot (shader.blob_at stage_idx backend_idx))

instance (shader : nshader_t) : Decidable (valid_bundle shader) := by
  unfold valid_bundle
  infer_instance

/-! ## Concrete inputs -/

/-- The text "main". -/
def text_main : CString := [109, 97, 105, 110]

/-- An input binding named "Color" at location 0, four components of type float32. -/
def color_binding : nshader_stage_binding_t :=
  { name := some [67, 111, 108, 111, 114], location := 0, vector_size := 4, type := 9 }

/-- A graphics bundle: a Vertex and a Fragment stage with entry point "main" and the
input "Color", backend SPV, and one 16-byte blob at (Vertex, SPV). -/
def scenario_bundle : nshader_t :=
  { info :=
      { type := NSHADER_SHADER_TYPE_GRAPHICS
        stages :=
          [ { type := NSHADER_STAGE_TYPE_VERTEX, entry_point := some text_main,
              metadata :=
                { (default : nshader_stage_metadata_t) with
                  vertex :=
                    { (default : nshader_stage_metadata_vertex_t) with
                      inputs := [color_binding] } } },
            { type := NSHADER_STAGE_TYPE_FRAGMENT, entry_point := some text_main,
              metadata :=
                { (default : nshader_stage_metadata_t) with
                  fragment :=
                    { (default : nshader_stage_metadata_fragment_t) with
                      inputs := [color_binding] } } } ]
        backends := [NSHADER_BACKEND_SPV] }
    blobs :=
      [ [none, none, none, some { data := some (List.replicate 16 7) }],
        [none, none, none, none],
        [none, none, none, none] ] }

/-- The bundle without stages, backends and blobs. -/
def empty_bundle : nshader_t :=
  { info := { type := NSHADER_SHADER_TYPE_GRAPHICS, stages := [], backends := [] }
    blobs := [ [none, none, none, none], [none, none, none, none], [none, none, none, none] ] }

/-- The 29 bytes magic, version 1, kind 0, stage count 0, backend count 0 and twelve zero
presence flags. -/
def minimal_buffer : List Byte :=
  [78, 83, 68, 82, 1, 0, 0, 0, 0, 0, 0, 0, 0, 0, 0, 0, 0,
   0, 0, 0, 0, 0, 0, 0, 0, 0, 0, 0, 0]

/-- A bundle with one Vertex stage whose entry point is NULL. -/
def entryless_bundle : nshader_t :=
  { info :=
      { type := NSHADER_SHADER_TYPE_GRAPHICS
        stages := [ { type := NSHADER_STAGE_TYPE_VERTEX, entry_point := none,
                      metadata := default } ]
        backends := [] }
    blobs := [ [none, none, none, none], [none, none, none, none], [none, none, none, none] ] }

/-- A bundle with one stage whose type is not a stage type. -/
def bad_stage_bundle : nshader_t :=
  { info :=
      { type := NSHADER_SHADER_TYPE_GRAPHICS
        stages := [ { type := NSHADER_STAGE_TYPE_COUNT, entry_point := some text_main,
                      metadata := default } ]
        backends := [] }
    blobs := [ [none, none, none, none], [none, none, none, none], [none, none, none, none] ] }

/-- A bundle without stages and backends whose only blob, at (Vertex, DXIL), is `data`. -/
def single_blob_bundle (data : List Byte) : nshader_t :=
  { info := { type := NSHADER_SHADER_TYPE_GRAPHICS, stages := [], backends := [] }
    blobs :=
      [ [some { data := some data }, none, none, none],
        [none, none, none, none],
        [none, none, none, none] ] }

/-- Input for `host_x64` (every enum field four bytes wide): one Vertex stage with entry
point "m" and one input binding whose name length field says 100 although only 32 bytes
follow it; location 7, vector size 4, type 9; no outputs, no backends, no blobs. -/
def swallowed_name_buffer : List Byte :=
  [78, 83, 68, 82, 1, 0, 0, 0,
   0, 0, 0, 0, 1, 0, 0, 0,
   0, 0, 0, 0, 1, 0, 0, 0, 109,
   0, 0, 0, 0, 0, 0, 0, 0, 0, 0, 0, 0, 0, 0, 0, 0,
   1, 0, 0, 0,
   100, 0, 0, 0, 7, 0, 0, 0, 4, 0, 0, 0, 9, 0, 0, 0,
   0, 0, 0, 0,
   0, 0, 0, 0,
   0, 0, 0, 0, 0, 0, 0, 0, 0, 0, 0, 0]

/-- The same input as `swallowed_name_buffer` laid out for `host_short_enums` (every enum
field one byte wide): the name length field says 100 although only 29 bytes follow it. -/
def swallowed_name_buffer_short : List Byte :=
  [78, 83, 68, 82, 1, 0, 0, 0,
   0, 1, 0, 0, 0,
   0, 1, 0, 0, 0, 109,
   0, 0, 0, 0, 0, 0, 0, 0, 0, 0, 0, 0, 0, 0, 0, 0,
   1, 0, 0, 0,
   100, 0, 0, 0, 7, 0, 0, 0, 4, 0, 0, 0, 9,
   0, 0, 0, 0,
   0, 0, 0, 0,
   0, 0, 0, 0, 0, 0, 0, 0, 0, 0, 0, 0]

/-! ## Queries (nshader_type.c) -/

def nshader_get_info (shader : Option nshader_t) : Option nshader_info_t :=
  match shader with
  | some sh => some sh.info
  | none => none

/-- The function `nshader_get_blob(shader, stage, backend)`; `stage` is passed by value
and only its `type` is used. The result is the pointer stored in the table (none for
NULL). -/
def nshader_get_blob (shader : Option nshader_t) (stage : nshader_stage_t) (backend : Nat) :
    Option nshader_blob_t :=
  match shader with
  | none => none
  | some sh =>
    if stage.type ≥ NSHADER_STAGE_TYPE_COUNT ∨ backend ≥ NSHADER_BACKEND_COUNT then none
    else sh.blob_at stage.type backend

/-- The loop of `nshader_has_backend` over `info->backends`. -/
def has_backend_loop : List Nat → Nat → Bool
  | [], _ => false
  | b :: rest, backend => if b = backend then true else has_backend_loop rest backend

def nshader_has_backend (shader : Option nshader_t) (backend : Nat) : Bool :=
  match shader with
  | none => false
  | some sh => has_backend_loop sh.info.backends backend

/-- The loop of `nshader_has_stage` over `info->stages`. -/
def has_stage_loop : List nshader_stage_t → Nat → Bool
  | [], _ => false
  | stage :: rest, stage_type =>
    if stage.type = stage_type then true else has_stage_loop rest stage_type

def nshader_has_stage (shader : Option nshader_t) (stage_type : Nat) : Bool :=
  match shader with
  | none => false
  | some sh => has_stage_loop sh.info.stages stage_type

/-- A stage value of the given type, as a caller passes it to `nshader_get_blob`. -/
def stage_of_type (stage_type : Nat) : nshader_stage_t :=
  { type := stage_type, entry_point := none, metadata := default }

/-- The table invariant of the data model: an entry is non-empty only if its row is the
type of a stage of the bundle and its column is in the backend list. -/
def table_consistent (shader : nshader_t) : Prop :=
  ∀ stage_idx backend_idx, shader.blob_at stage_idx backend_idx ≠ none →
    (∃ stage ∈ shader.info.stages, stage.type = stage_idx) ∧
      backend_idx ∈ shader.info.backends

/-! ## GPU object creation (nshader_sdl3_gpu.c)

The SDL3 library is outside the repository. A device is represented by what
`SDL_GetGPUShaderFormats` returns for it; the result of `SDL_CreateGPUShader` and of
`SDL_CreateGPUComputePipeline` is represented by the create-info structure handed to it.
The `SDL_GPU_SHADERFORMAT_*` and `SDL_GPU_SHADERSTAGE_*` values are those of
`SDL3/SDL_gpu.h`. -/

def SDL_GPU_SHADERFORMAT_INVALID : Nat := 0
def SDL_GPU_SHADERFORMAT_SPIRV : Nat := 2
def SDL_GPU_SHADERFORMAT_DXBC : Nat := 4
def SDL_GPU_SHADERFORMAT_DXIL : Nat := 8
def SDL_GPU_SHADERFORMAT_MSL : Nat := 16

def SDL_GPU_SHADERSTAGE_VERTEX : Nat := 0
def SDL_GPU_SHADERSTAGE_FRAGMENT : Nat := 1

def nshader_backend_to_sdl_format (backend : Nat) : Nat :=
  if backend = NSHADER_BACKEND_DXIL then SDL_GPU_SHADERFORMAT_DXIL
  else if backend = NSHADER_BACKEND_DXBC then SDL_GPU_SHADERFORMAT_DXBC
  else if backend = NSHADER_BACKEND_MSL then SDL_GPU_SHADERFORMAT_MSL
  else if backend = NSHADER_BACKEND_SPV then SDL_GPU_SHADERFORMAT_SPIRV
  else SDL_GPU_SHADERFORMAT_INVALID

/-- The array `backend_priority` of `select_backend_for_device`. -/
def backend_priority : List Nat :=
  [NSHADER_BACKEND_DXIL, NSHADER_BACKEND_SPV, NSHADER_BACKEND_MSL, NSHADER_BACKEND_DXBC]

/-- The loop of `select_backend_for_device` over `backend_priority`, ending in the final
`return NSHADER_BACKEND_COUNT`. -/
def select_backend_loop (supported_formats : Nat) (shader : Option nshader_t) :
    List Nat → Nat
  | [] => NSHADER_BACKEND_COUNT
  | backend :: rest =>
    let format := nshader_backend_to_sdl_format backend
    if (supported_formats &&& format) ≠ 0 ∧ nshader_has_backend shader backend = true then
      backend
    else select_backend_loop supported_formats shader rest

/-- The function `select_backend_for_device(device, shader)`; `device` is none for NULL
and otherwise the value of `SDL_GetGPUShaderFormats(device)`. -/
def select_backend_for_device (device : Option Nat) (shader : Option nshader_t) : Nat :=
  match device, shader with
  | some supported_formats, some sh =>
    select_backend_loop supported_formats (some sh) backend_priority
  | _, _ => NSHADER_BACKEND_COUNT

/-- The loop of `get_stage`. -/
def get_stage_loop : List nshader_stage_t → Nat → Option nshader_stage_t
  | [], _ => none
  | stage :: rest, stage_type =>
    if stage.type = stage_type then some stage else get_stage_loop rest stage_type

def get_stage (shader : Option nshader_t) (stage_type : Nat) : Option nshader_stage_t :=
  match nshader_get_info shader with
  | none => none
  | some info => get_stage_loop info.stages stage_type

/-- The fields of `SDL_GPUShaderCreateInfo` that `nshader_sdl3_gpu_create_shader` sets. -/
structure SDL_GPUShaderCreateInfo where
  code_size : Nat
  code : List Byte
  entrypoint : CString
  format : Nat
  stage : Nat
  num_samplers : Nat
  num_storage_textures : Nat
  num_storage_buffers : Nat
  num_uniform_buffers : Nat
  props : Nat
deriving DecidableEq, Repr

/-- The function `nshader_sdl3_gpu_create_shader`: none where it returns NULL itself,
otherwise the create info it passes to `SDL_CreateGPUShader`. -/
def nshader_sdl3_gpu_create_shader (device : Option Nat) (shader : Option nshader_t)
    (stage_type : Nat) : Option SDL_GPUShaderCreateInfo :=
  if device.isNone ∨ shader.isNone then none
  else if stage_type ≠ NSHADER_STAGE_TYPE_VERTEX ∧ stage_type ≠ NSHADER_STAGE_TYPE_FRAGMENT then
    none
  else if nshader_has_stage shader stage_type = false then none
  else
    let backend := select_backend_for_device device shader
    if backend = NSHADER_BACKEND_COUNT then none
    else
      match nshader_get_blob shader (stage_of_type stage_type) backend with
      | none => none
      | some blob =>
        match blob.data with
        | none => none
        | some data =>
          if blob.size = 0 then none
          else
            match get_stage shader stage_type with
            | none => none
            | some stage =>
              let counts : Nat × Nat × Nat × Nat :=
                if stage_type = NSHADER_STAGE_TYPE_VERTEX then
                  (stage.metadata.vertex.num_samplers,
                   stage.metadata.vertex.num_storage_textures,
                   stage.metadata.vertex.num_storage_buffers,
                   stage.metadata.vertex.num_uniform_buffers)
                else if stage_type = NSHADER_STAGE_TYPE_FRAGMENT then
                  (stage.metadata.fragment.num_samplers,
                   stage.metadata.fragment.num_storage_textures,
                   stage.metadata.fragment.num_storage_buffers,
                   stage.metadata.fragment.num_uniform_buffers)
                else (0, 0, 0, 0)
              some
                { code_size := blob.size
                  code := data
                  entrypoint := stage.entry_point.getD text_main
                  format := nshader_backend_to_sdl_format backend
                  stage :=
                    if stage_type = NSHADER_STAGE_TYPE_VERTEX then SDL_GPU_SHADERSTAGE_VERTEX
                    else SDL_GPU_SHADERSTAGE_FRAGMENT
                  num_samplers := counts.1
                  num_storage_textures := counts.2.1
                  num_storage_buffers := counts.2.2.1
                  num_uniform_buffers := counts.2.2.2
                  props := 0 }

/-- The fields of `SDL_GPUComputePipelineCreateInfo` that
`nshader_sdl3_gpu_create_compute_pipeline` sets. -/
structure SDL_GPUComputePipelineCreateInfo where
  code_size : Nat
  code : List Byte
  entrypoint : CString
  format : Nat
  num_samplers : Nat
  num_readonly_storage_textures : Nat
  num_readonly_storage_buffers : Nat
  num_readwrite_storage_textures : Nat
  num_readwrite_storage_buffers : Nat
  num_uniform_buffers : Nat
  threadcount_x : Nat
  threadcount_y : Nat
  threadcount_z : Nat
  props : Nat
deriving DecidableEq, Repr

/-- The function `nshader_sdl3_gpu_create_compute_pipeline`: none where it returns NULL
itself, otherwise the create info it passes to `SDL_CreateGPUComputePipeline`. -/
def nshader_sdl3_gpu_create_compute_pipeline (device : Option Nat)
    (shader : Option nshader_t) : Option SDL_GPUComputePipelineCreateInfo :=
  if device.isNone ∨ shader.isNone then none
  else
    match nshader_get_info shader with
    | none => none
    | some info =>
      if info.type ≠ NSHADER_SHADER_TYPE_COMPUTE then none
      else if nshader_has_stage shader NSHADER_STAGE_TYPE_COMPUTE = false then none
      else
        let backend := select_backend_for_device device shader
        if backend = NSHADER_BACKEND_COUNT then none
        else
          match nshader_get_blob shader (stage_of_type NSHADER_STAGE_TYPE_COMPUTE) backend with
          | none => none
          | some blob =>
            match blob.data with
            | none => none
            | some data =>
              if blob.size = 0 then none
              else
                match get_stage shader NSHADER_STAGE_TYPE_COMPUTE with
                | none => none
                | some stage =>
                  let compute := stage.metadata.compute
                  some
                    { code_size := blob.size
                      code := data
                      entrypoint := stage.entry_point.getD text_main
                      format := nshader_backend_to_sdl_format backend
                      num_samplers := compute.num_samplers
                      num_readonly_storage_textures := compute.num_readonly_storage_textures
                      num_readonly_storage_buffers := compute.num_readonly_storage_buffers
                      num_readwrite_storage_textures := compute.num_readwrite_storage_textures
                      num_readwrite_storage_buffers := compute.num_readwrite_storage_buffers
                      num_uniform_buffers := compute.num_uniform_buffers
                      threadcount_x := compute.threadcount_x
                      threadcount_y := compute.threadcount_y
                      threadcount_z := compute.threadcount_z
                      props := 0 }

/-- The selection as the specification words it: the first backend in the order DXIL,
SPV, MSL, DXBC that the target supports and for which the bundle holds a non-empty blob of
the requested stage. -/
def spec_backend_choice (supports : Nat → Bool) (shader : nshader_t) (stage_type : Nat) :
    Option Nat :=
  [NSHADER_BACKEND_DXIL, NSHADER_BACKEND_SPV, NSHADER_BACKEND_MSL, NSHADER_BACKEND_DXBC].find?
    fun backend =>
      supports backend &&
        (match shader.blob_at stage_type backend with
          | some blob => decide (0 < blob.size)
          | none => false)

/-- Whether a device with the given format mask supports a backend. -/
def device_supports (supported_formats : Nat) (backend : Nat) : Bool :=
  decide ((supported_formats &&& nshader_backend_to_sdl_format backend) ≠ 0)

/-- A bundle with a Vertex stage that lists the backends DXIL and SPV but holds a blob of
the stage for SPV only. -/
def partial_blob_bundle : nshader_t :=
  { info :=
      { type := NSHADER_SHADER_TYPE_GRAPHICS
        stages := [ { type := NSHADER_STAGE_TYPE_VERTEX, entry_point := some text_main,
                      metadata := default } ]
        backends := [NSHADER_BACKEND_DXIL, NSHADER_BACKEND_SPV] }
    blobs :=
      [ [none, none, none, some { data := some [3, 2, 35, 7] }],
        [none, none, none, none],
        [none, none, none, none] ] }

/-- A big-endian host with four-byte enums. -/
def host_be : Host := { enum_size := 4, big_endian := true }

/-- The magic constant as the specification gives it. -/
def SPEC_MAGIC : Nat := 0x4E534452

/-- Input for `host_x64`: magic, version 1, shader type 0, no stages, no backends, twelve
zero presence flags (32 bytes, the enum field four bytes wide). -/
def minimal_buffer_x64 : List Byte :=
  [78, 83, 68, 82, 1, 0, 0, 0,
   0, 0, 0, 0,
   0, 0, 0, 0,
   0, 0, 0, 0,
   0, 0, 0, 0, 0, 0, 0, 0, 0, 0, 0, 0]

/-- Input for `host_x64`: one Vertex stage with entry point "m" and one input binding
whose name has length zero, location 7, vector size 4, type 9; no outputs, no backends,
no blobs. -/
def nameless_binding_buffer : List Byte :=
  [78, 83, 68, 82, 1, 0, 0, 0,
   0, 0, 0, 0, 1, 0, 0, 0,
   0, 0, 0, 0, 1, 0, 0, 0, 109,
   0, 0, 0, 0, 0, 0, 0, 0, 0, 0, 0, 0, 0, 0, 0, 0,
   1, 0, 0, 0,
   0, 0, 0, 0, 7, 0, 0, 0, 4, 0, 0, 0, 9, 0, 0, 0,
   0, 0, 0, 0,
   0, 0, 0, 0,
   0, 0, 0, 0, 0, 0, 0, 0, 0, 0, 0, 0]

/-- Input for `host_x64`: one Vertex stage whose entry point has length zero, zero
resource counts, no bindings, no backends, no blobs. -/
def entryless_buffer : List Byte :=
  [78, 83, 68, 82, 1, 0, 0, 0,
   0, 0, 0, 0, 1, 0, 0, 0,
   0, 0, 0, 0, 0, 0, 0, 0,
   0, 0, 0, 0, 0, 0, 0, 0, 0, 0, 0, 0, 0, 0, 0, 0,
   0, 0, 0, 0,
   0, 0, 0, 0,
   0, 0, 0, 0,
   0, 0, 0, 0, 0, 0, 0, 0, 0, 0, 0, 0]

/-! ## The blob section -/

/-- The encoding of one blob slot as the specification words it: the byte 1, the 32-bit
little-endian size and the bytes of the blob when the slot holds a non-null blob of
non-zero length, the single byte 0 for every other slot. -/
def slot_encoding (slot : Option nshader_blob_t) : List Byte :=
  match slot with
  | some blob =>
    match blob.data with
    | some data => if data.length ≠ 0 then [1] ++ le_bytes 4 data.length ++ data else [0]
    | none => [0]
  | none => [0]

/-- The blob section as the specification words it: the slot encodings of the twelve
(stage type, backend) pairs, stage type outer (Vertex, Fragment, Compute), backend inner
(DXIL, DXBC, MSL, SPV). -/
def blob_section (shader : nshader_t) : List Byte :=
  slot_encoding (shader.blob_at NSHADER_STAGE_TYPE_VERTEX NSHADER_BACKEND_DXIL)
    ++ slot_encoding (shader.blob_at NSHADER_STAGE_TYPE_VERTEX NSHADER_BACKEND_DXBC)
    ++ slot_encoding (shader.blob_at NSHADER_STAGE_TYPE_VERTEX NSHADER_BACKEND_MSL)
    ++ slot_encoding (shader.blob_at NSHADER_STAGE_TYPE_VERTEX NSHADER_BACKEND_SPV)
    ++ slot_encoding (shader.blob_at NSHADER_STAGE_TYPE_FRAGMENT NSHADER_BACKEND_DXIL)
    ++ slot_encoding (shader.blob_at NSHADER_STAGE_TYPE_FRAGMENT NSHADER_BACKEND_DXBC)
    ++ slot_encoding (shader.blob_at NSHADER_STAGE_TYPE_FRAGMENT NSHADER_BACKEND_MSL)
    ++ slot_encoding (shader.blob_at NSHADER_STAGE_TYPE_FRAGMENT NSHADER_BACKEND_SPV)
    ++ slot_encoding (shader.blob_at NSHADER_STAGE_TYPE_COMPUTE NSHADER_BACKEND_DXIL)
    ++ slot_encoding (shader.blob_at NSHADER_STAGE_TYPE_COMPUTE NSHADER_BACKEND_DXBC)
    ++ slot_encoding (shader.blob_at NSHADER_STAGE_TYPE_COMPUTE NSHADER_BACKEND_MSL)
    ++ slot_encoding (shader.blob_at NSHADER_STAGE_TYPE_COMPUTE NSHADER_BACKEND_SPV)

/-- The fields `nshader_write_to_memory` emits in front of the blob section. -/
def info_fields (h : Host) (shader : nshader_t) : List (List Byte) :=
  [u32_field h NSHADER_MAGIC, u32_field h NSHADER_VERSION, [byte_of shader.info.type],
   u32_field h (shader.info.stages.length % 2 ^ 32)]
    ++ stages_fields h shader.info.stages
    ++ [u32_field h (shader.info.backends.length % 2 ^ 32)]
    ++ backends_fields shader.info.backends

/-- What the reader stores for a slot that was written as `slot_encoding slot`: a blob
with the data, or NULL. -/
def slot_read_back (slot : Option nshader_blob_t) : Option nshader_blob_t :=
  match slot with
  | some blob =>
    match blob.data with
    | some data => if data.length ≠ 0 then some { data := some data } else none
    | none => none
  | none => none

/-- The table the reader builds from `blob_section shader`. -/
def table_read_back (shader : nshader_t) : List (List (Option nshader_blob_t)) :=
  [ [ slot_read_back (shader.blob_at NSHADER_STAGE_TYPE_VERTEX NSHADER_BACKEND_DXIL),
      slot_read_back (shader.blob_at NSHADER_STAGE_TYPE_VERTEX NSHADER_BACKEND_DXBC),
      slot_read_back (shader.blob_at NSHADER_STAGE_TYPE_VERTEX NSHADER_BACKEND_MSL),
      slot_read_back (shader.blob_at NSHADER_STAGE_TYPE_VERTEX NSHADER_BACKEND_SPV) ],
    [ slot_read_back (shader.blob_at NSHADER_STAGE_TYPE_FRAGMENT NSHADER_BACKEND_DXIL),
      slot_read_back (shader.blob_at NSHADER_STAGE_TYPE_FRAGMENT NSHADER_BACKEND_DXBC),
      slot_read_back (shader.blob_at NSHADER_STAGE_TYPE_FRAGMENT NSHADER_BACKEND_MSL),
      slot_read_back (shader.blob_at NSHADER_STAGE_TYPE_FRAGMENT NSHADER_BACKEND_SPV) ],
    [ slot_read_back (shader.blob_at NSHADER_STAGE_TYPE_COMPUTE NSHADER_BACKEND_DXIL),
      slot_read_back (shader.blob_at NSHADER_STAGE_TYPE_COMPUTE NSHADER_BACKEND_DXBC),
      slot_read_back (shader.blob_at NSHADER_STAGE_TYPE_COMPUTE NSHADER_BACKEND_MSL),
      slot_read_back (shader.blob_at NSHADER_STAGE_TYPE_COMPUTE NSHADER_BACKEND_SPV) ] ]

/-- Every blob of the table has a size that fits a `uint32_t`. -/
def blob_sizes_fit (shader : nshader_t) : Prop :=
  ∀ stage_idx < NSHADER_STAGE_TYPE_COUNT, ∀ backend_idx < NSHADER_BACKEND_COUNT,
    ∀ blob, shader.blob_at stage_idx backend_idx = some blob → blob.size < 2 ^ 32

/-- The unread part of the input is exactly `bytes`. -/
def Cursor.sees (c : Cursor) (bytes : List Byte) : Prop :=
  c.memory.drop c.buffer = bytes ∧ c.remaining = bytes.length

/-- The slot encodings of a sequence of slots, in order. -/
def slots_encoding : List (Option nshader_blob_t) → List Byte
  | [] => []
  | slot :: rest => slot_encoding slot ++ slots_encoding rest

/-- The slot encodings of the rows of a table, in order. -/
def rows_encoding : List (List (Option nshader_blob_t)) → List Byte
  | [] => []
  | row :: rest => slots_encoding row ++ rows_encoding rest

/-- The table of a bundle as its three rows of four entries. -/
def table_rows (shader : nshader_t) : List (List (Option nshader_blob_t)) :=
  [ [ shader.blob_at NSHADER_STAGE_TYPE_VERTEX NSHADER_BACKEND_DXIL,
      shader.blob_at NSHADER_STAGE_TYPE_VERTEX NSHADER_BACKEND_DXBC,
      shader.blob_at NSHADER_STAGE_TYPE_VERTEX NSHADER_BACKEND_MSL,
      shader.blob_at NSHADER_STAGE_TYPE_VERTEX NSHADER_BACKEND_SPV ],
    [ shader.blob_at NSHADER_STAGE_TYPE_FRAGMENT NSHADER_BACKEND_DXIL,
      shader.blob_at NSHADER_STAGE_TYPE_FRAGMENT NSHADER_BACKEND_DXBC,
      shader.blob_at NSHADER_STAGE_TYPE_FRAGMENT NSHADER_BACKEND_MSL,
      shader.blob_at NSHADER_STAGE_TYPE_FRAGMENT NSHADER_BACKEND_SPV ],
    [ shader.blob_at NSHADER_STAGE_TYPE_COMPUTE NSHADER_BACKEND_DXIL,
      shader.blob_at NSHADER_STAGE_TYPE_COMPUTE NSHADER_BACKEND_DXBC,
      shader.blob_at NSHADER_STAGE_TYPE_COMPUTE NSHADER_BACKEND_MSL,
      shader.blob_at NSHADER_STAGE_TYPE_COMPUTE NSHADER_BACKEND_SPV ] ]

/-- The size of the blob in a slot fits a `uint32_t`. -/
def slot_size_fits (slot : Option nshader_blob_t) : Prop :=
  ∀ blob, slot = some blob → blob.size < 2 ^ 32

/-- The statements of `nshader_read_from_memory` in front of the stage loop: magic and
version checks, `READ_U8(info->type)` and `READ_U32(num_stages)`. The result is the
shader type and the stage count. -/
def read_preamble (h : Host) : Step Cursor (Nat × Nat) :=
  do
    let magic ← READ_U32 h
    if magic ≠ NSHADER_MAGIC then
      Step.fail
    else do
      let version ← READ_U32 h
      if version ≠ NSHADER_VERSION then
        Step.fail
      else do
        let type ← READ_U8 h h.enum_size
        let num_stages ← READ_U32 h
        pure (type, num_stages)

/-- The statements of `nshader_read_from_memory` from the stage loop on. -/
def read_body (h : Host) (type num_stages : Nat) : Step Cursor nshader_t :=
  do
    let stages ← read_array (read_stage h) num_stages
    let num_backends ← READ_U32 h
    let backends ← read_array (READ_U8 h h.enum_size) num_backends
    let blobs ← read_array (read_array (read_blob h) NSHADER_BACKEND_COUNT)
      NSHADER_STAGE_TYPE_COUNT
    pure { info := { type := type, stages := stages, backends := backends },
           blobs := blobs }

/-- The cursor of `host_x64` on `entryless_buffer` at the start of its stage (offset 16,
after magic, version, shader type and stage count). -/
def entryless_stage_cursor : Cursor :=
  ((((Cursor.init entryless_buffer).advance 4).advance 4).advance 4).advance 4

/-- The cursor of `host_x64` on `entryless_buffer` at the entry-point length field
(offset 20, after the stage type). -/
def entryless_entry_cursor : Cursor := entryless_stage_cursor.advance 4

instance (c : Cursor) : Decidable c.in_bounds := by
  unfold Cursor.in_bounds
  infer_instance

/-- The create info for the Vertex stage of `scenario_bundle` in SPIR-V. -/
def scenario_vertex_create_info : SDL_GPUShaderCreateInfo :=
  { code_size := 16, code := List.replicate 16 7, entrypoint := text_main,
    format := SDL_GPU_SHADERFORMAT_SPIRV, stage := SDL_GPU_SHADERSTAGE_VERTEX,
    num_samplers := 0, num_storage_textures := 0, num_storage_buffers := 0,
    num_uniform_buffers := 0, props := 0 }

/-! ## Names and kinds (nshader_info.c) -/

def nshader_backend_to_extension (backend : Nat) : String :=
  if backend = NSHADER_BACKEND_DXIL then ".dxil"
  else if backend = NSHADER_BACKEND_DXBC then ".dxbc"
  else if backend = NSHADER_BACKEND_MSL then ".msl"
  else if backend = NSHADER_BACKEND_SPV then ".spv"
  else ".unknown"

def nshader_backend_to_string (backend : Nat) : String :=
  if backend = NSHADER_BACKEND_DXIL then "DXIL"
  else if backend = NSHADER_BACKEND_DXBC then "DXBC"
  else if backend = NSHADER_BACKEND_MSL then "MSL"
  else if backend = NSHADER_BACKEND_SPV then "SPIR-V"
  else "Unknown"

def nshader_stage_type_to_shader_type (stage_type : Nat) : Nat :=
  if stage_type = NSHADER_STAGE_TYPE_VERTEX ∨ stage_type = NSHADER_STAGE_TYPE_FRAGMENT then
    NSHADER_SHADER_TYPE_GRAPHICS
  else if stage_type = NSHADER_STAGE_TYPE_COMPUTE then
    NSHADER_SHADER_TYPE_COMPUTE
  else
    NSHADER_SHADER_TYPE_GRAPHICS

/-! ## Compute metadata -/

/-- The nine fields of a compute metadata block in the order of the format: samplers,
read-only storage textures, read-only storage buffers, read-write storage textures,
read-write storage buffers, uniform buffers, thread count x, y, z; four bytes each,
least significant byte first. -/
def compute_wire_fields (compute : nshader_stage_metadata_compute_t) : List (List Byte) :=
  [le_bytes 4 compute.num_samplers, le_bytes 4 compute.num_readonly_storage_textures,
   le_bytes 4 compute.num_readonly_storage_buffers,
   le_bytes 4 compute.num_readwrite_storage_textures,
   le_bytes 4 compute.num_readwrite_storage_buffers, le_bytes 4 compute.num_uniform_buffers,
   le_bytes 4 compute.threadcount_x, le_bytes 4 compute.threadcount_y,
   le_bytes 4 compute.threadcount_z]

/-- Every field of the compute metadata fits a `uint32_t`. -/
def compute_fits (compute : nshader_stage_metadata_compute_t) : Prop :=
  compute.num_samplers < 2 ^ 32 ∧ compute.num_readonly_storage_textures < 2 ^ 32 ∧
    compute.num_readonly_storage_buffers < 2 ^ 32 ∧
    compute.num_readwrite_storage_textures < 2 ^ 32 ∧
    compute.num_readwrite_storage_buffers < 2 ^ 32 ∧ compute.num_uniform_buffers < 2 ^ 32 ∧
    compute.threadcount_x < 2 ^ 32 ∧ compute.threadcount_y < 2 ^ 32 ∧
    compute.threadcount_z < 2 ^ 32

/-- Compute metadata with the thread count (8, 8, 1). -/
def compute_metadata_881 : nshader_stage_metadata_compute_t :=
  { num_samplers := 1, num_readonly_storage_textures := 2, num_readonly_storage_buffers := 3,
    num_readwrite_storage_textures := 4, num_readwrite_storage_buffers := 5,
    num_uniform_buffers := 6, threadcount_x := 8, threadcount_y := 8, threadcount_z := 1 }

/-- A compute bundle: one Compute stage with entry point "main" and the thread count
(8, 8, 1), backend SPV, and one 8-byte blob at (Compute, SPV). -/
def compute_bundle : nshader_t :=
  { info :=
      { type := NSHADER_SHADER_TYPE_COMPUTE
        stages :=
          [ { type := NSHADER_STAGE_TYPE_COMPUTE, entry_point := some text_main,
              metadata :=
                { (default : nshader_stage_metadata_t) with
                  compute := compute_metadata_881 } } ]
        backends := [NSHADER_BACKEND_SPV] }
    blobs :=
      [ [none, none, none, none],
        [none, none, none, none],
        [none, none, none, some { data := some (List.replicate 8 5) }] ] }

/-! ## Buffers that no check rejects -/

/-- Input for `host_x64`: no stages, a backend count of 2 with the tag SPV twice (four
bytes each), no blobs. -/
def duplicate_backend_buffer : List Byte :=
  [78, 83, 68, 82, 1, 0, 0, 0,
   0, 0, 0, 0, 0, 0, 0, 0,
   2, 0, 0, 0, 3, 0, 0, 0, 3, 0, 0, 0,
   0, 0, 0, 0, 0, 0, 0, 0, 0, 0, 0, 0]

/-- Input in the layout of the format (one byte per tag): no stages, a backend count of 2
with the tag SPV twice, no blobs. -/
def duplicate_backend_buffer_short : List Byte :=
  [78, 83, 68, 82, 1, 0, 0, 0,
   0, 0, 0, 0, 0,
   2, 0, 0, 0, 3, 3,
   0, 0, 0, 0, 0, 0, 0, 0, 0, 0, 0, 0]

/-! ## Assembly of a bundle by the compiler (nshader_compiler.c)

The calls into SDL_shadercross (compilation to SPIR-V, translation to the other
backends, reflection) are outside the repository; their outcome for one stage is a
`compiled_stage_t`. -/

/-- The fields of `nshader_compiler_config_t` that the assembly of the bundle reads. -/
structure nshader_compiler_config_t where
  disable_dxil : Bool
  disable_dxbc : Bool
  disable_msl : Bool
  disable_spv : Bool
deriving DecidableEq, Repr

/-- The struct `compiled_stage_t` after `compile_stage_to_spirv`, `compile_backends` and
`reflect_stage_metadata`: a data pointer is none for NULL and its size is the length of
the list; `metadata` is the value the copy from the reflection data gives
`stage_info->metadata`. -/
structure compiled_stage_t where
  stage_type : Nat
  entry_point : Option CString
  dxil_data : Option (List Byte)
  dxbc_data : Option (List Byte)
  msl_data : Option (List Byte)
  spv_data : Option (List Byte)
  metadata : nshader_stage_metadata_t
deriving DecidableEq, Repr

/-- The block "Determine available backends" of `nshader_compiler_compile_hlsl`. -/
def available_backends (config : nshader_compiler_config_t) (first : compiled_stage_t) :
    List Nat :=
  (if !config.disable_dxil && first.dxil_data.isSome then [NSHADER_BACKEND_DXIL] else [])
    ++ (if !config.disable_dxbc && first.dxbc_data.isSome then [NSHADER_BACKEND_DXBC] else [])
    ++ (if !config.disable_msl && first.msl_data.isSome then [NSHADER_BACKEND_MSL] else [])
    ++ (if !config.disable_spv && first.spv_data.isSome then [NSHADER_BACKEND_SPV] else [])

/-- The switch that picks `data_to_copy` for a backend. -/
def data_to_copy (compiled : compiled_stage_t) (backend : Nat) : Option (List Byte) :=
  if backend = NSHADER_BACKEND_DXIL then compiled.dxil_data
  else if backend = NSHADER_BACKEND_DXBC then compiled.dxbc_data
  else if backend = NSHADER_BACKEND_MSL then compiled.msl_data
  else if backend = NSHADER_BACKEND_SPV then compiled.spv_data
  else none

/-- The assignment `shader->blobs[stage_idx][backend_idx] = blob`; an index outside the
table leaves the table as it is. -/
def store_blob (blobs : List (List (Option nshader_blob_t))) (stage_idx backend_idx : Nat)
    (blob : nshader_blob_t) : List (List (Option nshader_blob_t)) :=
  blobs.set stage_idx ((blobs.getD stage_idx []).set backend_idx (some blob))

/-- The loop "Store blobs for each backend" for one compiled stage. -/
def store_stage_blobs (compiled : compiled_stage_t) :
    List Nat → List (List (Option nshader_blob_t)) → List (List (Option nshader_blob_t))
  | [], blobs => blobs
  | backend :: rest, blobs =>
    match data_to_copy compiled backend with
    | some data =>
      if data.length > 0 then
        store_stage_blobs compiled rest
          (store_blob blobs compiled.stage_type backend { data := some data })
      else store_stage_blobs compiled rest blobs
    | none => store_stage_blobs compiled rest blobs

/-- The loop "Fill in stage metadata and blobs", as far as the table is concerned. -/
def store_blobs (backends : List Nat) :
    List compiled_stage_t → List (List (Option nshader_blob_t)) →
      List (List (Option nshader_blob_t))
  | [], blobs => blobs
  | compiled :: rest, blobs => store_blobs backends rest (store_stage_blobs compiled backends blobs)

/-- The element `shader->info.stages[stage_idx]` the loop fills from a compiled stage. -/
def stage_info_of (compiled : compiled_stage_t) : nshader_stage_t :=
  { type := compiled.stage_type, entry_point := compiled.entry_point,
    metadata := compiled.metadata }

/-- The table of a freshly `calloc`ed `nshader_t`. -/
def empty_table : List (List (Option nshader_blob_t)) :=
  List.replicate NSHADER_STAGE_TYPE_COUNT (List.replicate NSHADER_BACKEND_COUNT none)

/-- The function `nshader_compiler_compile_hlsl`, allocations succeeding: `compiled` is
the outcome of the loop "Compile each stage" over the `config->num_stages` stage setups
(none when a stage failed to compile). -/
def nshader_compiler_compile_hlsl (config : Option nshader_compiler_config_t)
    (compiled : Option (List compiled_stage_t)) : Option nshader_t :=
  match config, compiled with
  | some config, some (first :: others) =>
    some
      { info :=
          { type := nshader_stage_type_to_shader_type first.stage_type
            stages := (first :: others).map stage_info_of
            backends := available_backends config first }
        blobs := store_blobs (available_backends config first) (first :: others) empty_table }
  | _, _ => none

/-- Input for `host_x64`: kind Compute, one Vertex stage with entry point "m", zero
resource counts, no bindings, no backends, no blobs. -/
def kind_mismatch_buffer : List Byte :=
  [78, 83, 68, 82, 1, 0, 0, 0,
   1, 0, 0, 0, 1, 0, 0, 0,
   0, 0, 0, 0, 1, 0, 0, 0, 109,
   0, 0, 0, 0, 0, 0, 0, 0, 0, 0, 0, 0, 0, 0, 0, 0,
   0, 0, 0, 0,
   0, 0, 0, 0,
   0, 0, 0, 0,
   0, 0, 0, 0, 0, 0, 0, 0, 0, 0, 0, 0]

/-- The same input in the layout of the format (one byte per kind). -/
def kind_mismatch_buffer_short : List Byte :=
  [78, 83, 68, 82, 1, 0, 0, 0,
   1, 1, 0, 0, 0,
   0, 1, 0, 0, 0, 109,
   0, 0, 0, 0, 0, 0, 0, 0, 0, 0, 0, 0, 0, 0, 0, 0,
   0, 0, 0, 0,
   0, 0, 0, 0,
   0, 0, 0, 0,
   0, 0, 0, 0, 0, 0, 0, 0, 0, 0, 0, 0]

/-- The bundle `kind_mismatch_buffer` holds: kind Compute, one Vertex stage "m". -/
def kind_mismatch_bundle : nshader_t :=
  { info :=
      { type := NSHADER_SHADER_TYPE_COMPUTE
        stages :=
          [ { type := NSHADER_STAGE_TYPE_VERTEX, entry_point := some [109],
              metadata := default } ]
        backends := [] }
    blobs := [ [none, none, none, none], [none, none, none, none], [none, none, none, none] ] }

/-- A compiled Compute stage with entry point "main" and SPIR-V data only. -/
def compiled_compute_stage : compiled_stage_t :=
  { stage_type := NSHADER_STAGE_TYPE_COMPUTE, entry_point := some text_main,
    dxil_data := none, dxbc_data := none, msl_data := none,
    spv_data := some (List.replicate 8 5),
    metadata := { (default : nshader_stage_metadata_t) with compute := compute_metadata_881 } }

/-- A configuration that disables no backend. -/
def config_all_backends : nshader_compiler_config_t :=
  { disable_dxil := false, disable_dxbc := false, disable_msl := false, disable_spv := false }

/-- A bundle with two Vertex stages, entry points "a" and "b", no bindings, no backends
and no blobs. -/
def duplicate_stage_bundle : nshader_t :=
  { info :=
      { type := NSHADER_SHADER_TYPE_GRAPHICS
        stages :=
          [ { type := NSHADER_STAGE_TYPE_VERTEX, entry_point := some [97],
              metadata := default },
            { type := NSHADER_STAGE_TYPE_VERTEX, entry_point := some [98],
              metadata := default } ]
        backends := [] }
    blobs := [ [none, none, none, none], [none, none, none, none], [none, none, none, none] ] }

/-- The bundle `duplicate_stage_bundle` in the layout of the format: kind, stage count 2,
two stages of kind Vertex (one byte each) with entry points "a" and "b", backend count 0,
twelve absent slots. -/
def duplicate_stage_buffer_short : List Byte :=
  [78, 83, 68, 82, 1, 0, 0, 0,
   0, 2, 0, 0, 0,
   0, 1, 0, 0, 0, 97,
   0, 0, 0, 0, 0, 0, 0, 0, 0, 0, 0, 0, 0, 0, 0, 0, 0, 0, 0, 0, 0, 0, 0, 0,
   0, 1, 0, 0, 0, 98,
   0, 0, 0, 0, 0, 0, 0, 0, 0, 0, 0, 0, 0, 0, 0, 0, 0, 0, 0, 0, 0, 0, 0, 0,
   0, 0, 0, 0,
   0, 0, 0, 0, 0, 0, 0, 0, 0, 0, 0, 0]

/-- Input for `host_x64`: the same fields with four bytes for each kind. -/
def duplicate_stage_buffer : List Byte :=
  [78, 83, 68, 82, 1, 0, 0, 0,
   0, 0, 0, 0, 2, 0, 0, 0,
   0, 0, 0, 0, 1, 0, 0, 0, 97,
   0, 0, 0, 0, 0, 0, 0, 0, 0, 0, 0, 0, 0, 0, 0, 0, 0, 0, 0, 0, 0, 0, 0, 0,
   0, 0, 0, 0, 1, 0, 0, 0, 98,
   0, 0, 0, 0, 0, 0, 0, 0, 0, 0, 0, 0, 0, 0, 0, 0, 0, 0, 0, 0, 0, 0, 0, 0,
   0, 0, 0, 0,
   0, 0, 0, 0, 0, 0, 0, 0, 0, 0, 0, 0]

/-- Input for `host_x64` whose bytes 9 to 12 hold the count 2: the decoder reads the kind
from bytes 8 to 11 and a stage count of 0 from bytes 12 to 15. -/
def misread_count_buffer : List Byte :=
  [78, 83, 68, 82, 1, 0, 0, 0,
   0, 2, 0, 0, 0, 0, 0, 0,
   0, 0, 0, 0,
   0, 0, 0, 0, 0, 0, 0, 0, 0, 0, 0, 0]

/-- What `host_x64` decodes from `misread_count_buffer`. -/
def misread_count_bundle : nshader_t :=
  { info := { type := 512, stages := [], backends := [] }
    blobs := [ [none, none, none, none], [none, none, none, none], [none, none, none, none] ] }

/-! ## Loop iterations of the reader -/

/-- The number of iterations a counted loop `for (i = 0; i < count; i++)` of the reader
completes when it starts at cursor `c`: the loop is left at the first element that
cannot be read. -/
def completed_iterations {α : Type} (element : Step Cursor α) : Nat → Cursor → Nat
  | 0, _ => 0
  | count + 1, c =>
    match element c with
    | (some _, c1) => 1 + completed_iterations element count c1
    | (none, _) => 0

/-- The iterations of the binding loops that reading a stage of this type completes. -/
def binding_iterations (stage : nshader_stage_t) : Nat :=
  if stage.type = NSHADER_STAGE_TYPE_VERTEX then
    stage.metadata.vertex.inputs.length + stage.metadata.vertex.outputs.length
  else if stage.type = NSHADER_STAGE_TYPE_FRAGMENT then
    stage.metadata.fragment.inputs.length + stage.metadata.fragment.outputs.length
  else 0

/-- The iterations of the stage, binding and backend loops that a successful run of
`nshader_read_from_memory` with this result has completed. -/
def loop_iterations (shader : nshader_t) : Nat :=
  shader.info.stages.length + (shader.info.stages.map binding_iterations).sum
    + shader.info.backends.length

/-! ## The size of the encoding in closed form -/

/-- The bindings of the metadata member that the stage type selects: inputs, then
outputs. -/
def stage_bindings (stage : nshader_stage_t) : List nshader_stage_binding_t :=
  if stage.type = NSHADER_STAGE_TYPE_VERTEX then
    stage.metadata.vertex.inputs ++ stage.metadata.vertex.outputs
  else if stage.type = NSHADER_STAGE_TYPE_FRAGMENT then
    stage.metadata.fragment.inputs ++ stage.metadata.fragment.outputs
  else []

/-- The length of an optional C string; 0 for NULL. -/
def string_length (str : Option CString) : Nat := strlen (str.getD [])

/-- The size the closed form gives a binding: 16 + len(name). -/
def closed_form_binding_size (binding : nshader_stage_binding_t) : Nat :=
  16 + string_length binding.name

/-- The size `M` the closed form gives the metadata of a stage: 36 for a Compute stage,
24 + the sizes of its input and output bindings for a Vertex or Fragment stage. -/
def closed_form_metadata_size (stage : nshader_stage_t) : Nat :=
  if stage.type = NSHADER_STAGE_TYPE_COMPUTE then 36
  else 24 + ((stage_bindings stage).map closed_form_binding_size).sum

/-- The size the closed form gives a stage: 5 + len(entry point) + M. -/
def closed_form_stage_size (stage : nshader_stage_t) : Nat :=
  5 + string_length stage.entry_point + closed_form_metadata_size stage

/-- The size the closed form adds for a table entry: 4 + blob size for a present slot
(a blob with data of non-zero size), nothing for any other. -/
def closed_form_slot_size (slot : Option nshader_blob_t) : Nat :=
  match slot with
  | some blob =>
    match blob.data with
    | some _ => if blob.size > 0 then 4 + blob.size else 0
    | none => 0
  | none => 0

/-- The closed form of the encoded size: 29 + the stage sizes + the number of backends +
the sizes of the present slots. -/
def closed_form_size (shader : nshader_t) : Nat :=
  29 + (shader.info.stages.map closed_form_stage_size).sum + shader.info.backends.length
    + ((List.range NSHADER_STAGE_TYPE_COUNT).map fun stage_idx =>
        ((List.range NSHADER_BACKEND_COUNT).map fun backend_idx =>
          closed_form_slot_size (shader.blob_at stage_idx backend_idx)).sum).sum

/-- Every entry point and every binding name the encoder emits is shorter than 2^32
bytes. -/
def short_strings (shader : nshader_t) : Prop :=
  ∀ stage ∈ shader.info.stages, string_length stage.entry_point < 2 ^ 32 ∧
    ∀ binding ∈ stage_bindings stage, string_length binding.name < 2 ^ 32

instance (shader : nshader_t) : Decidable (short_strings shader) := by
  unfold short_strings
  infer_instance

/-- A bundle with one Vertex stage whose entry point is `entry_length` bytes 'A'. -/
def long_entry_bundle (entry_length : Nat) : nshader_t :=
  { info :=
      { type := NSHADER_SHADER_TYPE_GRAPHICS
        stages :=
          [ { type := NSHADER_STAGE_TYPE_VERTEX
              entry_point := some (List.replicate entry_length 65)
              metadata := default } ]
        backends := [] }
    blobs := [ [none, none, none, none], [none, none, none, none], [none, none, none, none] ] }

/-! ## The reader with its allocations (nshader_reader.c)

A second embedding of `nshader_read_from_memory` that keeps what the first one drops: the
calls of `nshader_malloc`, `nshader_calloc` and `nshader_free`, and the object under
construction that `nshader_destroy` walks at the label `error`. The integers the first
embedding returns are not kept. Every allocation succeeds. -/

/-- The allocator state: `next` counts the allocations made so far and names the next
one, `live` holds the allocations that have not been freed. -/
structure Heap where
  next : Nat
  live : List Nat
deriving DecidableEq, Repr

/-- A successful `nshader_malloc` or `nshader_calloc`: the new pointer and the state. -/
def Heap.malloc (heap : Heap) : Nat × Heap :=
  (heap.next, { next := heap.next + 1, live := heap.next :: heap.live })

/-- The call `nshader_free(ptr)`; none is NULL. -/
def Heap.free (heap : Heap) (ptr : Option Nat) : Heap :=
  match ptr with
  | none => heap
  | some p => { heap with live := heap.live.erase p }

/-- The locals `buffer` and `remaining` together with the allocator state. -/
structure Reader where
  cursor : Cursor
  heap : Heap
deriving DecidableEq, Repr

/-- The pointer field of a `nshader_stage_binding_t` in memory. -/
structure binding_object where
  name : Option Nat
deriving DecidableEq, Repr

/-- One of the two binding arrays of a vertex or fragment metadata member in memory:
the array pointer, the count, and the elements written so far (the others are zero
from `nshader_calloc`). -/
structure binding_array_object where
  elements_ptr : Option Nat
  count : Nat
  elements : List binding_object
deriving DecidableEq, Repr

/-- The pointer-bearing fields of the metadata union in memory: the vertex and the
fragment member have the same layout, the compute member holds no pointer. -/
structure metadata_object where
  inputs : binding_array_object
  outputs : binding_array_object
deriving DecidableEq, Repr

structure stage_object where
  type : Nat
  entry_point : Option Nat
  metadata : metadata_object
deriving DecidableEq, Repr

/-- A `nshader_blob_t` in memory: its own pointer and its field `data`. -/
structure blob_object where
  ptr : Nat
  data : Option Nat
deriving DecidableEq, Repr

/-- The `nshader_t` under construction: its own pointer, the stage array with the
elements written so far, the backend array, and the table of blob pointers (none is
NULL). -/
structure shader_object where
  ptr : Nat
  stages : Option Nat
  num_stages : Nat
  stage_elements : List stage_object
  backends : Option Nat
  blobs : List (List (Option blob_object))
deriving DecidableEq, Repr

/-- A zeroed binding array. -/
def binding_array_object.zero : binding_array_object :=
  { elements_ptr := none, count := 0, elements := [] }

/-- A zeroed metadata union. -/
def metadata_object.zero : metadata_object :=
  { inputs := binding_array_object.zero, outputs := binding_array_object.zero }

/-- A counted loop `for (i = 0; i < count; i++)` whose body can `goto error`: whether it
ran to its end, and what the iterations stored, the failing one included. -/
def Mem.loop {α : Type} (body : Reader → Bool × α × Reader) :
    Nat → Reader → Bool × List α × Reader
  | 0, r => (true, [], r)
  | count + 1, r =>
    match body r with
    | (false, a, r1) => (false, [a], r1)
    | (true, a, r1) =>
      match Mem.loop body count r1 with
      | (ok, rest, r2) => (ok, a :: rest, r2)

/-- The helper `read_string` with its allocation: the returned pointer, none for NULL. -/
def Mem.read_string (h : Host) (r : Reader) : Option Nat × Reader :=
  match read_data 4 r.cursor with
  | (none, c) => (none, { r with cursor := c })
  | (some len_le, c) =>
    if from_le32 h (h.load len_le) = 0 then (none, { r with cursor := c })
    else
      match r.heap.malloc with
      | (str, heap) =>
        match read_data (from_le32 h (h.load len_le)) c with
        | (none, c1) => (none, { cursor := c1, heap := heap.free (some str) })
        | (some _, c1) => (some str, { cursor := c1, heap := heap })

/-- The helper `read_binding`: its result, the element `*binding` afterwards, and the
state. At the label `error` the name is freed and set to NULL. -/
def Mem.read_binding (h : Host) (r : Reader) : Bool × binding_object × Reader :=
  match Mem.read_string h r with
  | (name, r1) =>
    match (do
        let _ ← read_data 4
        let _ ← read_data 4
        let _ ← read_data h.enum_size
        pure ()) r1.cursor with
    | (some _, c) => (true, { name := name }, { r1 with cursor := c })
    | (none, c) => (false, { name := none }, { cursor := c, heap := r1.heap.free name })

/-- The statements of `read_stage_metadata` for one binding array: read the count, store
it, and for a non-zero count allocate the array and fill it. -/
def Mem.read_binding_array (h : Host) (r : Reader) : Bool × binding_array_object × Reader :=
  match READ_U32 h r.cursor with
  | (none, c) => (false, binding_array_object.zero, { r with cursor := c })
  | (some count, c) =>
    if count > 0 then
      match r.heap.malloc with
      | (elements_ptr, heap) =>
        match Mem.loop (Mem.read_binding h) count { cursor := c, heap := heap } with
        | (ok, elements, r1) =>
          (ok, { elements_ptr := some elements_ptr, count := count, elements := elements }, r1)
    else (true, { elements_ptr := none, count := count, elements := [] }, { r with cursor := c })

/-- The helper `read_stage_metadata`: its result, the union afterwards, and the state. -/
def Mem.read_stage_metadata (h : Host) (stage_type : Nat) (r : Reader) :
    Bool × metadata_object × Reader :=
  if stage_type = NSHADER_STAGE_TYPE_VERTEX ∨ stage_type = NSHADER_STAGE_TYPE_FRAGMENT then
    match (do
        let _ ← READ_U32 h
        let _ ← READ_U32 h
        let _ ← READ_U32 h
        let _ ← READ_U32 h
        pure ()) r.cursor with
    | (none, c) => (false, metadata_object.zero, { r with cursor := c })
    | (some _, c) =>
      match Mem.read_binding_array h { r with cursor := c } with
      | (false, inputs, r1) =>
        (false, { inputs := inputs, outputs := binding_array_object.zero }, r1)
      | (true, inputs, r1) =>
        match Mem.read_binding_array h r1 with
        | (ok, outputs, r2) => (ok, { inputs := inputs, outputs := outputs }, r2)
  else if stage_type = NSHADER_STAGE_TYPE_COMPUTE then
    match (do
        let _ ← READ_U32 h
        let _ ← READ_U32 h
        let _ ← READ_U32 h
        let _ ← READ_U32 h
        let _ ← READ_U32 h
        let _ ← READ_U32 h
        let _ ← READ_U32 h
        let _ ← READ_U32 h
        let _ ← READ_U32 h
        pure ()) r.cursor with
    | (none, c) => (false, metadata_object.zero, { r with cursor := c })
    | (some _, c) => (true, metadata_object.zero, { r with cursor := c })
  else (false, metadata_object.zero, r)

/-- The body of the stage loop of `nshader_read_from_memory`: whether it reached its end,
the element `*stage` afterwards, and the state. -/
def Mem.read_stage (h : Host) (r : Reader) : Bool × stage_object × Reader :=
  match READ_U8 h h.enum_size r.cursor with
  | (none, c) =>
    (false, { type := 0, entry_point := none, metadata := metadata_object.zero },
      { r with cursor := c })
  | (some type, c) =>
    match Mem.read_string h { r with cursor := c } with
    | (none, r1) =>
      (false, { type := type, entry_point := none, metadata := metadata_object.zero }, r1)
    | (some entry_point, r1) =>
      match Mem.read_stage_metadata h type r1 with
      | (ok, metadata, r2) =>
        (ok, { type := type, entry_point := some entry_point, metadata := metadata }, r2)

/-- The body of the two blob loops of `nshader_read_from_memory`: whether it reached its
end, the pointer `shader->blobs[stage_idx][backend_idx]` afterwards, and the state. When
`READ_U32(blob_size)` or `READ_BYTES(data, blob->size)` goes to `error`, `blob` and
`data` are locals that nothing stores and nothing frees. -/
def Mem.read_blob (h : Host) (r : Reader) : Bool × Option blob_object × Reader :=
  match READ_U8 h 1 r.cursor with
  | (none, c) => (false, none, { r with cursor := c })
  | (some has_blob, c) =>
    if has_blob ≠ 0 then
      match r.heap.malloc with
      | (blob, heap) =>
        match READ_U32 h c with
        | (none, c1) => (false, none, { cursor := c1, heap := heap })
        | (some blob_size, c1) =>
          match heap.malloc with
          | (data, heap1) =>
            match READ_BYTES blob_size c1 with
            | (none, c2) => (false, none, { cursor := c2, heap := heap1 })
            | (some _, c2) =>
              (true, some { ptr := blob, data := some data }, { cursor := c2, heap := heap1 })
    else (true, none, { r with cursor := c })

/-- The loop of `free_stage_metadata` over one binding array, and the free of the
array. -/
def Mem.free_binding_array (array : binding_array_object) (heap : Heap) : Heap :=
  match array.elements_ptr with
  | none => heap
  | some elements_ptr =>
    (array.elements.foldl (fun (hp : Heap) (binding : binding_object) => hp.free binding.name)
      heap).free
      (some elements_ptr)

/-- The helper `free_stage_metadata`. -/
def Mem.free_stage_metadata (stage_type : Nat) (metadata : metadata_object) (heap : Heap) :
    Heap :=
  if stage_type = NSHADER_STAGE_TYPE_VERTEX ∨ stage_type = NSHADER_STAGE_TYPE_FRAGMENT then
    Mem.free_binding_array metadata.outputs (Mem.free_binding_array metadata.inputs heap)
  else heap

/-- The function `nshader_destroy` on a non-null shader. -/
def Mem.nshader_destroy (shader : shader_object) (heap : Heap) : Heap :=
  let heap1 :=
    match shader.stages with
    | none => heap
    | some stages =>
      (shader.stage_elements.foldl
        (fun (hp : Heap) (stage : stage_object) =>
          Mem.free_stage_metadata stage.type stage.metadata (hp.free stage.entry_point))
        heap).free (some stages)
  let heap2 := heap1.free shader.backends
  let heap3 :=
    shader.blobs.foldl
      (fun (hp : Heap) (row : List (Option blob_object)) =>
        row.foldl
          (fun (hp1 : Heap) (slot : Option blob_object) =>
            match slot with
            | none => hp1
            | some blob => (hp1.free blob.data).free (some blob.ptr))
          hp)
      heap2
  heap3.free (some shader.ptr)

/-- The statements of `nshader_read_from_memory` after the allocation of the shader:
whether they reached `return shader`, the shader object afterwards, and the state. -/
def Mem.read_fields (h : Host) (shader : Nat) (r : Reader) : Bool × shader_object × Reader :=
  match (do
      let _ ← READ_U8 h h.enum_size
      READ_U32 h) r.cursor with
  | (none, c) =>
    (false, { ptr := shader, stages := none, num_stages := 0, stage_elements := [],
              backends := none, blobs := [] }, { r with cursor := c })
  | (some num_stages, c) =>
    match (if num_stages > 0 then
        match r.heap.malloc with
        | (stages, heap) =>
          match Mem.loop (Mem.read_stage h) num_stages { cursor := c, heap := heap } with
          | (ok, elements, r1) => (ok, some stages, elements, r1)
      else (true, none, [], { r with cursor := c })) with
    | (false, stages, elements, r1) =>
      (false, { ptr := shader, stages := stages, num_stages := num_stages,
                stage_elements := elements, backends := none, blobs := [] }, r1)
    | (true, stages, elements, r1) =>
      match READ_U32 h r1.cursor with
      | (none, c1) =>
        (false, { ptr := shader, stages := stages, num_stages := num_stages,
                  stage_elements := elements, backends := none, blobs := [] },
          { r1 with cursor := c1 })
      | (some num_backends, c1) =>
        match (if num_backends > 0 then
            match r1.heap.malloc with
            | (backends, heap) =>
              match read_array (READ_U8 h h.enum_size) num_backends c1 with
              | (result, c2) => (result.isSome, some backends, { cursor := c2, heap := heap })
          else (true, none, { r1 with cursor := c1 })) with
        | (false, backends, r2) =>
          (false, { ptr := shader, stages := stages, num_stages := num_stages,
                    stage_elements := elements, backends := backends, blobs := [] }, r2)
        | (true, backends, r2) =>
          match Mem.loop (Mem.loop (Mem.read_blob h) NSHADER_BACKEND_COUNT)
              NSHADER_STAGE_TYPE_COUNT r2 with
          | (ok, blobs, r3) =>
            (ok, { ptr := shader, stages := stages, num_stages := num_stages,
                   stage_elements := elements, backends := backends, blobs := blobs }, r3)

/-- The function `nshader_read_from_memory` started in allocator state `heap`: the
returned shader (none for NULL) and the state when it returns. At the label `error` a
non-null `shader` is passed to `nshader_destroy`. -/
def Mem.nshader_read_from_memory (h : Host) (buffer : List Byte) (heap : Heap) :
    Option shader_object × Reader :=
  if buffer.length = 0 then (none, { cursor := Cursor.init buffer, heap := heap })
  else
    match (do
        let magic ← READ_U32 h
        if magic ≠ NSHADER_MAGIC then
          Step.fail
        else do
          let version ← READ_U32 h
          if version ≠ NSHADER_VERSION then
            Step.fail
          else
            pure ()) (Cursor.init buffer) with
    | (none, c) => (none, { cursor := c, heap := heap })
    | (some _, c) =>
      match heap.malloc with
      | (shader, heap1) =>
        match Mem.read_fields h shader { cursor := c, heap := heap1 } with
        | (true, object, r) => (some object, r)
        | (false, object, r) => (none, { r with heap := Mem.nshader_destroy object r.heap })

/-- The allocator state before any allocation. -/
def Heap.empty : Heap := { next := 0, live := [] }

/-- Input for `host_x64` that ends inside a blob: no stages, no backends, presence flag 1
for (Vertex, DXIL), a blob size of 5 and only 2 bytes after it. -/
def truncated_blob_buffer : List Byte :=
  [78, 83, 68, 82, 1, 0, 0, 0,
   0, 0, 0, 0, 0, 0, 0, 0,
   0, 0, 0, 0,
   1, 5, 0, 0, 0, 9, 9]

/-- The same fields in the layout of the format (one byte for the kind): the first 24
bytes of the encoding of the bundle whose only blob is 5 bytes at (Vertex, DXIL). -/
def truncated_blob_buffer_short : List Byte :=
  [78, 83, 68, 82, 1, 0, 0, 0,
   0, 0, 0, 0, 0,
   0, 0, 0, 0,
   1, 5, 0, 0, 0, 9, 9]

/-- The live allocations after `nshader_read_from_memory` on the first `k` bytes of the
encoding of a bundle, on a host with 1-byte enums, started without live allocations. -/
def live_after_truncation (shader : nshader_t) (k : Nat) : List Nat :=
  (Mem.nshader_read_from_memory host_short_enums
    ((encode host_short_enums shader).take k) Heap.empty).2.heap.live

/-! ## Command line (nshader_cli.c) -/

/-- The characters of a C string: the bytes in front of its first NUL. -/
def c_text (s : CString) : CString := s.takeWhile (fun b => b ≠ 0)

/-- The C function `strchr(str, ch)` for a character `ch` other than NUL: the offset of
the first occurrence of `ch` in the string, none for NULL. -/
def strchr (str : CString) (ch : Byte) : Option Nat :=
  if ch ∈ c_text str then some ((c_text str).takeWhile (fun b => b ≠ ch)).length else none

/-- The helper `parse_define(str, &name, &value)`, allocations succeeding: the strings
stored in `*name` and `*value` (none for NULL). It always returns true. -/
def parse_define (str : CString) : CString × Option CString :=
  match strchr str 61 with
  | some name_len => ((c_text str).take name_len, some ((c_text str).drop (name_len + 1)))
  | none => (c_text str, none)

/-! ## Error list of the compiler (nshader_compiler.c) -/

/-- The struct `nshader_error_list_t`: `errors` is none for a NULL array pointer and
otherwise the strings its slots point to; `num_errors` is the count. -/
structure nshader_error_list_t where
  errors : Option (List CString)
  num_errors : Nat
deriving DecidableEq, Repr

/-- A successful `nshader_realloc(errors, new_count * sizeof(char*))`: the first
`new_count` slots keep their contents, further slots are new (shown as empty). -/
def realloc_slots (errors : Option (List CString)) (new_count : Nat) : List CString :=
  (errors.getD []).take new_count
    ++ List.replicate (new_count - (errors.getD []).length) []

/-- The function `nshader_error_list_push(error_list, msg)`, allocations succeeding; the
argument and the result are none for a NULL `error_list`. -/
def nshader_error_list_push (error_list : Option nshader_error_list_t) (msg : CString) :
    Option nshader_error_list_t :=
  match error_list with
  | none => none
  | some list =>
    let new_count := list.num_errors + 1
    let new_errors := realloc_slots list.errors new_count
    let len := strlen msg
    let error_copy := msg.take len
    some { errors := some (new_errors.set list.num_errors error_copy),
           num_errors := new_count }

/-- The function `nshader_error_list_free(error_list)`. -/
def nshader_error_list_free (error_list : Option nshader_error_list_t) :
    Option nshader_error_list_t :=
  match error_list with
  | none => none
  | some _ => some { errors := none, num_errors := 0 }

/-- A list that holds `num_errors` messages: its array has that many slots (no array
when it holds none). -/
def holds_messages (list : nshader_error_list_t) (messages : List CString) : Prop :=
  list.num_errors = messages.length ∧ list.errors.getD [] = messages

/-- The empty list `{0}` a caller starts with. -/
def empty_error_list : nshader_error_list_t := { errors := none, num_errors := 0 }

/-- Whether the configuration disables a backend (`disable_dxil`, `disable_dxbc`,
`disable_msl`, `disable_spv`); values that are no backend count as disabled. -/
def backend_disabled (config : nshader_compiler_config_t) (backend : Nat) : Bool :=
  if backend = NSHADER_BACKEND_DXIL then config.disable_dxil
  else if backend = NSHADER_BACKEND_DXBC then config.disable_dxbc
  else if backend = NSHADER_BACKEND_MSL then config.disable_msl
  else if backend = NSHADER_BACKEND_SPV then config.disable_spv
  else true

/-- A compiled Vertex stage with entry point "main" that has DXIL and SPIR-V data. -/
def compiled_vertex_stage : compiled_stage_t :=
  { stage_type := NSHADER_STAGE_TYPE_VERTEX, entry_point := some text_main,
    dxil_data := some [1, 2], dxbc_data := none, msl_data := none,
    spv_data := some (List.replicate 16 7), metadata := default }

/-- What the compiler assembles from `compiled_vertex_stage` with no backend disabled. -/
def compiled_vertex_bundle : nshader_t :=
  { info :=
      { type := NSHADER_SHADER_TYPE_GRAPHICS
        stages :=
          [ { type := NSHADER_STAGE_TYPE_VERTEX, entry_point := some text_main,
              metadata := default } ]
        backends := [NSHADER_BACKEND_DXIL, NSHADER_BACKEND_SPV] }
    blobs :=
      [ [some { data := some [1, 2] }, none, none, some { data := some (List.replicate 16 7) }],
        [none, none, none, none],
        [none, none, none, none] ] }

/-- Input for `host_x64`: one stage whose kind field holds 7 (entry point "m", 24 zero
bytes), no backends, no blobs. -/
def bad_kind_buffer : List Byte :=
  [78, 83, 68, 82, 1, 0, 0, 0,
   0, 0, 0, 0, 1, 0, 0, 0,
   7, 0, 0, 0, 1, 0, 0, 0, 109,
   0, 0, 0, 0, 0, 0, 0, 0, 0, 0, 0, 0, 0, 0, 0, 0,
   0, 0, 0, 0,
   0, 0, 0, 0,
   0, 0, 0, 0,
   0, 0, 0, 0, 0, 0, 0, 0, 0, 0, 0, 0]

/-- The cursor of `host_x64` on `bad_kind_buffer` at the start of its stage (offset 16). -/
def bad_kind_stage_cursor : Cursor :=
  ((((Cursor.init bad_kind_buffer).advance 4).advance 4).advance 4).advance 4

/-- A bundle with one Vertex stage whose entry point is the empty string. -/
def empty_entry_bundle : nshader_t :=
  { info :=
      { type := NSHADER_SHADER_TYPE_GRAPHICS
        stages := [ { type := NSHADER_STAGE_TYPE_VERTEX, entry_point := some [],
                      metadata := default } ]
        backends := [] }
    blobs := [ [none, none, none, none], [none, none, none, none], [none, none, none, none] ] }

/-- The 29-byte buffer of the format for a bundle without stages, backends and blobs:
magic, version 1, the kind byte, stage count 0, backend count 0, twelve zero presence
bytes. -/
def minimal_buffer_of_kind (kind : Byte) : List Byte :=
  [78, 83, 68, 82, 1, 0, 0, 0, kind,
   0, 0, 0, 0,
   0, 0, 0, 0,
   0, 0, 0, 0, 0, 0, 0, 0, 0, 0, 0, 0]

/-! ## Input with bytes after the encoding -/

/-- The cursor `longer` is the cursor `c` on the same input followed by `extra`: same
offset, `extra.length` more bytes remaining; and `c` is inside its input. -/
def Cursor.extended (extra : List Byte) (c longer : Cursor) : Prop :=
  longer.memory = c.memory ++ extra ∧ longer.buffer = c.buffer ∧
    longer.remaining = c.remaining + extra.length ∧ c.in_bounds

/-- A function of the reader that never lowers the count of refused reads and that, when
it runs without a refused read, does the same on the input followed by more bytes. -/
def Stable {α : Type} (m : Step Cursor α) : Prop :=
  (∀ c, c.refused ≤ (m c).2.refused) ∧
    ∀ (extra : List Byte) (c longer : Cursor) (r : Option α) (c1 : Cursor),
      c.extended extra longer → m c = (r, c1) → c1.refused = c.refused →
      ∃ longer1, m longer = (r, longer1) ∧ c1.extended extra longer1 ∧
        longer1.refused = longer.refused

/-! ## Sequencing laws -/

theorem step_bind_apply {σ α β : Type} (m : Step σ α) (f : α → Step σ β) (s : σ) :
    (m >>= f) s = Step.bind m f s := rfl

theorem step_pure_apply {σ α : Type} (a : α) (s : σ) :
    (pure a : Step σ α) s = (some a, s) := rfl

theorem step_bind_of_some {σ α β : Type} {m : Step σ α} {f : α → Step σ β} {s s1 : σ} {a : α}
    (hm : m s = (some a, s1)) : (m >>= f) s = f a s1 := by
  simp only [step_bind_apply, Step.bind, hm]

theorem step_bind_of_none {σ α β : Type} {m : Step σ α} {f : α → Step σ β} {s s1 : σ}
    (hm : m s = (none, s1)) : (m >>= f) s = (none, s1) := by
  simp only [step_bind_apply, Step.bind, hm]

theorem step_bind_assoc {σ α β γ : Type} (m : Step σ α) (f : α → Step σ β)
    (g : β → Step σ γ) : (m >>= f) >>= g = m >>= fun a => f a >>= g := by
  funext s
  simp only [step_bind_apply, Step.bind]
  rcases hm : m s with ⟨_ | a, s1⟩ <;> simp

theorem step_pure_bind {σ α β : Type} (a : α) (f : α → Step σ β) :
    (pure a : Step σ α) >>= f = f a := by
  funext s
  rfl

theorem step_bind_pure_unit {σ : Type} (m : Step σ Unit) :
    (m >>= fun _ => (pure () : Step σ Unit)) = m := by
  funext s
  simp only [step_bind_apply, Step.bind]
  rcases hm : m s with ⟨_ | a, s1⟩ <;> rfl

/-! ## The writer as a sequence of fields -/

theorem concat_fields_append (a b : List (List Byte)) :
    concat_fields (a ++ b) = concat_fields a ++ concat_fields b := by
  induction a with
  | nil => rfl
  | cons x xs ih => simp [concat_fields, ih]

theorem write_fields_nil : (pure () : Step Writer Unit) = write_fields [] := rfl

theorem write_fields_single (d : List Byte) : write_data d = write_fields [d] := by
  show write_data d = (write_data d >>= fun _ => (pure () : Step Writer Unit))
  rw [step_bind_pure_unit]

theorem write_fields_seq (a b : List (List Byte)) :
    (write_fields a >>= fun _ => write_fields b) = write_fields (a ++ b) := by
  induction a with
  | nil => rfl
  | cons x xs ih =>
    simp only [write_fields, List.cons_append, step_bind_assoc, ih]
    rfl

theorem write_fields_ite (c : Prop) [Decidable c] (a b : List (List Byte)) :
    (if c then write_fields a else write_fields b) = write_fields (if c then a else b) := by
  split <;> rfl

theorem write_string_eq (h : Host) (str : Option CString) :
    write_string h str = write_fields (string_fields h str) := by
  simp only [write_string, string_fields, write_fields_single, write_fields_nil,
    write_fields_ite, write_fields_seq]

theorem write_binding_eq (h : Host) (binding : nshader_stage_binding_t) :
    write_binding h binding = write_fields (binding_fields h binding) := by
  simp only [write_binding, binding_fields, write_string_eq, write_fields_single,
    write_fields_seq, List.append_assoc, List.singleton_append]

theorem write_bindings_eq (h : Host) (bindings : List nshader_stage_binding_t) :
    write_bindings h bindings = write_fields (bindings_fields h bindings) := by
  induction bindings with
  | nil => rfl
  | cons b bs ih =>
    simp only [write_bindings, bindings_fields, write_binding_eq, ih, write_fields_seq]

theorem write_stage_metadata_eq (h : Host) (stage_type : Nat)
    (metadata : nshader_stage_metadata_t) (hv : valid_stage_type stage_type) :
    write_stage_metadata h stage_type metadata
      = write_fields (metadata_fields h stage_type metadata) := by
  unfold write_stage_metadata metadata_fields
  by_cases h0 : stage_type = NSHADER_STAGE_TYPE_VERTEX
  · rw [if_pos h0, if_pos h0]
    simp only [u32_field, write_bindings_eq, write_fields_single,
      write_fields_seq, List.append_assoc, List.singleton_append, List.cons_append,
      List.nil_append]
  · by_cases h1 : stage_type = NSHADER_STAGE_TYPE_FRAGMENT
    · rw [if_neg h0, if_neg h0, if_pos h1, if_pos h1]
      simp only [u32_field, write_bindings_eq, write_fields_single,
        write_fields_seq, List.append_assoc, List.singleton_append, List.cons_append,
        List.nil_append]
    · have h2 : stage_type = NSHADER_STAGE_TYPE_COMPUTE := by
        rcases hv with hv | hv | hv
        · exact absurd hv h0
        · exact absurd hv h1
        · exact hv
      rw [if_neg h0, if_neg h0, if_neg h1, if_neg h1, if_pos h2]
      simp only [u32_field, write_fields_single,
        write_fields_seq, List.append_assoc, List.singleton_append, List.cons_append,
        List.nil_append]

theorem write_stage_metadata_invalid (h : Host) (stage_type : Nat)
    (metadata : nshader_stage_metadata_t) (hv : ¬ valid_stage_type stage_type) :
    write_stage_metadata h stage_type metadata = Step.fail := by
  unfold write_stage_metadata
  have h0 : ¬ stage_type = NSHADER_STAGE_TYPE_VERTEX := fun e => hv (Or.inl e)
  have h1 : ¬ stage_type = NSHADER_STAGE_TYPE_FRAGMENT := fun e => hv (Or.inr (Or.inl e))
  have h2 : ¬ stage_type = NSHADER_STAGE_TYPE_COMPUTE := fun e => hv (Or.inr (Or.inr e))
  rw [if_neg h0, if_neg h1, if_neg h2]

theorem write_stages_eq (h : Host) (stages : List nshader_stage_t)
    (hv : ∀ stage ∈ stages, valid_stage_type stage.type) :
    write_stages h stages = write_fields (stages_fields h stages) := by
  induction stages with
  | nil => rfl
  | cons st rest ih =>
    have hst : valid_stage_type st.type := hv st (List.mem_cons_self _ _)
    have hrest := ih (fun s hs => hv s (List.mem_cons_of_mem _ hs))
    simp only [write_stages, stages_fields, stage_fields, WRITE_U8, write_string_eq,
      write_stage_metadata_eq h st.type st.metadata hst, hrest, write_fields_single,
      write_fields_seq, List.append_assoc]

theorem write_backends_eq (backends : List Nat) :
    write_backends backends = write_fields (backends_fields backends) := by
  induction backends with
  | nil => rfl
  | cons b bs ih =>
    simp only [write_backends, backends_fields, WRITE_U8, ih, write_fields_single,
      write_fields_seq, List.singleton_append]

theorem write_blob_eq (h : Host) (blob : Option nshader_blob_t) :
    write_blob h blob = write_fields (blob_fields h blob) := by
  unfold write_blob blob_fields
  cases blob with
  | none => simp only [WRITE_U8, write_fields_single]
  | some b =>
    cases hd : b.data with
    | none => simp only [hd, WRITE_U8, write_fields_single]
    | some data =>
      simp only [hd, WRITE_U8, WRITE_U32, WRITE_BYTES, u32_field, write_fields_single,
        write_fields_seq, write_fields_ite, List.singleton_append]

theorem for_each_eq (idxs : List Nat) (fields : Nat → List (List Byte)) :
    for_each idxs (fun i => write_fields (fields i))
      = write_fields (fields_for_each idxs fields) := by
  induction idxs with
  | nil => rfl
  | cons i rest ih =>
    simp only [for_each, fields_for_each, ih, write_fields_seq]

theorem write_blobs_eq (h : Host) (shader : nshader_t) :
    write_blobs h shader = write_fields (blobs_fields h shader) := by
  unfold write_blobs blobs_fields
  simp only [write_blob_eq, for_each_eq]

theorem write_shader_eq (h : Host) (shader : nshader_t) (hv : valid_stage_types shader) :
    write_shader h shader = write_fields (shader_fields h shader) := by
  simp only [write_shader, shader_fields, WRITE_U8, WRITE_U32, u32_field,
    write_stages_eq h shader.info.stages hv, write_backends_eq, write_blobs_eq,
    write_fields_single, write_fields_seq, List.append_assoc, List.singleton_append,
    List.cons_append, List.nil_append]

/-! ## What writing a sequence of fields does to the state -/

theorem write_fields_dry (fields : List (List Byte)) (w : Writer) (hw : w.buffer = none) :
    write_fields fields w
      = (some (), { w with written := w.written + (concat_fields fields).length }) := by
  induction fields generalizing w with
  | nil => simp [write_fields, step_pure_apply, concat_fields]
  | cons d ds ih =>
    have hd : write_data d w = (some (), { w with written := w.written + d.length }) := by
      simp only [write_data, hw]
    simp only [write_fields]
    have hw1 : ({ w with written := w.written + d.length } : Writer).buffer = none := hw
    rw [step_bind_of_some hd, ih _ hw1]
    simp only [concat_fields, List.length_append, Nat.add_assoc]

theorem Writer.stored_stored (w : Writer) (off : Nat) (a b : List Byte)
    (hoff : off ≤ w.memory.length) :
    (w.stored off a).stored (off + a.length) b = w.stored off (a ++ b) := by
  have hlen : (w.memory.take off ++ a).length = off + a.length := by
    simp [List.length_take, Nat.min_eq_left hoff]
  have htake : (w.memory.take off ++ a ++ w.memory.drop (off + a.length)).take (off + a.length)
      = w.memory.take off ++ a := List.take_left' hlen
  have hdrop : (w.memory.take off ++ a ++ w.memory.drop (off + a.length)).drop
        (off + a.length + b.length) = w.memory.drop (off + (a ++ b).length) := by
    rw [← hlen, List.drop_append, List.drop_drop, hlen, List.length_append]
    congr 1
    omega
  unfold Writer.stored
  simp only []
  rw [htake, hdrop]
  simp only [List.length_append, List.append_assoc, Nat.add_assoc, Nat.sub_sub]

theorem Writer.stored_memory_length (w : Writer) (off : Nat) (a : List Byte)
    (hoff : off ≤ w.memory.length) : off + a.length ≤ (w.stored off a).memory.length := by
  simp only [Writer.stored, List.length_append, List.length_take, List.length_drop,
    Nat.min_eq_left hoff]
  omega

theorem Writer.stored_nil (w : Writer) (off : Nat) (hw : w.buffer = some off) :
    w.stored off [] = w := by
  cases w
  simp_all [Writer.stored]

theorem write_fields_fits (fields : List (List Byte)) (w : Writer) (off : Nat)
    (hw : w.buffer = some off) (hoff : off ≤ w.memory.length)
    (hfit : (concat_fields fields).length ≤ w.remaining) :
    write_fields fields w = (some (), w.stored off (concat_fields fields)) := by
  induction fields generalizing w off with
  | nil => simp [write_fields, step_pure_apply, concat_fields, Writer.stored_nil w off hw]
  | cons d ds ih =>
    simp only [concat_fields, List.length_append] at hfit
    have hd : write_data d w = (some (), w.stored off d) := by
      have : ¬ w.remaining < d.length := by omega
      simp only [write_data, hw, this, if_false, Writer.stored]
    simp only [write_fields]
    rw [step_bind_of_some hd]
    rw [ih (w.stored off d) (off + d.length) rfl (Writer.stored_memory_length w off d hoff)
      (by simp only [Writer.stored]; omega)]
    rw [Writer.stored_stored w off d _ hoff]
    rfl

theorem write_fields_overflow (fields : List (List Byte)) (w : Writer) (off : Nat)
    (hw : w.buffer = some off) (hfit : w.remaining < (concat_fields fields).length) :
    (write_fields fields w).1 = none := by
  induction fields generalizing w off with
  | nil => simp [concat_fields] at hfit
  | cons d ds ih =>
    simp only [concat_fields, List.length_append] at hfit
    simp only [write_fields]
    by_cases hlt : w.remaining < d.length
    · have hd : write_data d w = (none, w) := by
        simp only [write_data, hw, hlt, if_true]
      rw [step_bind_of_none hd]
    · have hd : write_data d w = (some (), w.stored off d) := by
        simp only [write_data, hw, hlt, if_false, Writer.stored]
      rw [step_bind_of_some hd]
      exact ih (w.stored off d) (off + d.length) rfl (by simp only [Writer.stored]; omega)

theorem write_run_dry (h : Host) (shader : nshader_t) (hv : valid_stage_types shader)
    (buffer_size : Nat) :
    nshader_write_to_memory_run h (some shader) none buffer_size
      = ((shader_bytes h shader).length,
          { memory := [], buffer := none, remaining := buffer_size,
            written := (shader_bytes h shader).length }) := by
  simp only [nshader_write_to_memory_run, write_shader_eq h shader hv]
  rw [write_fields_dry _ _ rfl]
  simp [Writer.init, shader_bytes]

theorem write_run_fits (h : Host) (shader : nshader_t) (hv : valid_stage_types shader)
    (dest : List Byte) (buffer_size : Nat)
    (hfit : (shader_bytes h shader).length ≤ buffer_size) :
    nshader_write_to_memory_run h (some shader) (some dest) buffer_size
      = ((shader_bytes h shader).length,
          { memory := shader_bytes h shader ++ dest.drop (shader_bytes h shader).length
            buffer := some (shader_bytes h shader).length
            remaining := buffer_size - (shader_bytes h shader).length
            written := (shader_bytes h shader).length }) := by
  simp only [nshader_write_to_memory_run, write_shader_eq h shader hv]
  rw [write_fields_fits _ _ 0 rfl (Nat.zero_le _) (by simpa [Writer.init, shader_bytes] using hfit)]
  simp [Writer.init, Writer.stored, shader_bytes]

theorem write_run_overflow (h : Host) (shader : nshader_t) (hv : valid_stage_types shader)
    (dest : List Byte) (buffer_size : Nat)
    (hfit : buffer_size < (shader_bytes h shader).length) :
    (nshader_write_to_memory_run h (some shader) (some dest) buffer_size).1 = 0 := by
  have hnone := write_fields_overflow (shader_fields h shader)
    (Writer.init (some dest) buffer_size) 0 rfl (by simpa [Writer.init, shader_bytes] using hfit)
  simp only [nshader_write_to_memory_run, write_shader_eq h shader hv]
  rcases hr : write_fields (shader_fields h shader) (Writer.init (some dest) buffer_size)
    with ⟨r, w⟩
  rw [hr] at hnone
  simp only at hnone
  subst hnone
  rfl

theorem encoded_size_eq (h : Host) (shader : nshader_t) (hv : valid_stage_types shader) :
    encoded_size h shader = (shader_bytes h shader).length := by
  simp only [encoded_size, nshader_write_to_memory, write_run_dry h shader hv]

theorem encode_eq (h : Host) (shader : nshader_t) (hv : valid_stage_types shader) :
    encode h shader = shader_bytes h shader := by
  simp only [encode, encoded_size_eq h shader hv]
  rw [write_run_fits h shader hv _ _ (Nat.le_refl _)]
  simp

/-! ## Integer representation lemmas -/

theorem le_bytes_length (n v : Nat) : (le_bytes n v).length = n := by
  induction n generalizing v with
  | zero => rfl
  | succ n ih => simp [le_bytes, ih]

theorem store_length (h : Host) (n v : Nat) : (h.store n v).length = n := by
  unfold Host.store
  split <;> simp [le_bytes_length]

theorem le_value_lt (bs : List Byte) : le_value bs < 256 ^ bs.length := by
  induction bs with
  | nil => simp [le_value]
  | cons b bs ih =>
    have hb := b.isLt
    simp only [le_value, List.length_cons, Nat.pow_succ]
    omega

theorem le_bytes_le_value (bs : List Byte) : le_bytes bs.length (le_value bs) = bs := by
  induction bs with
  | nil => rfl
  | cons b bs ih =>
    have hb := b.isLt
    have h1 : byte_of (b.val + 256 * le_value bs) = b := by
      apply Fin.ext
      simp only [byte_of]
      omega
    have h2 : (b.val + 256 * le_value bs) / 256 = le_value bs := by omega
    simp only [le_value, List.length_cons, le_bytes, h1, h2, ih]

theorem le_value_le_bytes (n v : Nat) : le_value (le_bytes n v) = v % 256 ^ n := by
  induction n generalizing v with
  | zero => simp [le_bytes, le_value, Nat.mod_one]
  | succ n ih =>
    simp only [le_bytes, le_value, ih, byte_of, Nat.pow_succ]
    rw [Nat.mul_comm (256 ^ n) 256, Nat.mod_mul]

theorem bswap32_digits (a b c d : Nat) (ha : a < 256) (hb : b < 256) (hc : c < 256)
    (hd : d < 256) :
    bswap32 (d + 256 * (c + 256 * (b + 256 * a))) = a + 256 * (b + 256 * (c + 256 * d)) := by
  have e1 : (d + 256 * (c + 256 * (b + 256 * a))) / 2 ^ 24 % 256 = a := by omega
  have e2 : (d + 256 * (c + 256 * (b + 256 * a))) / 2 ^ 16 % 256 = b := by omega
  have e3 : (d + 256 * (c + 256 * (b + 256 * a))) / 2 ^ 8 % 256 = c := by omega
  have e4 : (d + 256 * (c + 256 * (b + 256 * a))) % 256 = d := by omega
  unfold bswap32
  rw [e1, e2, e3, e4]
  omega

/-- On either host, `from_le32` of a loaded 4-byte object is the little-endian value of
the bytes. -/
theorem from_le32_load (h : Host) (bs : List Byte) (hlen : bs.length = 4) :
    from_le32 h (h.load bs) = le_value bs := by
  match bs, hlen with
  | [a, b, c, d], _ =>
    have ha := a.isLt
    have hb := b.isLt
    have hc := c.isLt
    have hd := d.isLt
    unfold from_le32 Host.load
    cases h.big_endian
    · simp only [Bool.false_eq_true, if_false, le_value]
      omega
    · simp only [if_true, List.reverse_cons, List.reverse_nil, List.nil_append,
        List.cons_append, le_value, Nat.mul_zero, Nat.add_zero]
      have hlt : d.val + 256 * (c.val + 256 * (b.val + 256 * a.val)) < 2 ^ 32 := by omega
      rw [Nat.mod_eq_of_lt hlt, bswap32_digits a.val b.val c.val d.val ha hb hc hd]

/-- On either host, the stored object `to_le32(val)` is the little-endian encoding of
`val` as a `uint32_t`. -/
theorem store_to_le32 (h : Host) (val : Nat) :
    h.store 4 (to_le32 h val) = le_bytes 4 (val % 2 ^ 32) := by
  unfold to_le32 Host.store
  cases h.big_endian
  · simp only [Bool.false_eq_true, if_false]
  · simp only [if_true]
    have hw : val % 2 ^ 32 < 2 ^ 32 := Nat.mod_lt _ (by decide)
    generalize val % 2 ^ 32 = w at hw
    have hrev : le_bytes 4 (bswap32 w) = (le_bytes 4 w).reverse := by
      have hval : bswap32 w = le_value (le_bytes 4 w).reverse := by
        have hdec : w = w % 256 + 256 * (w / 256 % 256 + 256 * (w / 256 / 256 % 256
            + 256 * (w / 256 / 256 / 256 % 256))) := by omega
        have hsw := bswap32_digits (w / 256 / 256 / 256 % 256) (w / 256 / 256 % 256)
          (w / 256 % 256) (w % 256) (Nat.mod_lt _ (by decide)) (Nat.mod_lt _ (by decide))
          (Nat.mod_lt _ (by decide)) (Nat.mod_lt _ (by decide))
        rw [← hdec] at hsw
        rw [hsw]
        simp only [le_bytes, byte_of, List.reverse_cons, List.reverse_nil, List.nil_append,
          List.cons_append, le_value, Nat.mul_zero, Nat.add_zero]
      have hl : (le_bytes 4 w).reverse.length = 4 := by
        rw [List.length_reverse, le_bytes_length]
      rw [hval]
      have := le_bytes_le_value (le_bytes 4 w).reverse
      rw [hl] at this
      exact this
    rw [hrev, List.reverse_reverse]

/-! ## The reading primitive -/

theorem read_data_ok (size : Nat) (c : Cursor) (hsize : size ≤ c.remaining) :
    read_data size c = (some (c.next size), c.advance size) := by
  have : ¬ c.remaining < size := by omega
  simp only [read_data, this, if_false, Cursor.next, Cursor.advance]

theorem read_data_refused (size : Nat) (c : Cursor) (hsize : c.remaining < size) :
    read_data size c = (none, c.refuse) := by
  simp only [read_data, hsize, if_true, Cursor.refuse]

theorem Cursor.next_length (c : Cursor) (size : Nat) (hb : c.in_bounds)
    (hsize : size ≤ c.remaining) : (c.next size).length = size := by
  unfold Cursor.in_bounds at hb
  simp only [Cursor.next, List.length_take, List.length_drop]
  omega

theorem Cursor.advance_in_bounds (c : Cursor) (size : Nat) (hb : c.in_bounds)
    (hsize : size ≤ c.remaining) : (c.advance size).in_bounds := by
  unfold Cursor.in_bounds at *
  simp only [Cursor.advance]
  omega

theorem Cursor.init_in_bounds (buffer : List Byte) : (Cursor.init buffer).in_bounds := by
  simp [Cursor.in_bounds, Cursor.init]

theorem READ_U32_ok (h : Host) (c : Cursor) (hb : c.in_bounds) (hsize : 4 ≤ c.remaining) :
    READ_U32 h c = (some (le_value (c.next 4)), c.advance 4) := by
  unfold READ_U32
  rw [step_bind_of_some (read_data_ok 4 c hsize), step_pure_apply,
    from_le32_load h _ (c.next_length 4 hb hsize)]

theorem READ_U32_refused (h : Host) (c : Cursor) (hsize : c.remaining < 4) :
    READ_U32 h c = (none, c.refuse) := by
  unfold READ_U32
  rw [step_bind_of_none (read_data_refused 4 c hsize)]

theorem le_value_injective (a b : List Byte) (hlen : a.length = b.length)
    (hval : le_value a = le_value b) : a = b := by
  rw [← le_bytes_le_value a, ← le_bytes_le_value b, hlen, hval]

/-! ## Header checks -/

theorem read_shader_short (h : Host) (c : Cursor) (hsize : c.remaining < 4) :
    read_shader h c = (none, c.refuse) := by
  unfold read_shader
  rw [step_bind_of_none (READ_U32_refused h c hsize)]

theorem read_shader_bad_magic (h : Host) (c : Cursor) (hb : c.in_bounds)
    (hsize : 4 ≤ c.remaining) (hmagic : le_value (c.next 4) ≠ NSHADER_MAGIC) :
    read_shader h c = (none, c.advance 4) := by
  unfold read_shader
  rw [step_bind_of_some (READ_U32_ok h c hb hsize)]
  simp only [ne_eq, hmagic, not_false_eq_true, if_true, Step.fail]

theorem read_shader_short_version (h : Host) (c : Cursor) (hb : c.in_bounds)
    (hsize : 4 ≤ c.remaining) (hmagic : le_value (c.next 4) = NSHADER_MAGIC)
    (hshort : (c.advance 4).remaining < 4) :
    read_shader h c = (none, (c.advance 4).refuse) := by
  unfold read_shader
  rw [step_bind_of_some (READ_U32_ok h c hb hsize)]
  simp only [ne_eq, hmagic, not_true_eq_false, if_false]
  rw [step_bind_of_none (READ_U32_refused h (c.advance 4) hshort)]

theorem read_shader_bad_version (h : Host) (c : Cursor) (hb : c.in_bounds)
    (hsize : 4 ≤ c.remaining) (hmagic : le_value (c.next 4) = NSHADER_MAGIC)
    (hsize2 : 4 ≤ (c.advance 4).remaining)
    (hversion : le_value ((c.advance 4).next 4) ≠ NSHADER_VERSION) :
    read_shader h c = (none, (c.advance 4).advance 4) := by
  unfold read_shader
  rw [step_bind_of_some (READ_U32_ok h c hb hsize)]
  simp only [ne_eq, hmagic, not_true_eq_false, if_false]
  rw [step_bind_of_some (READ_U32_ok h (c.advance 4) (c.advance_in_bounds 4 hb hsize) hsize2)]
  simp only [ne_eq, hversion, not_false_eq_true, if_true, Step.fail]

theorem Cursor.init_next (buffer : List Byte) (size : Nat) :
    (Cursor.init buffer).next size = buffer.take size := by
  simp [Cursor.next, Cursor.init]

/-- C5. Garbage rejection: on every host, a buffer whose first four bytes are not the
little-endian encoding of the magic constant (in particular every buffer shorter than
four bytes and the empty buffer) is rejected, and the parse stops there: the cursor never
moves past the fourth byte and at most the magic field itself was copied from the input,
so the outcome does not depend on any later byte. -/
theorem garbage_rejection (h : Host) (buffer : List Byte)
    (hmagic : buffer.take 4 ≠ le_bytes 4 NSHADER_MAGIC) :
    nshader_read_from_memory h buffer = none
      ∧ (nshader_read_from_memory_run h buffer).2.buffer ≤ 4
      ∧ (nshader_read_from_memory_run h buffer).2.copied.length ≤ 1 := by
  unfold nshader_read_from_memory nshader_read_from_memory_run
  by_cases hzero : buffer.length = 0
  · simp [hzero, Cursor.init]
  · rw [if_neg hzero]
    by_cases hsize : (Cursor.init buffer).remaining < 4
    · rw [read_shader_short h _ hsize]
      simp [Cursor.refuse, Cursor.init]
    · have hsize4 : 4 ≤ (Cursor.init buffer).remaining := by omega
      have hne : le_value ((Cursor.init buffer).next 4) ≠ NSHADER_MAGIC := by
        intro hval
        apply hmagic
        have hlen : (buffer.take 4).length = 4 := by
          have := (Cursor.init buffer).next_length 4 (Cursor.init_in_bounds buffer) hsize4
          rwa [Cursor.init_next] at this
        rw [Cursor.init_next] at hval
        have hle := le_bytes_le_value (buffer.take 4)
        rw [hlen, hval] at hle
        exact hle.symm
      rw [read_shader_bad_magic h _ (Cursor.init_in_bounds buffer) hsize4 hne]
      simp [Cursor.advance, Cursor.init]

theorem garbage_rejection_witness :
    ([84, 104, 105, 115, 32, 105, 115] : List Byte).take 4 ≠ le_bytes 4 NSHADER_MAGIC
      ∧ (nshader_read_from_memory host_x64 [84, 104, 105, 115, 32, 105, 115] = none
        ∧ (nshader_read_from_memory_run host_x64 [84, 104, 105, 115, 32, 105, 115]).2.buffer ≤ 4
        ∧ (nshader_read_from_memory_run host_x64
            [84, 104, 105, 115, 32, 105, 115]).2.copied.length ≤ 1) :=
  ⟨by decide, garbage_rejection host_x64 [84, 104, 105, 115, 32, 105, 115] (by decide)⟩

/-- C6. On every host, a buffer that starts with the little-endian encoding of the magic
constant and continues with a four-byte version field whose little-endian value is not 1
is rejected, whatever bytes follow. -/
theorem version_rejection (h : Host) (version tail : List Byte) (hlen : version.length = 4)
    (hversion : le_value version ≠ NSHADER_VERSION) :
    nshader_read_from_memory h (le_bytes 4 NSHADER_MAGIC ++ version ++ tail) = none := by
  have hb := Cursor.init_in_bounds (le_bytes 4 NSHADER_MAGIC ++ version ++ tail)
  have hmlen : (le_bytes 4 NSHADER_MAGIC).length = 4 := le_bytes_length 4 _
  have hsize : 4 ≤ (Cursor.init (le_bytes 4 NSHADER_MAGIC ++ version ++ tail)).remaining := by
    simp only [Cursor.init, List.length_append, hmlen]
    omega
  have hnext : (Cursor.init (le_bytes 4 NSHADER_MAGIC ++ version ++ tail)).next 4
      = le_bytes 4 NSHADER_MAGIC := by
    rw [Cursor.init_next, List.append_assoc]
    exact List.take_left' hmlen
  have hmagic : le_value ((Cursor.init (le_bytes 4 NSHADER_MAGIC ++ version ++ tail)).next 4)
      = NSHADER_MAGIC := by
    rw [hnext, le_value_le_bytes]
    decide
  have hsize2 :
      4 ≤ ((Cursor.init (le_bytes 4 NSHADER_MAGIC ++ version ++ tail)).advance 4).remaining := by
    simp only [Cursor.init, Cursor.advance, List.length_append, hmlen, hlen]
    omega
  have hnext2 : ((Cursor.init (le_bytes 4 NSHADER_MAGIC ++ version ++ tail)).advance 4).next 4
      = version := by
    simp only [Cursor.next, Cursor.advance, Cursor.init, Nat.zero_add]
    rw [List.append_assoc]
    have hdrop : List.drop 4 (le_bytes 4 NSHADER_MAGIC ++ (version ++ tail)) = version ++ tail :=
      List.drop_left' hmlen
    rw [hdrop]
    exact List.take_left' hlen
  have hlength : (le_bytes 4 NSHADER_MAGIC ++ version ++ tail).length ≠ 0 := by
    simp only [List.length_append, hmlen]
    omega
  unfold nshader_read_from_memory nshader_read_from_memory_run
  rw [if_neg hlength, read_shader_bad_version h _ hb hsize hmagic hsize2 (by rw [hnext2]; exact hversion)]

theorem version_rejection_witness :
    ([2, 0, 0, 0] : List Byte).length = 4 ∧ le_value [2, 0, 0, 0] ≠ NSHADER_VERSION
      ∧ nshader_read_from_memory host_x64
          (le_bytes 4 NSHADER_MAGIC ++ [2, 0, 0, 0] ++ [0, 0, 0, 0, 0]) = none :=
  ⟨by decide, by decide, version_rejection host_x64 [2, 0, 0, 0] [0, 0, 0, 0, 0] (by decide)
    (by decide)⟩

/-! ## The cursor stays inside the input -/

theorem preserves_pure {α : Type} (P : Cursor → Prop) (a : α) :
    Preserves P (pure a : Step Cursor α) := fun _ hc => hc

theorem preserves_fail {α : Type} (P : Cursor → Prop) :
    Preserves P (Step.fail : Step Cursor α) := fun _ hc => hc

theorem preserves_bind {α β : Type} (P : Cursor → Prop) (m : Step Cursor α)
    (f : α → Step Cursor β) (hm : Preserves P m) (hf : ∀ a, Preserves P (f a)) :
    Preserves P (m >>= f) := by
  intro c hc
  have h1 := hm c hc
  rcases hr : m c with ⟨_ | a, c1⟩
  · rw [step_bind_of_none hr]
    rw [hr] at h1
    exact h1
  · rw [step_bind_of_some hr]
    rw [hr] at h1
    exact hf a c1 h1

theorem preserves_ite {α : Type} (P : Cursor → Prop) (cond : Prop) [Decidable cond]
    (m1 m2 : Step Cursor α) (h1 : Preserves P m1) (h2 : Preserves P m2) :
    Preserves P (if cond then m1 else m2) := by
  split
  · exact h1
  · exact h2

theorem preserves_attempt {α : Type} (P : Cursor → Prop) (m : Step Cursor α)
    (hm : Preserves P m) : Preserves P (Step.attempt m) := fun c hc => hm c hc

theorem preserves_read_array {α : Type} (P : Cursor → Prop) (m : Step Cursor α)
    (hm : Preserves P m) (count : Nat) : Preserves P (read_array m count) := by
  induction count with
  | zero => exact preserves_pure P _
  | succ n ih =>
    unfold read_array
    exact preserves_bind P _ _ hm fun _ => preserves_bind P _ _ ih fun _ => preserves_pure P _

theorem safe_read_data (n : List Byte) (size : Nat) : Preserves (Cursor.safe n) (read_data size) := by
  intro c hc
  obtain ⟨hmem, hsum, hcopied⟩ := hc
  by_cases hlt : c.remaining < size
  · rw [read_data_refused size c hlt]
    exact ⟨hmem, hsum, hcopied⟩
  · rw [read_data_ok size c (by omega)]
    refine ⟨hmem, ?_, ?_⟩
    · simp only [Cursor.advance]
      omega
    · intro a ha
      simp only [Cursor.advance, List.mem_cons] at ha
      rcases ha with ha | ha
      · subst ha
        exact ⟨hsum, by simp only; omega⟩
      · exact hcopied a ha

theorem safe_READ_U32 (n : List Byte) (h : Host) : Preserves (Cursor.safe n) (READ_U32 h) :=
  preserves_bind _ _ _ (safe_read_data n 4) fun _ => preserves_pure _ _

theorem safe_READ_U8 (n : List Byte) (h : Host) (sizeof_val : Nat) :
    Preserves (Cursor.safe n) (READ_U8 h sizeof_val) :=
  preserves_bind _ _ _ (safe_read_data n sizeof_val) fun _ => preserves_pure _ _

theorem safe_read_string (n : List Byte) (h : Host) : Preserves (Cursor.safe n) (read_string h) :=
  preserves_bind _ _ _ (safe_read_data n 4) fun _ =>
    preserves_ite _ _ _ _ (preserves_fail _) (safe_read_data n _)

theorem safe_read_binding (n : List Byte) (h : Host) : Preserves (Cursor.safe n) (read_binding h) :=
  preserves_bind _ _ _ (preserves_attempt _ _ (safe_read_string n h)) fun _ =>
    preserves_bind _ _ _ (safe_read_data n 4) fun _ =>
      preserves_bind _ _ _ (safe_read_data n 4) fun _ =>
        preserves_bind _ _ _ (safe_read_data n h.enum_size) fun _ => preserves_pure _ _

theorem safe_read_stage_metadata (n : List Byte) (h : Host) (stage_type : Nat)
    (metadata : nshader_stage_metadata_t) :
    Preserves (Cursor.safe n) (read_stage_metadata h stage_type metadata) := by
  have hb := fun count => preserves_read_array _ _ (safe_read_binding n h) count
  have hu := safe_READ_U32 n h
  unfold read_stage_metadata
  refine preserves_ite _ _ _ _ ?_ (preserves_ite _ _ _ _ ?_ (preserves_ite _ _ _ _ ?_
    (preserves_fail _)))
  · exact preserves_bind _ _ _ hu fun _ => preserves_bind _ _ _ hu fun _ =>
      preserves_bind _ _ _ hu fun _ => preserves_bind _ _ _ hu fun _ =>
      preserves_bind _ _ _ hu fun _ => preserves_bind _ _ _ (hb _) fun _ =>
      preserves_bind _ _ _ hu fun _ => preserves_bind _ _ _ (hb _) fun _ =>
      preserves_pure _ _
  · exact preserves_bind _ _ _ hu fun _ => preserves_bind _ _ _ hu fun _ =>
      preserves_bind _ _ _ hu fun _ => preserves_bind _ _ _ hu fun _ =>
      preserves_bind _ _ _ hu fun _ => preserves_bind _ _ _ (hb _) fun _ =>
      preserves_bind _ _ _ hu fun _ => preserves_bind _ _ _ (hb _) fun _ =>
      preserves_pure _ _
  · exact preserves_bind _ _ _ hu fun _ => preserves_bind _ _ _ hu fun _ =>
      preserves_bind _ _ _ hu fun _ => preserves_bind _ _ _ hu fun _ =>
      preserves_bind _ _ _ hu fun _ => preserves_bind _ _ _ hu fun _ =>
      preserves_bind _ _ _ hu fun _ => preserves_bind _ _ _ hu fun _ =>
      preserves_bind _ _ _ hu fun _ => preserves_pure _ _

theorem safe_read_stage (n : List Byte) (h : Host) : Preserves (Cursor.safe n) (read_stage h) :=
  preserves_bind _ _ _ (safe_READ_U8 n h _) fun _ =>
    preserves_bind _ _ _ (safe_read_string n h) fun _ =>
      preserves_bind _ _ _ (safe_read_stage_metadata n h _ _) fun _ => preserves_pure _ _

theorem safe_read_blob (n : List Byte) (h : Host) : Preserves (Cursor.safe n) (read_blob h) :=
  preserves_bind _ _ _ (safe_READ_U8 n h 1) fun _ =>
    preserves_ite _ _ _ _
      (preserves_bind _ _ _ (safe_READ_U32 n h) fun _ =>
        preserves_bind _ _ _ (safe_read_data n _) fun _ => preserves_pure _ _)
      (preserves_pure _ _)

theorem safe_read_shader (n : List Byte) (h : Host) : Preserves (Cursor.safe n) (read_shader h) :=
  preserves_bind _ _ _ (safe_READ_U32 n h) fun _ =>
    preserves_ite _ _ _ _ (preserves_fail _) <|
      preserves_bind _ _ _ (safe_READ_U32 n h) fun _ =>
        preserves_ite _ _ _ _ (preserves_fail _) <|
          preserves_bind _ _ _ (safe_READ_U8 n h _) fun _ =>
          preserves_bind _ _ _ (safe_READ_U32 n h) fun _ =>
          preserves_bind _ _ _ (preserves_read_array _ _ (safe_read_stage n h) _) fun _ =>
          preserves_bind _ _ _ (safe_READ_U32 n h) fun _ =>
          preserves_bind _ _ _ (preserves_read_array _ _ (safe_READ_U8 n h _) _) fun _ =>
          preserves_bind _ _ _
            (preserves_read_array _ _ (preserves_read_array _ _ (safe_read_blob n h) _) _)
            fun _ => preserves_pure _ _

theorem safe_init (buffer : List Byte) : (Cursor.init buffer).safe buffer := by
  refine ⟨rfl, ?_, ?_⟩
  · simp [Cursor.init]
  · intro a ha
    simp [Cursor.init] at ha

theorem safe_run (h : Host) (buffer : List Byte) :
    (nshader_read_from_memory_run h buffer).2.safe buffer := by
  unfold nshader_read_from_memory_run
  split
  · exact safe_init buffer
  · exact safe_read_shader buffer h _ (safe_init buffer)

/-! ## Size of the encoding and capacity of the destination -/

/-- C2 (refuted as stated). For the bundle whose only stage has the invalid type 3, the dry
run returns 0, a real write into a 64-byte destination also returns 0, and yet that real
write has stored 22 bytes in the destination, not 0. -/
theorem size_write_identity_counterexample :
    encoded_size host_x64 bad_stage_bundle = 0
      ∧ encoded_size host_x64 bad_stage_bundle ≤ 64
      ∧ nshader_write_to_memory host_x64 (some bad_stage_bundle)
          (some (List.replicate 64 0)) 64 = 0
      ∧ (nshader_write_to_memory_run host_x64 (some bad_stage_bundle)
          (some (List.replicate 64 0)) 64).2.buffer = some 22
      ∧ (nshader_write_to_memory_run host_x64 (some bad_stage_bundle)
          (some (List.replicate 64 0)) 64).2.buffer
          ≠ some (encoded_size host_x64 bad_stage_bundle) := by
  decide!

/-- C2 (amended). On every host, for every bundle whose stage types are all Vertex,
Fragment or Compute: the dry run returns the same number as a real write into a
destination whose capacity is at least that number, the real write advances the
destination pointer by exactly that many bytes, what it stored there is the encoding, and
the length of the encoding is the dry-run size. -/
theorem size_write_identity (h : Host) (shader : nshader_t) (hv : valid_stage_types shader)
    (dest : List Byte) (buffer_size : Nat) (hcap : encoded_size h shader ≤ buffer_size) :
    nshader_write_to_memory h (some shader) (some dest) buffer_size = encoded_size h shader
      ∧ (nshader_write_to_memory_run h (some shader) (some dest) buffer_size).2.buffer
          = some (encoded_size h shader)
      ∧ (nshader_write_to_memory_run h (some shader) (some dest) buffer_size).2.memory.take
          (encoded_size h shader) = encode h shader
      ∧ (encode h shader).length = encoded_size h shader := by
  have hsize := encoded_size_eq h shader hv
  rw [hsize] at hcap
  unfold nshader_write_to_memory
  rw [write_run_fits h shader hv dest buffer_size hcap, encode_eq h shader hv, hsize]
  refine ⟨rfl, rfl, ?_, rfl⟩
  exact List.take_left' rfl

theorem size_write_identity_witness :
    valid_stage_types scenario_bundle ∧ encoded_size host_x64 scenario_bundle ≤ 200
      ∧ (nshader_write_to_memory host_x64 (some scenario_bundle)
            (some (List.replicate 200 0)) 200 = encoded_size host_x64 scenario_bundle
        ∧ (nshader_write_to_memory_run host_x64 (some scenario_bundle)
            (some (List.replicate 200 0)) 200).2.buffer
            = some (encoded_size host_x64 scenario_bundle)
        ∧ (nshader_write_to_memory_run host_x64 (some scenario_bundle)
            (some (List.replicate 200 0)) 200).2.memory.take
            (encoded_size host_x64 scenario_bundle) = encode host_x64 scenario_bundle
        ∧ (encode host_x64 scenario_bundle).length = encoded_size host_x64 scenario_bundle) :=
  ⟨by decide, by decide!,
    size_write_identity host_x64 scenario_bundle (by decide) (List.replicate 200 0) 200
      (by decide!)⟩

/-- C10. On every host, for every bundle whose stage types are valid, every destination
and every capacity `c`: a write into the real destination returns the dry-run size when
`c` is at least that size and the failure value 0 when `c` is smaller; a write with a
NULL destination returns the dry-run size for every `c`. -/
theorem write_capacity (h : Host) (shader : nshader_t) (hv : valid_stage_types shader)
    (dest : List Byte) (c : Nat) :
    (encoded_size h shader ≤ c →
        nshader_write_to_memory h (some shader) (some dest) c = encoded_size h shader)
      ∧ (c < encoded_size h shader →
        nshader_write_to_memory h (some shader) (some dest) c = 0)
      ∧ nshader_write_to_memory h (some shader) none c = encoded_size h shader := by
  have hsize := encoded_size_eq h shader hv
  refine ⟨?_, ?_, ?_⟩
  · intro hcap
    rw [hsize] at hcap
    unfold nshader_write_to_memory
    rw [write_run_fits h shader hv dest c hcap, hsize]
  · intro hcap
    rw [hsize] at hcap
    exact write_run_overflow h shader hv dest c hcap
  · unfold nshader_write_to_memory
    rw [write_run_dry h shader hv c, hsize]

theorem write_capacity_witness :
    valid_stage_types scenario_bundle
      ∧ ((encoded_size host_x64 scenario_bundle ≤ 100 →
            nshader_write_to_memory host_x64 (some scenario_bundle)
              (some (List.replicate 100 0)) 100 = encoded_size host_x64 scenario_bundle)
        ∧ (100 < encoded_size host_x64 scenario_bundle →
            nshader_write_to_memory host_x64 (some scenario_bundle)
              (some (List.replicate 100 0)) 100 = 0)
        ∧ nshader_write_to_memory host_x64 (some scenario_bundle) none 100
            = encoded_size host_x64 scenario_bundle) :=
  ⟨by decide, write_capacity host_x64 scenario_bundle (by decide) (List.replicate 100 0) 100⟩

/-! ## Bounds checking of the reader -/

/-- C7. Every read of the decoder goes through `read_data`, and `read_data` of `size`
bytes succeeds exactly when at least `size` bytes remain; it then returns the next `size`
bytes of the input, advances the cursor by `size` and decreases `remaining` by `size`
(and, when consumed plus remaining is the input size, those bytes all lie inside the
input and the sum is kept); otherwise it fails and leaves cursor and remaining unchanged.
Consequently, for every host and input, when `nshader_read_from_memory` returns, consumed
plus remaining equals the buffer size, and every copy it performed started from a state
with that property and ended at an index not beyond the buffer size. -/
theorem reads_are_bounds_checked (h : Host) (buffer : List Byte) (size : Nat) (c : Cursor) :
    ((read_data size c).1.isSome = true ↔ size ≤ c.remaining)
      ∧ (size ≤ c.remaining →
          (read_data size c).1 = some ((c.memory.drop c.buffer).take size)
            ∧ (read_data size c).2.buffer = c.buffer + size
            ∧ (read_data size c).2.remaining = c.remaining - size
            ∧ (read_data size c).2.memory = c.memory)
      ∧ (size ≤ c.remaining → c.buffer + c.remaining = c.memory.length →
          ((c.memory.drop c.buffer).take size).length = size
            ∧ c.buffer + size ≤ c.memory.length
            ∧ (read_data size c).2.buffer + (read_data size c).2.remaining = c.memory.length)
      ∧ (c.remaining < size →
          (read_data size c).1 = none
            ∧ (read_data size c).2.buffer = c.buffer
            ∧ (read_data size c).2.remaining = c.remaining
            ∧ (read_data size c).2.memory = c.memory)
      ∧ (nshader_read_from_memory_run h buffer).2.memory = buffer
      ∧ (nshader_read_from_memory_run h buffer).2.buffer
          + (nshader_read_from_memory_run h buffer).2.remaining = buffer.length
      ∧ ∀ a ∈ (nshader_read_from_memory_run h buffer).2.copied,
          a.offset + a.remaining = buffer.length ∧ a.size ≤ a.remaining
            ∧ a.offset + a.size ≤ buffer.length := by
  refine ⟨?_, ?_, ?_, ?_, ?_, ?_, ?_⟩
  · by_cases hlt : c.remaining < size
    · rw [read_data_refused size c hlt]
      simp only [Option.isSome_none, Bool.false_eq_true, false_iff]
      omega
    · rw [read_data_ok size c (by omega)]
      simp only [Option.isSome_some, true_iff]
      omega
  · intro hsize
    rw [read_data_ok size c hsize]
    exact ⟨rfl, rfl, rfl, rfl⟩
  · intro hsize hsum
    rw [read_data_ok size c hsize]
    refine ⟨?_, by omega, ?_⟩
    · simp only [List.length_take, List.length_drop]
      omega
    · simp only [Cursor.advance]
      omega
  · intro hlt
    rw [read_data_refused size c hlt]
    exact ⟨rfl, rfl, rfl, rfl⟩
  · exact (safe_run h buffer).1
  · exact (safe_run h buffer).2.1
  · intro a ha
    have hs := (safe_run h buffer).2.2 a ha
    exact ⟨hs.1, hs.2, by omega⟩

/-! ## Encoder against decoder on the usual ABI -/

/-- C1 (code evaluated at a failing input). On `host_x64`, where an enum object is four
bytes wide, the writer emits the shader type in one byte (`WRITE_U8`) while
`READ_U8(info->type)` copies `sizeof(info->type)` bytes; the valid bundles
`scenario_bundle` and `empty_bundle` are therefore not read back from their own
encodings. On `host_short_enums` the same bundle is read back unchanged. -/
theorem roundtrip_fails_with_wide_enums :
    valid_bundle scenario_bundle
      ∧ nshader_read_from_memory host_x64 (encode host_x64 scenario_bundle) = none
      ∧ valid_bundle empty_bundle
      ∧ nshader_read_from_memory host_x64 (encode host_x64 empty_bundle) = none
      ∧ nshader_read_from_memory host_short_enums (encode host_short_enums scenario_bundle)
          = some scenario_bundle := by
  decide!

/-- C4 (code evaluated at a failing input). On `swallowed_name_buffer` the body of the
binding name needs 100 bytes when 32 remain, so one `read_data` call is refused; yet
`nshader_read_from_memory` returns a bundle, whose binding has no name and whose
location, vector size and type were taken from the bytes after the length field. The
width of enum objects plays no part: with one-byte enums the same happens on
`swallowed_name_buffer_short`. -/
theorem refused_name_read_is_swallowed :
    (nshader_read_from_memory_run host_x64 swallowed_name_buffer).2.refused = 1
      ∧ nshader_read_from_memory host_x64 swallowed_name_buffer =
          some
            { info :=
                { type := 0
                  stages :=
                    [ { type := NSHADER_STAGE_TYPE_VERTEX, entry_point := some [109],
                        metadata :=
                          { (default : nshader_stage_metadata_t) with
                            vertex :=
                              { (default : nshader_stage_metadata_vertex_t) with
                                inputs :=
                                  [ { name := none, location := 7, vector_size := 4,
                                      type := 9 } ] } } } ]
                  backends := [] }
              blobs := empty_bundle.blobs }
      ∧ (nshader_read_from_memory_run host_short_enums swallowed_name_buffer_short).2.refused = 1
      ∧ nshader_read_from_memory host_short_enums swallowed_name_buffer_short
          = nshader_read_from_memory host_x64 swallowed_name_buffer := by
  decide!

/-- C8 (code evaluated at a failing input). The 29-byte buffer of magic, version 1, kind
0, stage count 0, backend count 0 and twelve zero presence flags is what the writer emits
for the empty bundle, and on `host_x64` the reader rejects it: after the header it takes
four bytes each for the shader type, the stage count and the backend count, and the
twelve flag reads then run out of input. -/
theorem minimal_buffer_is_rejected :
    encode host_x64 empty_bundle = minimal_buffer
      ∧ nshader_read_from_memory host_x64 minimal_buffer = none
      ∧ (nshader_read_from_memory_run host_x64 minimal_buffer).2.buffer = 29
      ∧ (nshader_read_from_memory_run host_x64 minimal_buffer).2.remaining = 0 := by
  decide!

/-- C9 (code evaluated at a failing input). On `host_x64` the 58-byte encoding of
`entryless_bundle` is decoded successfully, into a bundle of type 256 without stages, and
encoding that bundle yields 29 bytes: a buffer of another size and content. -/
theorem reencoding_differs :
    (∀ stage ∈ entryless_bundle.info.stages, (stage.entry_point.getD []).length < 2 ^ 32)
      ∧ (encode host_x64 entryless_bundle).length = 58
      ∧ nshader_read_from_memory host_x64 (encode host_x64 entryless_bundle) =
          some { info := { type := 256, stages := [], backends := [] },
                 blobs := empty_bundle.blobs }
      ∧ (encode host_x64
          { info := { type := 256, stages := [], backends := [] },
            blobs := empty_bundle.blobs }).length = 29
      ∧ encode host_x64
          { info := { type := 256, stages := [], backends := [] },
            blobs := empty_bundle.blobs } ≠ encode host_x64 entryless_bundle := by
  decide!

/-! ## A truncated encoding that is accepted -/

theorem single_blob_bytes (data : List Byte) (hlen : data.length = 65536) :
    shader_bytes host_x64 (single_blob_bundle data)
      = [78, 83, 68, 82, 1, 0, 0, 0, 0, 0, 0, 0, 0, 0, 0, 0, 0, 1, 0, 0, 1, 0] ++ data
          ++ List.replicate 11 0 := by
  have hr3 : List.range NSHADER_STAGE_TYPE_COUNT = [0, 1, 2] := by decide
  have hr4 : List.range NSHADER_BACKEND_COUNT = [0, 1, 2, 3] := by decide
  have hmagic : u32_field host_x64 NSHADER_MAGIC = [78, 83, 68, 82] := by decide
  have hversion : u32_field host_x64 NSHADER_VERSION = [1, 0, 0, 0] := by decide
  have hzero : u32_field host_x64 (0 % 2 ^ 32) = [0, 0, 0, 0] := by decide
  have hsize : u32_field host_x64 (65536 % 2 ^ 32) = [0, 0, 1, 0] := by decide
  have hb0 : byte_of 0 = 0 := by decide
  have hb1 : byte_of 1 = 1 := by decide
  simp only [shader_bytes, shader_fields, single_blob_bundle, stages_fields, backends_fields,
    blobs_fields, hr3, hr4, fields_for_each, nshader_t.blob_at, blob_fields,
    nshader_blob_t.size, hlen, List.length_nil, hmagic, hversion, hzero, hsize, hb0, hb1,
    NSHADER_SHADER_TYPE_GRAPHICS, List.getD_cons_zero, List.getD_cons_succ, List.getD_nil,
    concat_fields, List.append_nil, List.nil_append, List.cons_append, List.append_assoc,
    gt_iff_lt, Nat.lt_irrefl, if_false, if_true, Nat.zero_lt_succ, List.replicate,
    List.getD_eq_getElem?_getD, List.getElem?_cons_zero, List.getElem?_cons_succ,
    Option.getD_some, List.getElem?_nil, Option.getD_none]

theorem single_blob_stage_types (data : List Byte) :
    valid_stage_types (single_blob_bundle data) := by
  intro stage hstage
  simp [single_blob_bundle] at hstage

theorem single_blob_valid (data : List Byte) (hlen : data.length = 65536) :
    valid_bundle (single_blob_bundle data) := by
  refine ⟨Nat.zero_le _, by simp [single_blob_bundle], by simp [single_blob_bundle], ?_, ?_, ?_⟩
  · intro stage hstage
    simp [single_blob_bundle] at hstage
  · intro backend hbackend
    simp [single_blob_bundle] at hbackend
  · intro stage_idx hs backend_idx hb
    have hslot : valid_slot (some ({ data := some data } : nshader_blob_t)) := by
      simp only [valid_slot, nshader_blob_t.size, hlen]
      decide
    simp only [NSHADER_STAGE_TYPE_COUNT, NSHADER_BACKEND_COUNT] at hs hb
    interval_cases stage_idx <;> interval_cases backend_idx <;>
      first
        | exact hslot
        | exact (trivial : valid_slot none)

theorem take_of_three (hdr d z : List Byte) (n k : Nat) (hn : n = hdr.length + k)
    (hk : k ≤ d.length) : (hdr ++ d ++ z).take n = hdr ++ d.take k := by
  subst hn
  rw [List.append_assoc, List.take_append, List.take_append_of_le_length hk]

theorem take_zero_blob :
    (List.replicate 65536 (0 : Byte)).take 1034 = List.replicate 1034 0 := by
  rw [List.take_replicate]
  have hmin : min 1034 65536 = 1034 := by decide
  rw [hmin]

/-- C3 (code evaluated at a failing input). On `host_x64`, the valid bundle whose only
content is a blob of 65536 zero bytes at (Vertex, DXIL) has an encoding of 65569 bytes,
and the reader accepts the first 1056 bytes of it: it takes the presence flag and the low
half of the blob size for a backend count of 256, the following 1024 bytes for the
backend list and the next twelve zero bytes for the presence flags. -/
theorem truncated_encoding_is_accepted :
    valid_bundle (single_blob_bundle (List.replicate 65536 0))
      ∧ (encode host_x64 (single_blob_bundle (List.replicate 65536 0))).length = 65569
      ∧ nshader_read_from_memory host_x64
          ((encode host_x64 (single_blob_bundle (List.replicate 65536 0))).take 1056) =
        some
          { info := { type := 0, stages := [], backends := 1 :: List.replicate 255 0 }
            blobs := empty_bundle.blobs } := by
  have hlen : (List.replicate 65536 (0 : Byte)).length = 65536 := List.length_replicate _ _
  have henc := encode_eq host_x64 _ (single_blob_stage_types (List.replicate 65536 0))
  rw [single_blob_bytes _ hlen] at henc
  refine ⟨single_blob_valid _ hlen, ?_, ?_⟩
  · rw [henc, List.length_append, List.length_append, List.length_replicate,
      List.length_replicate]
    rfl
  · rw [henc, take_of_three _ _ _ 1056 1034 (by decide) (by rw [hlen]; decide),
      take_zero_blob]
    decide!

/-! ## Queries -/

theorem has_stage_loop_iff (stages : List nshader_stage_t) (stage_type : Nat) :
    has_stage_loop stages stage_type = true ↔ ∃ stage ∈ stages, stage.type = stage_type := by
  induction stages with
  | nil => simp [has_stage_loop]
  | cons st rest ih =>
    unfold has_stage_loop
    by_cases hst : st.type = stage_type
    · simp [hst]
    · simp [hst, ih]

theorem has_backend_loop_iff (backends : List Nat) (backend : Nat) :
    has_backend_loop backends backend = true ↔ backend ∈ backends := by
  induction backends with
  | nil => simp [has_backend_loop]
  | cons b rest ih =>
    unfold has_backend_loop
    by_cases hb : b = backend
    · simp [hb]
    · have hb2 : ¬ backend = b := fun e => hb e.symm
      simp [hb, hb2, ih]

/-- C16. For every bundle and every stage type `k` (any value of the enum object),
`nshader_has_stage` is true exactly when some stage in the stage list has type `k`; on an
absent bundle it is false. -/
theorem has_stage_iff (shader : nshader_t) (stage_type : Nat) :
    (nshader_has_stage (some shader) stage_type = true
        ↔ ∃ stage ∈ shader.info.stages, stage.type = stage_type)
      ∧ nshader_has_stage none stage_type = false :=
  ⟨has_stage_loop_iff shader.info.stages stage_type, rfl⟩

/-- C17. For every bundle and every backend `b` (any value of the enum object),
`nshader_has_backend` is true exactly when `b` occurs in the backend list; on an absent
bundle it is false. -/
theorem has_backend_iff (shader : nshader_t) (backend : Nat) :
    (nshader_has_backend (some shader) backend = true ↔ backend ∈ shader.info.backends)
      ∧ nshader_has_backend none backend = false :=
  ⟨has_backend_loop_iff shader.info.backends backend, rfl⟩

/-- C19 (refuted as stated). The bundle without stages and without backends whose table
holds one blob at (Vertex, DXIL): `nshader_get_blob` returns that blob although Vertex is
the type of no stage and DXIL is not in the backend list. -/
theorem get_blob_ignores_the_lists :
    nshader_has_stage (some (single_blob_bundle [1])) NSHADER_STAGE_TYPE_VERTEX = false
      ∧ nshader_has_backend (some (single_blob_bundle [1])) NSHADER_BACKEND_DXIL = false
      ∧ nshader_get_blob (some (single_blob_bundle [1]))
          (stage_of_type NSHADER_STAGE_TYPE_VERTEX) NSHADER_BACKEND_DXIL
          = some { data := some [1] } := by
  decide!

/-- C19 (amended). For every bundle, stage and backend, `nshader_get_blob` returns absent
when the table entry is empty, when the stage type or the backend is out of range, and on
an absent bundle; and for every bundle that satisfies the table invariant (an entry is
non-empty only if its stage type and backend are listed) it returns absent when the stage
type is the type of no stage of the bundle or the backend is not in its backend list. -/
theorem get_blob_absent (shader : nshader_t) (stage : nshader_stage_t) (backend : Nat) :
    (shader.blob_at stage.type backend = none →
        nshader_get_blob (some shader) stage backend = none)
      ∧ (NSHADER_STAGE_TYPE_COUNT ≤ stage.type →
        nshader_get_blob (some shader) stage backend = none)
      ∧ (NSHADER_BACKEND_COUNT ≤ backend →
        nshader_get_blob (some shader) stage backend = none)
      ∧ nshader_get_blob none stage backend = none
      ∧ (table_consistent shader → nshader_has_stage (some shader) stage.type = false →
        nshader_get_blob (some shader) stage backend = none)
      ∧ (table_consistent shader → nshader_has_backend (some shader) backend = false →
        nshader_get_blob (some shader) stage backend = none) := by
  have hempty : shader.blob_at stage.type backend = none →
      nshader_get_blob (some shader) stage backend = none := by
    intro hnone
    unfold nshader_get_blob
    simp only []
    split
    · rfl
    · exact hnone
  refine ⟨hempty, ?_, ?_, rfl, ?_, ?_⟩
  · intro hrange
    unfold nshader_get_blob
    simp only []
    rw [if_pos (Or.inl hrange)]
  · intro hrange
    unfold nshader_get_blob
    simp only []
    rw [if_pos (Or.inr hrange)]
  · intro hcons hstage
    apply hempty
    by_contra hne
    have hex := (hcons stage.type backend hne).1
    have := (has_stage_loop_iff shader.info.stages stage.type).mpr hex
    unfold nshader_has_stage at hstage
    simp only [] at hstage
    rw [this] at hstage
    exact Bool.noConfusion hstage
  · intro hcons hbackend
    apply hempty
    by_contra hne
    have hmem := (hcons stage.type backend hne).2
    have := (has_backend_loop_iff shader.info.backends backend).mpr hmem
    unfold nshader_has_backend at hbackend
    simp only [] at hbackend
    rw [this] at hbackend
    exact Bool.noConfusion hbackend

/-- C18 (code evaluated at a failing input). On `host_x64` the slot (Vertex, SPV) of
`scenario_bundle` is emitted with presence flag 1, its size and its 16 bytes, and the
reader rejects the encoding, so `nshader_get_blob` on the result finds nothing. With
one-byte enums the blob is returned with its 16 bytes. -/
theorem get_blob_after_roundtrip_fails :
    valid_bundle scenario_bundle
      ∧ blob_fields host_x64
          (scenario_bundle.blob_at NSHADER_STAGE_TYPE_VERTEX NSHADER_BACKEND_SPV)
          = [[1], [16, 0, 0, 0], List.replicate 16 7]
      ∧ nshader_get_blob (nshader_read_from_memory host_x64 (encode host_x64 scenario_bundle))
          (stage_of_type NSHADER_STAGE_TYPE_VERTEX) NSHADER_BACKEND_SPV = none
      ∧ nshader_get_blob
          (nshader_read_from_memory host_short_enums (encode host_short_enums scenario_bundle))
          (stage_of_type NSHADER_STAGE_TYPE_VERTEX) NSHADER_BACKEND_SPV
          = some { data := some (List.replicate 16 7) } := by
  decide!

/-! ## Backend selection -/

theorem select_backend_loop_eq (supported_formats : Nat) (shader : nshader_t)
    (backends : List Nat) :
    select_backend_loop supported_formats (some shader) backends
      = (backends.find? fun backend =>
          device_supports supported_formats backend
            && decide (backend ∈ shader.info.backends)).getD NSHADER_BACKEND_COUNT := by
  induction backends with
  | nil => rfl
  | cons b rest ih =>
    have hmem : nshader_has_backend (some shader) b = true ↔ b ∈ shader.info.backends :=
      has_backend_loop_iff shader.info.backends b
    unfold select_backend_loop
    simp only [List.find?]
    by_cases hsup : (supported_formats &&& nshader_backend_to_sdl_format b) ≠ 0
    · by_cases hb : b ∈ shader.info.backends
      · have hcond : (device_supports supported_formats b
            && decide (b ∈ shader.info.backends)) = true := by
          simp [device_supports, hsup, hb]
        rw [if_pos ⟨hsup, hmem.mpr hb⟩, hcond]
        rfl
      · have hcond : (device_supports supported_formats b
            && decide (b ∈ shader.info.backends)) = false := by
          simp [hb]
        rw [if_neg (fun hc => hb (hmem.mp hc.2)), hcond]
        exact ih
    · have hcond : (device_supports supported_formats b
          && decide (b ∈ shader.info.backends)) = false := by
        simp [device_supports, hsup]
      rw [if_neg (fun hc => hsup hc.1), hcond]
      exact ih

theorem get_blob_some (shader : nshader_t) (stage_type backend : Nat) (blob : nshader_blob_t)
    (hblob : nshader_get_blob (some shader) (stage_of_type stage_type) backend = some blob) :
    shader.blob_at stage_type backend = some blob := by
  unfold nshader_get_blob at hblob
  simp only [] at hblob
  split at hblob
  · exact Option.noConfusion hblob
  · exact hblob

theorem blob_of_data (blob : nshader_blob_t) (data : List Byte) (hdata : blob.data = some data)
    (hsize : ¬ blob.size = 0) :
    blob = { data := some data } ∧ data ≠ [] ∧ blob.size = data.length := by
  cases blob with
  | mk d =>
    cases d with
    | none => exact Option.noConfusion hdata
    | some d0 =>
      cases hdata
      refine ⟨rfl, ?_, rfl⟩
      intro hnil
      apply hsize
      rw [hnil]
      rfl

theorem get_blob_none (shader : nshader_t) (stage_type backend : Nat)
    (hnone : shader.blob_at stage_type backend = none) :
    nshader_get_blob (some shader) (stage_of_type stage_type) backend = none := by
  unfold nshader_get_blob
  simp only []
  split
  · rfl
  · exact hnone

/-- C20 (refuted as stated). A device that supports DXIL and SPIR-V, and the bundle
`partial_blob_bundle`, which lists DXIL and SPV but holds the Vertex blob for SPV only:
the first backend in priority order that the device supports and for which the bundle
holds a Vertex blob is SPV, but `select_backend_for_device` returns DXIL and
`nshader_sdl3_gpu_create_shader` returns NULL without handing any blob over. -/
theorem backend_selection_counterexample :
    spec_backend_choice
        (device_supports (SDL_GPU_SHADERFORMAT_DXIL + SDL_GPU_SHADERFORMAT_SPIRV))
        partial_blob_bundle NSHADER_STAGE_TYPE_VERTEX = some NSHADER_BACKEND_SPV
      ∧ select_backend_for_device (some (SDL_GPU_SHADERFORMAT_DXIL + SDL_GPU_SHADERFORMAT_SPIRV))
          (some partial_blob_bundle) = NSHADER_BACKEND_DXIL
      ∧ nshader_sdl3_gpu_create_shader
          (some (SDL_GPU_SHADERFORMAT_DXIL + SDL_GPU_SHADERFORMAT_SPIRV))
          (some partial_blob_bundle) NSHADER_STAGE_TYPE_VERTEX = none := by
  decide!

/-- C20 (amended). For every format mask of the device, every bundle and every stage
type: the backend chosen is the first one in the order DXIL, SPV, MSL, DXBC that the
device supports and that occurs in the backend list of the bundle (the no-backend value
if there is none), whether or not the bundle holds a blob of the stage for it; whenever
`nshader_sdl3_gpu_create_shader` or `nshader_sdl3_gpu_create_compute_pipeline` hands a
create info over, its code is the non-empty blob of the requested stage in the chosen
backend and its format is that of the chosen backend; and when the table entry of the
stage in the chosen backend is empty nothing is created, no other backend being tried. -/
theorem backend_selection (supported_formats : Nat) (shader : nshader_t) (stage_type : Nat) :
    select_backend_for_device (some supported_formats) (some shader)
        = (backend_priority.find? fun backend =>
            device_supports supported_formats backend
              && decide (backend ∈ shader.info.backends)).getD NSHADER_BACKEND_COUNT
      ∧ (∀ info, nshader_sdl3_gpu_create_shader (some supported_formats) (some shader)
            stage_type = some info →
          shader.blob_at stage_type
              (select_backend_for_device (some supported_formats) (some shader))
              = some { data := some info.code }
            ∧ info.code ≠ [] ∧ info.code_size = info.code.length
            ∧ info.format = nshader_backend_to_sdl_format
                (select_backend_for_device (some supported_formats) (some shader)))
      ∧ (∀ info, nshader_sdl3_gpu_create_compute_pipeline (some supported_formats)
            (some shader) = some info →
          shader.blob_at NSHADER_STAGE_TYPE_COMPUTE
              (select_backend_for_device (some supported_formats) (some shader))
              = some { data := some info.code }
            ∧ info.code ≠ [] ∧ info.code_size = info.code.length
            ∧ info.format = nshader_backend_to_sdl_format
                (select_backend_for_device (some supported_formats) (some shader)))
      ∧ (shader.blob_at stage_type
            (select_backend_for_device (some supported_formats) (some shader)) = none →
          nshader_sdl3_gpu_create_shader (some supported_formats) (some shader) stage_type
            = none)
      ∧ (shader.blob_at NSHADER_STAGE_TYPE_COMPUTE
            (select_backend_for_device (some supported_formats) (some shader)) = none →
          nshader_sdl3_gpu_create_compute_pipeline (some supported_formats) (some shader)
            = none) := by
  have hsel : select_backend_for_device (some supported_formats) (some shader)
      = (backend_priority.find? fun backend =>
          device_supports supported_formats backend
            && decide (backend ∈ shader.info.backends)).getD NSHADER_BACKEND_COUNT :=
    select_backend_loop_eq supported_formats shader backend_priority
  refine ⟨hsel, ?_, ?_, ?_, ?_⟩
  · intro info hinfo
    unfold nshader_sdl3_gpu_create_shader at hinfo
    simp only [] at hinfo
    split at hinfo
    · exact Option.noConfusion hinfo
    · split at hinfo
      · exact Option.noConfusion hinfo
      · split at hinfo
        · exact Option.noConfusion hinfo
        · split at hinfo
          · exact Option.noConfusion hinfo
          · split at hinfo
            · exact Option.noConfusion hinfo
            · rename_i blob hblob
              split at hinfo
              · exact Option.noConfusion hinfo
              · rename_i data hdata
                split at hinfo
                · exact Option.noConfusion hinfo
                · rename_i hsize
                  split at hinfo
                  · exact Option.noConfusion hinfo
                  · have hb := blob_of_data blob data hdata hsize
                    have hslot := get_blob_some shader stage_type _ blob hblob
                    rw [hb.1] at hslot
                    cases hinfo
                    exact ⟨hslot, hb.2.1, hb.2.2, rfl⟩
  · intro info hinfo
    unfold nshader_sdl3_gpu_create_compute_pipeline at hinfo
    simp only [] at hinfo
    split at hinfo
    · exact Option.noConfusion hinfo
    · split at hinfo
      · exact Option.noConfusion hinfo
      · split at hinfo
        · exact Option.noConfusion hinfo
        · split at hinfo
          · exact Option.noConfusion hinfo
          · split at hinfo
            · exact Option.noConfusion hinfo
            · split at hinfo
              · exact Option.noConfusion hinfo
              · rename_i blob hblob
                split at hinfo
                · exact Option.noConfusion hinfo
                · rename_i data hdata
                  split at hinfo
                  · exact Option.noConfusion hinfo
                  · rename_i hsize
                    split at hinfo
                    · exact Option.noConfusion hinfo
                    · have hb := blob_of_data blob data hdata hsize
                      have hslot := get_blob_some shader NSHADER_STAGE_TYPE_COMPUTE _
                        blob hblob
                      rw [hb.1] at hslot
                      cases hinfo
                      exact ⟨hslot, hb.2.1, hb.2.2, rfl⟩
  · intro hnone
    have hget := get_blob_none shader stage_type _ hnone
    unfold nshader_sdl3_gpu_create_shader
    simp only [hget]
    split
    · rfl
    · split
      · rfl
      · split
        · rfl
        · split <;> rfl
  · intro hnone
    have hget := get_blob_none shader NSHADER_STAGE_TYPE_COMPUTE _ hnone
    unfold nshader_sdl3_gpu_create_compute_pipeline
    simp only [hget]
    split
    · rfl
    · split
      · rfl
      · split
        · rfl
        · split
          · rfl
          · split <;> rfl

/-! ## Magic constant and byte order -/

theorem u32_field_eq (h : Host) (val : Nat) : u32_field h val = le_bytes 4 (val % 2 ^ 32) :=
  store_to_le32 h val

theorem bad_magic_rejected (h : Host) (buffer : List Byte)
    (hmagic : buffer.take 4 ≠ le_bytes 4 NSHADER_MAGIC) :
    nshader_read_from_memory h buffer = none := by
  unfold nshader_read_from_memory nshader_read_from_memory_run
  by_cases hzero : buffer.length = 0
  · rw [if_pos hzero]
  · rw [if_neg hzero]
    by_cases hsize : (Cursor.init buffer).remaining < 4
    · rw [read_shader_short h _ hsize]
    · have hsize4 : 4 ≤ (Cursor.init buffer).remaining := by omega
      have hne : le_value ((Cursor.init buffer).next 4) ≠ NSHADER_MAGIC := by
        intro hval
        apply hmagic
        have hlen : (buffer.take 4).length = 4 := by
          have := (Cursor.init buffer).next_length 4 (Cursor.init_in_bounds buffer) hsize4
          rwa [Cursor.init_next] at this
        rw [Cursor.init_next] at hval
        have hle := le_bytes_le_value (buffer.take 4)
        rw [hlen, hval] at hle
        exact hle.symm
      rw [read_shader_bad_magic h _ (Cursor.init_in_bounds buffer) hsize4 hne]

theorem shader_bytes_header (h : Host) (shader : nshader_t) :
    ∃ tail, shader_bytes h shader
      = (le_bytes 4 NSHADER_MAGIC ++ le_bytes 4 NSHADER_VERSION) ++ tail := by
  refine ⟨concat_fields (([byte_of shader.info.type] ::
      u32_field h (shader.info.stages.length % 2 ^ 32) :: stages_fields h shader.info.stages)
      ++ [u32_field h (shader.info.backends.length % 2 ^ 32)]
      ++ backends_fields shader.info.backends ++ blobs_fields h shader), ?_⟩
  have hm : u32_field h NSHADER_MAGIC = le_bytes 4 NSHADER_MAGIC := by
    rw [u32_field_eq]
    rfl
  have hv : u32_field h NSHADER_VERSION = le_bytes 4 NSHADER_VERSION := by
    rw [u32_field_eq]
    rfl
  simp only [shader_bytes, shader_fields, List.cons_append, List.nil_append, concat_fields,
    hm, hv, List.append_assoc]
  rfl

/-- C13 (refuted as stated). The little-endian encoding of 0x4E534452 is 52 44 53 4E,
while the encoding of the empty bundle begins with 4E 53 44 52; on `host_x64` the reader
accepts `minimal_buffer_x64`, whose first four bytes are 4E 53 44 52, and rejects the same
buffer with its first four bytes replaced by the encoding of 0x4E534452. -/
theorem magic_constant_counterexample :
    le_bytes 4 SPEC_MAGIC = [0x52, 0x44, 0x53, 0x4E]
      ∧ (encode host_x64 empty_bundle).take 4 = [0x4E, 0x53, 0x44, 0x52]
      ∧ (encode host_x64 empty_bundle).take 4 ≠ le_bytes 4 SPEC_MAGIC
      ∧ minimal_buffer_x64.take 4 ≠ le_bytes 4 SPEC_MAGIC
      ∧ (nshader_read_from_memory host_x64 minimal_buffer_x64).isSome = true
      ∧ nshader_read_from_memory host_x64 (le_bytes 4 SPEC_MAGIC ++ minimal_buffer_x64.drop 4)
          = none := by
  decide!

/-- C13 (amended). On every host, the encoding of every bundle with valid stage types
begins with the 32-bit little-endian encoding of the magic constant 0x5244534E (the bytes
4E 53 44 52, "NSDR") followed by the 32-bit little-endian encoding of version 1, and the
decoder accepts only buffers whose first four bytes are that encoding of 0x5244534E. -/
theorem magic_and_version (h : Host) (shader : nshader_t) (hv : valid_stage_types shader) :
    (encode h shader).take 8 = le_bytes 4 0x5244534E ++ le_bytes 4 1
      ∧ le_bytes 4 0x5244534E = [0x4E, 0x53, 0x44, 0x52]
      ∧ ∀ buffer, nshader_read_from_memory h buffer ≠ none →
          buffer.take 4 = le_bytes 4 0x5244534E := by
  refine ⟨?_, by decide, ?_⟩
  · obtain ⟨tail, htail⟩ := shader_bytes_header h shader
    rw [encode_eq h shader hv, htail]
    apply List.take_left'
    rw [List.length_append, le_bytes_length, le_bytes_length]
  · intro buffer hsome
    by_contra hne
    exact hsome (bad_magic_rejected h buffer hne)

theorem magic_and_version_witness :
    valid_stage_types scenario_bundle
      ∧ ((encode host_x64 scenario_bundle).take 8 = le_bytes 4 0x5244534E ++ le_bytes 4 1
        ∧ le_bytes 4 0x5244534E = [0x4E, 0x53, 0x44, 0x52]
        ∧ ∀ buffer, nshader_read_from_memory host_x64 buffer ≠ none →
            buffer.take 4 = le_bytes 4 0x5244534E) :=
  ⟨by decide, magic_and_version host_x64 scenario_bundle (by decide)⟩

/-- C14 (code evaluated at a failing input). `write_binding` stores the object
`binding->type` as it lies in memory, without `to_le32`: for the binding "Color" of type
float32 (9) a little-endian host with four-byte enums emits 09 00 00 00 and a big-endian
one 00 00 00 09, so `scenario_bundle` has different encodings on the two hosts; and
`read_binding` copies the bytes back into the object, so from `nameless_binding_buffer`
the little-endian host recovers type 9 and the big-endian host type 0x09000000. Every
field written through `to_le32` is the same on both hosts. -/
theorem binding_type_follows_host_byte_order :
    binding_fields host_x64 color_binding
        = [[5, 0, 0, 0], [67, 111, 108, 111, 114], [0, 0, 0, 0], [4, 0, 0, 0], [9, 0, 0, 0]]
      ∧ binding_fields host_be color_binding
        = [[5, 0, 0, 0], [67, 111, 108, 111, 114], [0, 0, 0, 0], [4, 0, 0, 0], [0, 0, 0, 9]]
      ∧ encode host_be scenario_bundle ≠ encode host_x64 scenario_bundle
      ∧ (nshader_read_from_memory host_x64 nameless_binding_buffer).map
          (fun sh => sh.info.stages.map fun st => st.metadata.vertex.inputs)
          = some [[{ name := none, location := 7, vector_size := 4, type := 9 }]]
      ∧ (nshader_read_from_memory host_be nameless_binding_buffer).map
          (fun sh => sh.info.stages.map fun st => st.metadata.vertex.inputs)
          = some [[{ name := none, location := 7, vector_size := 4, type := 0x09000000 }]]
      ∧ ∀ val, u32_field host_be val = u32_field host_x64 val := by
  refine ⟨by decide!, by decide!, by decide!, by decide!, by decide!, ?_⟩
  intro val
  rw [u32_field_eq, u32_field_eq]

/-! ## A write that runs out of capacity -/

theorem write_fields_overflow_state (fields : List (List Byte)) (w : Writer) (off : Nat)
    (hw : w.buffer = some off) (hoff : off ≤ w.memory.length)
    (hfit : w.remaining < (concat_fields fields).length) :
    ∃ k, k < fields.length
      ∧ write_fields fields w = (none, w.stored off (concat_fields (fields.take k)))
      ∧ (concat_fields (fields.take k)).length ≤ w.remaining
      ∧ w.remaining < (concat_fields (fields.take (k + 1))).length := by
  induction fields generalizing w off with
  | nil => simp [concat_fields] at hfit
  | cons d ds ih =>
    simp only [concat_fields, List.length_append] at hfit
    by_cases hlt : w.remaining < d.length
    · refine ⟨0, Nat.zero_lt_succ _, ?_, Nat.zero_le _, ?_⟩
      · have hd : write_data d w = (none, w) := by
          simp only [write_data, hw, hlt, if_true]
        simp only [write_fields]
        rw [step_bind_of_none hd]
        simp only [List.take_zero, concat_fields, Writer.stored_nil w off hw]
      · simp only [List.take_succ_cons, List.take_zero, concat_fields, List.append_nil]
        exact hlt
    · have hd : write_data d w = (some (), w.stored off d) := by
        simp only [write_data, hw, hlt, if_false, Writer.stored]
      have hrem : (w.stored off d).remaining = w.remaining - d.length := rfl
      obtain ⟨k, hk, hrun, hle, hgt⟩ := ih (w.stored off d) (off + d.length) rfl
        (Writer.stored_memory_length w off d hoff) (by rw [hrem]; omega)
      refine ⟨k + 1, Nat.succ_lt_succ hk, ?_, ?_, ?_⟩
      · simp only [write_fields]
        rw [step_bind_of_some hd, hrun, Writer.stored_stored w off d _ hoff]
        rfl
      · simp only [List.take_succ_cons, concat_fields, List.length_append]
        rw [hrem] at hle
        omega
      · simp only [List.take_succ_cons, concat_fields, List.length_append]
        rw [hrem] at hgt
        omega

theorem concat_fields_take_prefix (fields : List (List Byte)) (k : Nat) :
    concat_fields (fields.take k) <+: concat_fields fields := by
  refine ⟨concat_fields (fields.drop k), ?_⟩
  rw [← concat_fields_append, List.take_append_drop]

/-- C11. On every host, for every bundle with valid stage types, every destination and
every capacity `c` smaller than the encoded size: the write returns 0; what it has stored
is the concatenation of the first `k` fields of the encoding for some `k` (a field being
the data of one `write_data` call), hence a prefix of the full encoding that ends on a
field boundary; that prefix is at most `c` bytes long and the next field would not have
fitted; and the destination is the prefix followed by the unchanged rest of the original
destination. -/
theorem insufficient_capacity_keeps_field_prefix (h : Host) (shader : nshader_t)
    (hv : valid_stage_types shader) (dest : List Byte) (c : Nat)
    (hcap : c < encoded_size h shader) :
    ∃ k, k < (shader_fields h shader).length
      ∧ nshader_write_to_memory h (some shader) (some dest) c = 0
      ∧ (nshader_write_to_memory_run h (some shader) (some dest) c).2.memory
          = concat_fields ((shader_fields h shader).take k)
            ++ dest.drop (concat_fields ((shader_fields h shader).take k)).length
      ∧ (nshader_write_to_memory_run h (some shader) (some dest) c).2.buffer
          = some (concat_fields ((shader_fields h shader).take k)).length
      ∧ concat_fields ((shader_fields h shader).take k) <+: encode h shader
      ∧ (concat_fields ((shader_fields h shader).take k)).length ≤ c
      ∧ c < (concat_fields ((shader_fields h shader).take (k + 1))).length := by
  rw [encoded_size_eq h shader hv] at hcap
  obtain ⟨k, hk, hrun, hle, hgt⟩ := write_fields_overflow_state (shader_fields h shader)
    (Writer.init (some dest) c) 0 rfl (Nat.zero_le _) hcap
  refine ⟨k, hk, ?_, ?_, ?_, ?_, hle, hgt⟩
  · simp only [nshader_write_to_memory, nshader_write_to_memory_run,
      write_shader_eq h shader hv, hrun]
  · simp only [nshader_write_to_memory_run, write_shader_eq h shader hv, hrun]
    simp [Writer.stored, Writer.init]
  · simp only [nshader_write_to_memory_run, write_shader_eq h shader hv, hrun]
    simp [Writer.stored, Writer.init]
  · rw [encode_eq h shader hv]
    exact concat_fields_take_prefix _ k

theorem insufficient_capacity_keeps_field_prefix_witness :
    valid_stage_types scenario_bundle ∧ 100 < encoded_size host_x64 scenario_bundle
      ∧ ∃ k, k < (shader_fields host_x64 scenario_bundle).length
        ∧ nshader_write_to_memory host_x64 (some scenario_bundle)
            (some (List.replicate 100 9)) 100 = 0
        ∧ (nshader_write_to_memory_run host_x64 (some scenario_bundle)
            (some (List.replicate 100 9)) 100).2.memory
            = concat_fields ((shader_fields host_x64 scenario_bundle).take k)
              ++ (List.replicate 100 9).drop
                (concat_fields ((shader_fields host_x64 scenario_bundle).take k)).length
        ∧ (nshader_write_to_memory_run host_x64 (some scenario_bundle)
            (some (List.replicate 100 9)) 100).2.buffer
            = some (concat_fields ((shader_fields host_x64 scenario_bundle).take k)).length
        ∧ concat_fields ((shader_fields host_x64 scenario_bundle).take k)
            <+: encode host_x64 scenario_bundle
        ∧ (concat_fields ((shader_fields host_x64 scenario_bundle).take k)).length ≤ 100
        ∧ 100 < (concat_fields ((shader_fields host_x64 scenario_bundle).take (k + 1))).length :=
  ⟨by decide, by decide!,
    insufficient_capacity_keeps_field_prefix host_x64 scenario_bundle (by decide)
      (List.replicate 100 9) 100 (by decide!)⟩

/-! ## The blob section -/

theorem le_bytes_mod (n v : Nat) : le_bytes n (v % 256 ^ n) = le_bytes n v := by
  induction n generalizing v with
  | zero => rfl
  | succ n ih =>
    have h1 : byte_of (v % 256 ^ (n + 1)) = byte_of v := by
      apply Fin.ext
      simp only [byte_of, Nat.pow_succ]
      rw [Nat.mul_comm, Nat.mod_mul_right_mod]
    have h2 : v % 256 ^ (n + 1) / 256 = (v / 256) % 256 ^ n := by
      rw [Nat.pow_succ, Nat.mul_comm, Nat.mod_mul_right_div_self]
    simp only [le_bytes, h1, h2, ih]

theorem blob_fields_concat (h : Host) (slot : Option nshader_blob_t) :
    concat_fields (blob_fields h slot) = slot_encoding slot := by
  match slot with
  | none => rfl
  | some { data := none } => rfl
  | some { data := some data } =>
    have hsize : ({ data := some data } : nshader_blob_t).size = data.length := rfl
    simp only [blob_fields, slot_encoding, hsize]
    by_cases hlen : data.length = 0
    · have hgt : ¬ data.length > 0 := by omega
      simp only [hgt, if_false, hlen, ne_eq, not_true_eq_false]
      rfl
    · have hgt : data.length > 0 := by omega
      have hmod : le_bytes 4 (data.length % 2 ^ 32 % 2 ^ 32) = le_bytes 4 data.length := by
        rw [Nat.mod_mod]
        exact le_bytes_mod 4 data.length
      simp only [hgt, if_true, ne_eq, hlen, not_false_eq_true, concat_fields, u32_field_eq,
        hmod, List.append_nil, List.append_assoc]
      rfl

theorem blobs_fields_concat (h : Host) (shader : nshader_t) :
    concat_fields (blobs_fields h shader) = blob_section shader := by
  have hr3 : List.range NSHADER_STAGE_TYPE_COUNT = [0, 1, 2] := by decide
  have hr4 : List.range NSHADER_BACKEND_COUNT = [0, 1, 2, 3] := by decide
  simp only [blobs_fields, hr3, hr4, fields_for_each, List.append_nil, concat_fields_append,
    blob_fields_concat, blob_section, List.append_assoc]
  rfl

theorem shader_bytes_split (h : Host) (shader : nshader_t) :
    shader_bytes h shader = concat_fields (info_fields h shader) ++ blob_section shader := by
  rw [← blobs_fields_concat h shader, ← concat_fields_append]
  rfl

theorem read_data_sees (a rest : List Byte) (c : Cursor) (hc : c.sees (a ++ rest)) :
    read_data a.length c = (some a, c.advance a.length) ∧ (c.advance a.length).sees rest := by
  obtain ⟨hmem, hrem⟩ := hc
  have hsize : a.length ≤ c.remaining := by
    rw [hrem, List.length_append]
    omega
  have hnext : c.next a.length = a := by
    simp only [Cursor.next, hmem]
    exact List.take_left' rfl
  refine ⟨by rw [read_data_ok a.length c hsize, hnext], ?_, ?_⟩
  · simp only [Cursor.advance]
    rw [← List.drop_drop, hmem]
    exact List.drop_left' rfl
  · simp only [Cursor.advance, hrem, List.length_append]
    omega

theorem READ_U32_sees (h : Host) (v : Nat) (rest : List Byte) (c : Cursor)
    (hc : c.sees (le_bytes 4 v ++ rest)) :
    READ_U32 h c = (some (v % 2 ^ 32), c.advance 4) ∧ (c.advance 4).sees rest := by
  have hr := read_data_sees (le_bytes 4 v) rest c hc
  rw [le_bytes_length] at hr
  refine ⟨?_, hr.2⟩
  unfold READ_U32
  rw [step_bind_of_some hr.1, step_pure_apply, from_le32_load h _ (le_bytes_length 4 v),
    le_value_le_bytes]
  rfl

theorem READ_U8_byte_sees (h : Host) (b : Byte) (rest : List Byte) (c : Cursor)
    (hc : c.sees (b :: rest)) :
    READ_U8 h 1 c = (some b.val, c.advance 1) ∧ (c.advance 1).sees rest := by
  have hr : read_data 1 c = (some [b], c.advance 1) ∧ (c.advance 1).sees rest :=
    read_data_sees [b] rest c hc
  refine ⟨?_, hr.2⟩
  unfold READ_U8
  have hload : h.load [b] = b.val := by
    unfold Host.load
    split <;> simp [le_value]
  rw [step_bind_of_some hr.1, step_pure_apply, hload]

theorem read_blob_sees (h : Host) (slot : Option nshader_blob_t) (rest : List Byte)
    (c : Cursor) (hfit : slot_size_fits slot) (hc : c.sees (slot_encoding slot ++ rest)) :
    ∃ c1, read_blob h c = (some (slot_read_back slot), c1) ∧ c1.sees rest := by
  have habsent : c.sees ((0 : Byte) :: rest) →
      ∃ c1, read_blob h c = (some none, c1) ∧ c1.sees rest := by
    intro hc0
    have hr := READ_U8_byte_sees h 0 rest c hc0
    refine ⟨c.advance 1, ?_, hr.2⟩
    unfold read_blob
    rw [step_bind_of_some hr.1]
    rfl
  match slot, hfit, hc with
  | none, _, hc => exact habsent hc
  | some { data := none }, _, hc => exact habsent hc
  | some { data := some data }, hfit, hc =>
    by_cases hlen : data.length = 0
    · have henc : slot_encoding (some { data := some data }) = [0] := by
        simp only [slot_encoding, hlen, ne_eq, not_true_eq_false, if_false]
      have hback : slot_read_back (some { data := some data }) = none := by
        simp only [slot_read_back, hlen, ne_eq, not_true_eq_false, if_false]
      rw [henc] at hc
      rw [hback]
      exact habsent hc
    · have henc : slot_encoding (some { data := some data })
          = (1 : Byte) :: (le_bytes 4 data.length ++ (data ++ rest.take 0)) := by
        simp only [slot_encoding, hlen, ne_eq, not_false_eq_true, if_true, List.take_zero,
          List.append_nil, List.cons_append, List.nil_append]
      have hback : slot_read_back (some { data := some data })
          = some { data := some data } := by
        simp only [slot_read_back, hlen, ne_eq, not_false_eq_true, if_true]
      have hc1 : c.sees ((1 : Byte) :: (le_bytes 4 data.length ++ (data ++ rest))) := by
        have : slot_encoding (some { data := some data }) ++ rest
            = (1 : Byte) :: (le_bytes 4 data.length ++ (data ++ rest)) := by
          rw [henc]
          simp only [List.take_zero, List.append_nil, List.cons_append, List.append_assoc]
        rw [this] at hc
        exact hc
      have hflag := READ_U8_byte_sees h 1 _ c hc1
      have hsize := READ_U32_sees h data.length _ _ hflag.2
      have hdata := read_data_sees data rest _ hsize.2
      have hlt : data.length < 2 ^ 32 := hfit { data := some data } rfl
      rw [Nat.mod_eq_of_lt hlt] at hsize
      refine ⟨((c.advance 1).advance 4).advance data.length, ?_, hdata.2⟩
      unfold read_blob
      rw [step_bind_of_some hflag.1, hback]
      have hone : ((1 : Byte).val ≠ 0) := by decide
      simp only [ne_eq, hone, not_false_eq_true, if_true, READ_BYTES]
      rw [step_bind_of_some hsize.1, step_bind_of_some hdata.1]
      rfl

theorem read_slots_sees (h : Host) (slots : List (Option nshader_blob_t)) (rest : List Byte)
    (c : Cursor) (hfit : ∀ slot ∈ slots, slot_size_fits slot)
    (hc : c.sees (slots_encoding slots ++ rest)) :
    ∃ c1, read_array (read_blob h) slots.length c = (some (slots.map slot_read_back), c1)
      ∧ c1.sees rest := by
  induction slots generalizing c with
  | nil => exact ⟨c, rfl, hc⟩
  | cons slot others ih =>
    simp only [slots_encoding, List.append_assoc] at hc
    obtain ⟨c1, hread, hsees⟩ := read_blob_sees h slot _ c
      (hfit slot (List.mem_cons_self _ _)) hc
    obtain ⟨c2, hrest, hsees2⟩ := ih c1 (fun s hs => hfit s (List.mem_cons_of_mem _ hs)) hsees
    refine ⟨c2, ?_, hsees2⟩
    simp only [List.length_cons, read_array, List.map_cons]
    rw [step_bind_of_some hread, step_bind_of_some hrest]
    rfl

theorem read_rows_sees (h : Host) (rows : List (List (Option nshader_blob_t)))
    (rest : List Byte) (c : Cursor) (width : Nat) (hwidth : ∀ row ∈ rows, row.length = width)
    (hfit : ∀ row ∈ rows, ∀ slot ∈ row, slot_size_fits slot)
    (hc : c.sees (rows_encoding rows ++ rest)) :
    ∃ c1, read_array (read_array (read_blob h) width) rows.length c
        = (some (rows.map fun row => row.map slot_read_back), c1)
      ∧ c1.sees rest := by
  induction rows generalizing c with
  | nil => exact ⟨c, rfl, hc⟩
  | cons row others ih =>
    simp only [rows_encoding, List.append_assoc] at hc
    obtain ⟨c1, hread, hsees⟩ := read_slots_sees h row _ c
      (hfit row (List.mem_cons_self _ _)) hc
    rw [hwidth row (List.mem_cons_self _ _)] at hread
    obtain ⟨c2, hrest, hsees2⟩ := ih c1 (fun r hr => hwidth r (List.mem_cons_of_mem _ hr))
      (fun r hr => hfit r (List.mem_cons_of_mem _ hr)) hsees
    refine ⟨c2, ?_, hsees2⟩
    simp only [List.length_cons, read_array, List.map_cons]
    rw [step_bind_of_some hread, step_bind_of_some hrest]
    rfl

theorem blob_section_rows (shader : nshader_t) :
    blob_section shader = rows_encoding (table_rows shader) := by
  simp only [blob_section, table_rows, rows_encoding, slots_encoding, List.append_nil,
    List.append_assoc]

theorem table_read_back_rows (shader : nshader_t) :
    table_read_back shader = (table_rows shader).map fun row => row.map slot_read_back := rfl

theorem table_rows_fit (shader : nshader_t) (hfit : blob_sizes_fit shader) :
    ∀ row ∈ table_rows shader, ∀ slot ∈ row, slot_size_fits slot := by
  have hs : ∀ i j, i < NSHADER_STAGE_TYPE_COUNT → j < NSHADER_BACKEND_COUNT →
      slot_size_fits (shader.blob_at i j) := fun i j hi hj blob hblob =>
    hfit i hi j hj blob hblob
  intro row hrow slot hslot
  simp only [table_rows, List.mem_cons, List.mem_singleton, List.not_mem_nil, or_false]
    at hrow
  rcases hrow with hrow | hrow | hrow <;> subst hrow <;>
    simp only [List.mem_cons, List.mem_singleton, List.not_mem_nil, or_false] at hslot <;>
    rcases hslot with hslot | hslot | hslot | hslot <;> subst hslot <;>
    exact hs _ _ (by decide) (by decide)

/-- C12. On every host, the encoding of every bundle with valid stage types ends with the
blob section: the concatenation, over the twelve (stage type, backend) pairs with the
stage type outer (Vertex, Fragment, Compute) and the backend inner (DXIL, DXBC, MSL,
SPV), of the byte 1, the 32-bit little-endian size and the bytes of the blob for a slot
that holds a non-null blob of non-zero length, and of the single byte 0 for every other
slot. The blob loops of the decoder read the slots in the same order: started where the
unread input is that section (of a bundle whose blob sizes fit 32 bits) followed by
anything, they return the table whose entry (stage type, backend) is the blob of that
slot, or NULL for a slot written as 0, and stop where the section ends. -/
theorem blob_section_layout (h : Host) (shader : nshader_t) (hv : valid_stage_types shader) :
    encode h shader = concat_fields (info_fields h shader) ++ blob_section shader
      ∧ (blob_sizes_fit shader → ∀ (c : Cursor) (rest : List Byte),
          c.sees (blob_section shader ++ rest) →
          ∃ c1, read_array (read_array (read_blob h) NSHADER_BACKEND_COUNT)
                NSHADER_STAGE_TYPE_COUNT c = (some (table_read_back shader), c1)
            ∧ c1.sees rest) := by
  refine ⟨?_, ?_⟩
  · rw [encode_eq h shader hv, shader_bytes_split]
  · intro hfit c rest hc
    rw [blob_section_rows] at hc
    have hwidth : ∀ row ∈ table_rows shader, row.length = NSHADER_BACKEND_COUNT := by
      intro row hrow
      simp only [table_rows, List.mem_cons, List.mem_singleton, List.not_mem_nil, or_false]
        at hrow
      rcases hrow with hrow | hrow | hrow <;> subst hrow <;> rfl
    exact read_rows_sees h (table_rows shader) rest c NSHADER_BACKEND_COUNT hwidth
      (table_rows_fit shader hfit) hc

theorem blob_sizes_fit_of_valid (shader : nshader_t) (hvalid : valid_bundle shader) :
    blob_sizes_fit shader := by
  intro stage_idx hs backend_idx hb blob hblob
  have hslot := hvalid.2.2.2.2.2 stage_idx hs backend_idx hb
  rw [hblob] at hslot
  exact hslot.2

theorem Cursor.init_sees (buffer : List Byte) : (Cursor.init buffer).sees buffer :=
  ⟨rfl, rfl⟩

theorem blob_section_layout_witness :
    valid_stage_types scenario_bundle ∧ blob_sizes_fit scenario_bundle
      ∧ (Cursor.init (blob_section scenario_bundle ++ [9])).sees
          (blob_section scenario_bundle ++ [9])
      ∧ encode host_x64 scenario_bundle
          = concat_fields (info_fields host_x64 scenario_bundle) ++ blob_section scenario_bundle
      ∧ ∃ c1, read_array (read_array (read_blob host_x64) NSHADER_BACKEND_COUNT)
              NSHADER_STAGE_TYPE_COUNT (Cursor.init (blob_section scenario_bundle ++ [9]))
            = (some (table_read_back scenario_bundle), c1)
          ∧ c1.sees [9] :=
  ⟨by decide, blob_sizes_fit_of_valid scenario_bundle (by decide!), Cursor.init_sees _,
    (blob_section_layout host_x64 scenario_bundle (by decide)).1,
    (blob_section_layout host_x64 scenario_bundle (by decide)).2
      (blob_sizes_fit_of_valid scenario_bundle (by decide!)) _ _ (Cursor.init_sees _)⟩

/-! ## Strings of length zero -/

theorem step_fail_bind {σ α β : Type} (f : α → Step σ β) :
    (Step.fail : Step σ α) >>= f = Step.fail := by
  funext s
  rfl

theorem step_ite_bind {σ α β : Type} (cond : Prop) [Decidable cond] (m1 m2 : Step σ α)
    (f : α → Step σ β) :
    (if cond then m1 else m2) >>= f = if cond then m1 >>= f else m2 >>= f := by
  split <;> rfl

theorem step_bind_some_inv {σ α β : Type} {m : Step σ α} {f : α → Step σ β} {s s2 : σ}
    {b : β} (hr : (m >>= f) s = (some b, s2)) :
    ∃ a s1, m s = (some a, s1) ∧ f a s1 = (some b, s2) := by
  rcases hm : m s with ⟨_ | a, s1⟩
  · rw [step_bind_of_none hm] at hr
    exact Option.noConfusion (congrArg Prod.fst hr)
  · rw [step_bind_of_some hm] at hr
    exact ⟨a, s1, rfl, hr⟩

theorem step_bind_fails {σ α β : Type} {m : Step σ α} {f : α → Step σ β} {s : σ}
    (hm : (m s).1 = none) : ((m >>= f) s).1 = none := by
  rcases hr : m s with ⟨r, s1⟩
  rw [hr] at hm
  simp only at hm
  subst hm
  rw [step_bind_of_none hr]

theorem read_shader_split (h : Host) :
    read_shader h = read_preamble h >>= fun p => read_body h p.1 p.2 := by
  simp only [read_shader, read_preamble, read_body, step_bind_assoc, step_ite_bind,
    step_fail_bind, step_pure_bind]

theorem read_array_fails_at {α : Type} (element : Step Cursor α) (k n : Nat)
    (c c1 : Cursor) (xs : List α) (hk : read_array element k c = (some xs, c1))
    (hfail : (element c1).1 = none) (hlt : k < n) :
    (read_array element n c).1 = none := by
  induction k generalizing c n xs with
  | zero =>
    have hc : c1 = c := by
      have := congrArg Prod.snd hk
      exact this.symm
    subst hc
    obtain ⟨m, rfl⟩ : ∃ m, n = m + 1 := ⟨n - 1, by omega⟩
    unfold read_array
    exact step_bind_fails hfail
  | succ k ih =>
    obtain ⟨m, rfl⟩ : ∃ m, n = m + 1 := ⟨n - 1, by omega⟩
    unfold read_array at hk
    obtain ⟨x, c2, hx, hrest⟩ := step_bind_some_inv hk
    obtain ⟨xs1, c3, hxs, _⟩ := step_bind_some_inv hrest
    have := ih m c2 xs1 (by
      have hc3 : c3 = c1 := by
        have h2 := step_bind_some_inv hrest
        obtain ⟨a, s1, ha, hp⟩ := h2
        rw [hxs] at ha
        have hs : s1 = c3 := (congrArg Prod.snd ha).symm
        subst hs
        exact congrArg Prod.snd hp
      rw [hxs, hc3]) (by omega)
    unfold read_array
    rw [step_bind_of_some hx]
    exact step_bind_fails this

theorem read_string_zero (h : Host) (c : Cursor) (hb : c.in_bounds) (hsize : 4 ≤ c.remaining)
    (hzero : le_value (c.next 4) = 0) : read_string h c = (none, c.advance 4) := by
  unfold read_string
  rw [step_bind_of_some (read_data_ok 4 c hsize),
    from_le32_load h _ (c.next_length 4 hb hsize), hzero]
  rfl

theorem read_stage_zero_entry (h : Host) (c0 c : Cursor) (t : Nat)
    (htype : READ_U8 h h.enum_size c0 = (some t, c)) (hb : c.in_bounds)
    (hsize : 4 ≤ c.remaining) (hzero : le_value (c.next 4) = 0) :
    read_stage h c0 = (none, c.advance 4) := by
  unfold read_stage
  rw [step_bind_of_some htype, step_bind_of_none (read_string_zero h c hb hsize hzero)]

theorem read_binding_zero_name (h : Host) (c : Cursor) (hb : c.in_bounds)
    (hsize : 12 + h.enum_size ≤ c.remaining) (hzero : le_value (c.next 4) = 0) :
    read_binding h c
      = (some
          { name := none
            location := le_value ((c.advance 4).next 4)
            vector_size := le_value (((c.advance 4).advance 4).next 4)
            type := h.load ((((c.advance 4).advance 4).advance 4).next h.enum_size) },
          (((c.advance 4).advance 4).advance 4).advance h.enum_size) := by
  have hb1 := c.advance_in_bounds 4 hb (by omega)
  have hr1 : (c.advance 4).remaining = c.remaining - 4 := rfl
  have hb2 := (c.advance 4).advance_in_bounds 4 hb1 (by omega)
  have hr2 : ((c.advance 4).advance 4).remaining = c.remaining - 4 - 4 := rfl
  have hs1 : 4 ≤ (c.advance 4).remaining := by omega
  have hs2 : 4 ≤ ((c.advance 4).advance 4).remaining := by omega
  have hs3 : h.enum_size ≤ (((c.advance 4).advance 4).advance 4).remaining := by
    have hr3 : (((c.advance 4).advance 4).advance 4).remaining = c.remaining - 4 - 4 - 4 := rfl
    omega
  have hname : Step.attempt (read_string h) c = (some none, c.advance 4) := by
    unfold Step.attempt
    rw [read_string_zero h c hb (by omega) hzero]
  unfold read_binding
  rw [step_bind_of_some hname, step_bind_of_some (read_data_ok 4 _ hs1),
    step_bind_of_some (read_data_ok 4 _ hs2), step_bind_of_some (read_data_ok _ _ hs3),
    from_le32_load h _ ((c.advance 4).next_length 4 hb1 hs1),
    from_le32_load h _ (((c.advance 4).advance 4).next_length 4 hb2 hs2)]
  rfl

/-- C15 (refuted as stated). On `host_x64`, `entryless_buffer` holds one Vertex stage
whose entry-point length field is zero and is otherwise complete: the decode fails right
after that length field (cursor at offset 24, 40 bytes unread, no read refused). On
`nameless_binding_buffer`, where a binding name has length zero, the decode succeeds and
the binding has no name. -/
theorem zero_length_entry_point_fails :
    nshader_read_from_memory host_x64 entryless_buffer = none
      ∧ (nshader_read_from_memory_run host_x64 entryless_buffer).2.buffer = 24
      ∧ (nshader_read_from_memory_run host_x64 entryless_buffer).2.remaining = 40
      ∧ (nshader_read_from_memory_run host_x64 entryless_buffer).2.refused = 0
      ∧ (nshader_read_from_memory host_x64 nameless_binding_buffer).map
          (fun sh => sh.info.stages.map fun st => st.metadata.vertex.inputs)
          = some [[{ name := none, location := 7, vector_size := 4, type := 9 }]]
      ∧ (nshader_read_from_memory_run host_x64 nameless_binding_buffer).2.refused = 0 := by
  decide!

/-- C15 (amended). On every host, at every point of the input where a length-prefixed
string field has the 32-bit length zero, `read_string` returns NULL after consuming the
length field, without any refused read. For a binding name the decode does not fail
because of it: `read_binding` stores the absent name and goes on with location, vector
size and type, and succeeds when they are there. For an entry point the decode fails:
`read_stage` fails, and so does `nshader_read_from_memory` on every buffer in which the
parse reaches, as stage `k` of the `n` declared, a stage whose entry-point length field
is zero. -/
theorem zero_length_strings (h : Host) (c : Cursor) (hb : c.in_bounds)
    (hsize : 4 ≤ c.remaining) (hzero : le_value (c.next 4) = 0) :
    read_string h c = (none, c.advance 4)
      ∧ (c.advance 4).refused = c.refused
      ∧ (12 + h.enum_size ≤ c.remaining →
          ∃ binding c1, read_binding h c = (some binding, c1) ∧ binding.name = none
            ∧ c1.buffer = c.buffer + 12 + h.enum_size ∧ c1.refused = c.refused)
      ∧ (∀ c0 t, READ_U8 h h.enum_size c0 = (some t, c) →
          read_stage h c0 = (none, c.advance 4))
      ∧ (∀ buffer type n cs k stages c0 t, buffer ≠ [] →
          read_preamble h (Cursor.init buffer) = (some (type, n), cs) →
          read_array (read_stage h) k cs = (some stages, c0) → k < n →
          READ_U8 h h.enum_size c0 = (some t, c) →
          nshader_read_from_memory h buffer = none) := by
  refine ⟨read_string_zero h c hb hsize hzero, rfl, ?_, ?_, ?_⟩
  · intro hsize2
    refine ⟨_, _, read_binding_zero_name h c hb hsize2 hzero, rfl, ?_, rfl⟩
    show c.buffer + 4 + 4 + 4 + h.enum_size = c.buffer + 12 + h.enum_size
    omega
  · intro c0 t htype
    exact read_stage_zero_entry h c0 c t htype hb hsize hzero
  · intro buffer type n cs k stages c0 t hne hpre hloop hlt htype
    have hstage : (read_stage h c0).1 = none := by
      rw [read_stage_zero_entry h c0 c t htype hb hsize hzero]
    have hfail := read_array_fails_at (read_stage h) k n cs c0 stages hloop hstage hlt
    have hlen : ¬ buffer.length = 0 := fun hz => hne (List.length_eq_zero.mp hz)
    unfold nshader_read_from_memory nshader_read_from_memory_run
    rw [if_neg hlen, read_shader_split, step_bind_of_some hpre]
    unfold read_body
    exact step_bind_fails hfail

theorem zero_length_strings_witness :
    entryless_entry_cursor.in_bounds ∧ 4 ≤ entryless_entry_cursor.remaining
      ∧ le_value (entryless_entry_cursor.next 4) = 0
      ∧ entryless_buffer ≠ []
      ∧ read_preamble host_x64 (Cursor.init entryless_buffer)
          = (some (0, 1), entryless_stage_cursor)
      ∧ read_array (read_stage host_x64) 0 entryless_stage_cursor
          = (some [], entryless_stage_cursor)
      ∧ READ_U8 host_x64 host_x64.enum_size entryless_stage_cursor
          = (some 0, entryless_entry_cursor)
      ∧ read_string host_x64 entryless_entry_cursor = (none, entryless_entry_cursor.advance 4)
      ∧ nshader_read_from_memory host_x64 entryless_buffer = none :=
  ⟨by decide!, by decide!, by decide!, by decide!, by decide!, rfl, by decide!,
    (zero_length_strings host_x64 entryless_entry_cursor (by decide!) (by decide!)
      (by decide!)).1,
    (zero_length_strings host_x64 entryless_entry_cursor (by decide!) (by decide!)
      (by decide!)).2.2.2.2 entryless_buffer 0 1 entryless_stage_cursor 0 []
      entryless_stage_cursor 0 (by decide!) (by decide!) rfl (by decide) (by decide!)⟩

theorem scenario_table_consistent : table_consistent scenario_bundle := by
  intro stage_idx backend_idx hne
  have hrow : ∀ i, 1 ≤ i → ∀ j, scenario_bundle.blob_at i j = none := by
    intro i hi j
    have hnone : ∀ j, ([none, none, none, none] : List (Option nshader_blob_t)).getD j none
        = none := by
      intro j
      rcases Nat.lt_or_ge j 4 with hj | hj
      · interval_cases j <;> rfl
      · exact List.getD_eq_default _ _ hj
    rcases Nat.lt_or_ge i 3 with hi3 | hi3
    · interval_cases i <;> exact hnone j
    · show (List.getD (scenario_bundle.blobs.getD i []) j none) = none
      rw [List.getD_eq_default scenario_bundle.blobs [] hi3]
      rfl
  rcases Nat.eq_zero_or_pos stage_idx with hs | hs
  · subst hs
    rcases Nat.lt_or_ge backend_idx 4 with hj | hj
    · interval_cases backend_idx
      · exact absurd rfl hne
      · exact absurd rfl hne
      · exact absurd rfl hne
      · exact ⟨⟨_, List.mem_cons_self _ _, rfl⟩, List.mem_cons_self _ _⟩
    · exact absurd (List.getD_eq_default _ _ hj) hne
  · exact absurd (hrow stage_idx hs backend_idx) hne

theorem get_blob_absent_witness :
    table_consistent scenario_bundle
      ∧ nshader_has_stage (some scenario_bundle) NSHADER_STAGE_TYPE_COMPUTE = false
      ∧ nshader_has_backend (some scenario_bundle) NSHADER_BACKEND_DXIL = false
      ∧ nshader_get_blob (some scenario_bundle) (stage_of_type NSHADER_STAGE_TYPE_COMPUTE)
          NSHADER_BACKEND_SPV = none
      ∧ nshader_get_blob (some scenario_bundle) (stage_of_type NSHADER_STAGE_TYPE_VERTEX)
          NSHADER_BACKEND_DXIL = none :=
  ⟨scenario_table_consistent, by decide!, by decide!,
    (get_blob_absent scenario_bundle (stage_of_type NSHADER_STAGE_TYPE_COMPUTE)
      NSHADER_BACKEND_SPV).2.2.2.2.1 scenario_table_consistent (by decide!),
    (get_blob_absent scenario_bundle (stage_of_type NSHADER_STAGE_TYPE_VERTEX)
      NSHADER_BACKEND_DXIL).2.2.2.2.2 scenario_table_consistent (by decide!)⟩

theorem backend_selection_witness :
    nshader_sdl3_gpu_create_shader (some (SDL_GPU_SHADERFORMAT_MSL + SDL_GPU_SHADERFORMAT_SPIRV))
        (some scenario_bundle) NSHADER_STAGE_TYPE_VERTEX
        = some scenario_vertex_create_info
      ∧ select_backend_for_device (some (SDL_GPU_SHADERFORMAT_MSL + SDL_GPU_SHADERFORMAT_SPIRV))
          (some scenario_bundle) = NSHADER_BACKEND_SPV
      ∧ scenario_bundle.blob_at NSHADER_STAGE_TYPE_VERTEX
          (select_backend_for_device
            (some (SDL_GPU_SHADERFORMAT_MSL + SDL_GPU_SHADERFORMAT_SPIRV))
            (some scenario_bundle))
          = some { data := some (List.replicate 16 7) }
      ∧ nshader_sdl3_gpu_create_shader
          (some (SDL_GPU_SHADERFORMAT_MSL + SDL_GPU_SHADERFORMAT_SPIRV))
          (some scenario_bundle) NSHADER_STAGE_TYPE_FRAGMENT = none :=
  ⟨by decide!, by decide!,
    ((backend_selection (SDL_GPU_SHADERFORMAT_MSL + SDL_GPU_SHADERFORMAT_SPIRV)
      scenario_bundle NSHADER_STAGE_TYPE_VERTEX).2.1 scenario_vertex_create_info
      (by decide!)).1,
    (backend_selection (SDL_GPU_SHADERFORMAT_MSL + SDL_GPU_SHADERFORMAT_SPIRV)
      scenario_bundle NSHADER_STAGE_TYPE_FRAGMENT).2.2.2.1 (by decide!)⟩

/-! ## Names and kinds -/

/-- Claim C26: `nshader_stage_type_to_shader_type` maps Vertex and Fragment to Graphics
and Compute to Compute, and every other stage value to Graphics. -/
theorem stage_type_to_shader_type_table :
    nshader_stage_type_to_shader_type NSHADER_STAGE_TYPE_VERTEX =
        NSHADER_SHADER_TYPE_GRAPHICS ∧
      nshader_stage_type_to_shader_type NSHADER_STAGE_TYPE_FRAGMENT =
        NSHADER_SHADER_TYPE_GRAPHICS ∧
      nshader_stage_type_to_shader_type NSHADER_STAGE_TYPE_COMPUTE =
        NSHADER_SHADER_TYPE_COMPUTE ∧
      NSHADER_SHADER_TYPE_GRAPHICS ≠ NSHADER_SHADER_TYPE_COMPUTE ∧
      ∀ stage_type : Nat, NSHADER_STAGE_TYPE_COUNT ≤ stage_type →
        nshader_stage_type_to_shader_type stage_type = NSHADER_SHADER_TYPE_GRAPHICS := by
  refine ⟨by decide, by decide, by decide, by decide, ?_⟩
  intro stage_type hge
  simp only [NSHADER_STAGE_TYPE_COUNT] at hge
  have h0 : stage_type ≠ NSHADER_STAGE_TYPE_VERTEX := by
    simp only [NSHADER_STAGE_TYPE_VERTEX]; omega
  have h1 : stage_type ≠ NSHADER_STAGE_TYPE_FRAGMENT := by
    simp only [NSHADER_STAGE_TYPE_FRAGMENT]; omega
  have h2 : stage_type ≠ NSHADER_STAGE_TYPE_COMPUTE := by
    simp only [NSHADER_STAGE_TYPE_COMPUTE]; omega
  simp [nshader_stage_type_to_shader_type, h0, h1, h2]

/-- Claim C27: `nshader_backend_to_string` and `nshader_backend_to_extension` give the
four backends the names "DXIL", "DXBC", "MSL", "SPIR-V" and the extensions ".dxil",
".dxbc", ".msl", ".spv"; both are injective on the four backends, and every other value
is named "Unknown" and given the extension ".unknown". -/
theorem backend_names :
    nshader_backend_to_string NSHADER_BACKEND_DXIL = "DXIL" ∧
      nshader_backend_to_string NSHADER_BACKEND_DXBC = "DXBC" ∧
      nshader_backend_to_string NSHADER_BACKEND_MSL = "MSL" ∧
      nshader_backend_to_string NSHADER_BACKEND_SPV = "SPIR-V" ∧
      nshader_backend_to_extension NSHADER_BACKEND_DXIL = ".dxil" ∧
      nshader_backend_to_extension NSHADER_BACKEND_DXBC = ".dxbc" ∧
      nshader_backend_to_extension NSHADER_BACKEND_MSL = ".msl" ∧
      nshader_backend_to_extension NSHADER_BACKEND_SPV = ".spv" ∧
      (∀ a b : Nat, a < NSHADER_BACKEND_COUNT → b < NSHADER_BACKEND_COUNT →
        nshader_backend_to_string a = nshader_backend_to_string b → a = b) ∧
      (∀ a b : Nat, a < NSHADER_BACKEND_COUNT → b < NSHADER_BACKEND_COUNT →
        nshader_backend_to_extension a = nshader_backend_to_extension b → a = b) ∧
      ∀ backend : Nat, NSHADER_BACKEND_COUNT ≤ backend →
        nshader_backend_to_string backend = "Unknown" ∧
          nshader_backend_to_extension backend = ".unknown" := by
  refine ⟨by decide, by decide, by decide, by decide, by decide, by decide, by decide,
    by decide, ?_, ?_, ?_⟩
  · intro a b ha hb
    simp only [NSHADER_BACKEND_COUNT] at ha hb
    interval_cases a <;> interval_cases b <;> decide
  · intro a b ha hb
    simp only [NSHADER_BACKEND_COUNT] at ha hb
    interval_cases a <;> interval_cases b <;> decide
  · intro backend hge
    simp only [NSHADER_BACKEND_COUNT] at hge
    have h0 : backend ≠ NSHADER_BACKEND_DXIL := by simp only [NSHADER_BACKEND_DXIL]; omega
    have h1 : backend ≠ NSHADER_BACKEND_DXBC := by simp only [NSHADER_BACKEND_DXBC]; omega
    have h2 : backend ≠ NSHADER_BACKEND_MSL := by simp only [NSHADER_BACKEND_MSL]; omega
    have h3 : backend ≠ NSHADER_BACKEND_SPV := by simp only [NSHADER_BACKEND_SPV]; omega
    simp [nshader_backend_to_string, nshader_backend_to_extension, h0, h1, h2, h3]

/-! ## The documented scenario -/

set_option maxRecDepth 100000 in
/-- Claim C21, evaluated: for the scenario bundle (Vertex and Fragment stage "main" with
the input "Color", backend SPV, a 16-byte blob at (Vertex, SPV)) the decoder on a host
with 4-byte enums returns nothing for the encoder's output, so the queries on the result
report no Vertex stage and no blob; with 1-byte enums the result has 2 stages, a Vertex
and no Compute stage, the same 16 bytes at (Vertex, SPV) and nothing at
(Fragment, SPV). -/
theorem scenario_decode_fails_with_wide_enums :
    nshader_read_from_memory host_x64 (encode host_x64 scenario_bundle) = none ∧
      nshader_has_stage (nshader_read_from_memory host_x64 (encode host_x64 scenario_bundle))
        NSHADER_STAGE_TYPE_VERTEX = false ∧
      nshader_get_blob (nshader_read_from_memory host_x64 (encode host_x64 scenario_bundle))
        (stage_of_type NSHADER_STAGE_TYPE_VERTEX) NSHADER_BACKEND_SPV = none ∧
      ((nshader_read_from_memory host_short_enums
          (encode host_short_enums scenario_bundle)).map
        fun shader => shader.info.stages.length) = some 2 ∧
      nshader_has_stage
        (nshader_read_from_memory host_short_enums (encode host_short_enums scenario_bundle))
        NSHADER_STAGE_TYPE_VERTEX = true ∧
      nshader_has_stage
        (nshader_read_from_memory host_short_enums (encode host_short_enums scenario_bundle))
        NSHADER_STAGE_TYPE_COMPUTE = false ∧
      nshader_get_blob
        (nshader_read_from_memory host_short_enums (encode host_short_enums scenario_bundle))
        (stage_of_type NSHADER_STAGE_TYPE_VERTEX) NSHADER_BACKEND_SPV =
          some { data := some (List.replicate 16 7) } ∧
      nshader_get_blob
        (nshader_read_from_memory host_short_enums (encode host_short_enums scenario_bundle))
        (stage_of_type NSHADER_STAGE_TYPE_FRAGMENT) NSHADER_BACKEND_SPV = none := by
  decide!

/-! ## Compute metadata -/

theorem concat_compute_wire_fields (compute : nshader_stage_metadata_compute_t)
    (rest : List Byte) :
    concat_fields (compute_wire_fields compute) ++ rest
      = le_bytes 4 compute.num_samplers ++ (le_bytes 4 compute.num_readonly_storage_textures ++
        (le_bytes 4 compute.num_readonly_storage_buffers ++
        (le_bytes 4 compute.num_readwrite_storage_textures ++
        (le_bytes 4 compute.num_readwrite_storage_buffers ++
        (le_bytes 4 compute.num_uniform_buffers ++ (le_bytes 4 compute.threadcount_x ++
        (le_bytes 4 compute.threadcount_y ++ (le_bytes 4 compute.threadcount_z ++ rest)))))))) := by
  simp only [compute_wire_fields, concat_fields, List.append_assoc, List.append_nil]

/-- The compute case of `read_stage_metadata` on a cursor in front of the nine fields. -/
theorem read_compute_metadata_sees (h : Host) (compute : nshader_stage_metadata_compute_t)
    (metadata : nshader_stage_metadata_t) (rest : List Byte) (c : Cursor)
    (hfit : compute_fits compute)
    (hc : c.sees (concat_fields (compute_wire_fields compute) ++ rest)) :
    ∃ c1, read_stage_metadata h NSHADER_STAGE_TYPE_COMPUTE metadata c
        = (some { metadata with compute := compute }, c1) ∧ c1.sees rest ∧
      c1.buffer = c.buffer + 36 := by
  rw [concat_compute_wire_fields] at hc
  obtain ⟨f1, f2, f3, f4, f5, f6, f7, f8, f9⟩ := hfit
  have r1 := READ_U32_sees h _ _ _ hc
  have r2 := READ_U32_sees h _ _ _ r1.2
  have r3 := READ_U32_sees h _ _ _ r2.2
  have r4 := READ_U32_sees h _ _ _ r3.2
  have r5 := READ_U32_sees h _ _ _ r4.2
  have r6 := READ_U32_sees h _ _ _ r5.2
  have r7 := READ_U32_sees h _ _ _ r6.2
  have r8 := READ_U32_sees h _ _ _ r7.2
  have r9 := READ_U32_sees h _ _ _ r8.2
  refine ⟨_, ?_, r9.2, ?_⟩
  · unfold read_stage_metadata
    rw [if_neg (by decide), if_neg (by decide), if_pos rfl]
    rw [step_bind_of_some r1.1, step_bind_of_some r2.1, step_bind_of_some r3.1,
      step_bind_of_some r4.1, step_bind_of_some r5.1, step_bind_of_some r6.1,
      step_bind_of_some r7.1, step_bind_of_some r8.1, step_bind_of_some r9.1,
      step_pure_apply, Nat.mod_eq_of_lt f1, Nat.mod_eq_of_lt f2, Nat.mod_eq_of_lt f3,
      Nat.mod_eq_of_lt f4, Nat.mod_eq_of_lt f5, Nat.mod_eq_of_lt f6, Nat.mod_eq_of_lt f7,
      Nat.mod_eq_of_lt f8, Nat.mod_eq_of_lt f9]
  · simp only [Cursor.advance]

/-- The compute case of `write_stage_metadata` emits the nine fields. -/
theorem write_compute_metadata (h : Host) (metadata : nshader_stage_metadata_t)
    (hfit : compute_fits metadata.compute) :
    write_stage_metadata h NSHADER_STAGE_TYPE_COMPUTE metadata
      = write_fields (compute_wire_fields metadata.compute) := by
  obtain ⟨f1, f2, f3, f4, f5, f6, f7, f8, f9⟩ := hfit
  rw [write_stage_metadata_eq h _ _ (Or.inr (Or.inr rfl))]
  unfold metadata_fields compute_wire_fields
  rw [if_neg (by decide), if_neg (by decide)]
  simp only [u32_field_eq, Nat.mod_eq_of_lt f1, Nat.mod_eq_of_lt f2, Nat.mod_eq_of_lt f3,
      Nat.mod_eq_of_lt f4, Nat.mod_eq_of_lt f5, Nat.mod_eq_of_lt f6, Nat.mod_eq_of_lt f7,
      Nat.mod_eq_of_lt f8, Nat.mod_eq_of_lt f9]
set_option maxRecDepth 100000 in
/-- Claim C22, evaluated: `write_stage_metadata` emits the nine compute fields in the
order of the format as 36 bytes and `read_stage_metadata` reads them back in that order
on every host, but for the compute bundle with thread count (8, 8, 1) the decoder on a
host with 4-byte enums returns nothing for the encoder's output, so the thread count
does not come back; with 1-byte enums the bundle, and with it (8, 8, 1), comes back. -/
theorem compute_metadata_roundtrip_fails_with_wide_enums :
    (∀ (h : Host) (metadata : nshader_stage_metadata_t), compute_fits metadata.compute →
      write_stage_metadata h NSHADER_STAGE_TYPE_COMPUTE metadata
          = write_fields (compute_wire_fields metadata.compute) ∧
        (concat_fields (compute_wire_fields metadata.compute)).length = 36) ∧
      (∀ (h : Host) (compute : nshader_stage_metadata_compute_t)
          (metadata : nshader_stage_metadata_t) (rest : List Byte) (c : Cursor),
        compute_fits compute →
        c.sees (concat_fields (compute_wire_fields compute) ++ rest) →
        ∃ c1, read_stage_metadata h NSHADER_STAGE_TYPE_COMPUTE metadata c
            = (some { metadata with compute := compute }, c1) ∧ c1.sees rest ∧
          c1.buffer = c.buffer + 36) ∧
      valid_bundle compute_bundle ∧
      nshader_read_from_memory host_x64 (encode host_x64 compute_bundle) = none ∧
      nshader_read_from_memory host_short_enums (encode host_short_enums compute_bundle)
        = some compute_bundle ∧
      (compute_bundle.info.stages.map fun stage =>
        (stage.metadata.compute.threadcount_x, stage.metadata.compute.threadcount_y,
          stage.metadata.compute.threadcount_z)) = [(8, 8, 1)] := by
  refine ⟨?_, ?_, by decide!, by decide!, by decide!, by decide!⟩
  · intro h metadata hfit
    refine ⟨write_compute_metadata h metadata hfit, ?_⟩
    simp only [compute_wire_fields, concat_fields, List.length_append, le_bytes_length,
      List.length_nil]
  · intro h compute metadata rest c hfit hc
    exact read_compute_metadata_sees h compute metadata rest c hfit hc

/-! ## The backend list -/

set_option maxRecDepth 100000 in
/-- Claim C24 fails: a buffer that lists the tag SPV twice is decoded into a bundle whose
backend list holds SPV twice, on a host with 4-byte enums and, in the layout of the
format, on a host with 1-byte enums. -/
theorem backend_list_counterexample :
    ((nshader_read_from_memory host_x64 duplicate_backend_buffer).map
        fun shader => shader.info.backends) = some [NSHADER_BACKEND_SPV, NSHADER_BACKEND_SPV] ∧
      ((nshader_read_from_memory host_short_enums duplicate_backend_buffer_short).map
        fun shader => shader.info.backends) = some [NSHADER_BACKEND_SPV, NSHADER_BACKEND_SPV] ∧
      ¬ [NSHADER_BACKEND_SPV, NSHADER_BACKEND_SPV].Nodup := by
  decide!

/-- Claim C24, amended: the backend loop of `nshader_read_from_memory` stores the tags of
the backend section in wire order, one per declared entry, whatever their values: on a
cursor in front of the tags `tags` (each as wide as an enum object) it yields the list of
their values, duplicates included. -/
theorem backend_list_in_wire_order (h : Host) (tags : List (List Byte)) (rest : List Byte)
    (c : Cursor) (hsize : ∀ tag ∈ tags, tag.length = h.enum_size)
    (hc : c.sees (concat_fields tags ++ rest)) :
    ∃ c1, read_array (READ_U8 h h.enum_size) tags.length c = (some (tags.map h.load), c1) ∧
      c1.sees rest := by
  induction tags generalizing c with
  | nil => exact ⟨c, rfl, hc⟩
  | cons tag others ih =>
    simp only [concat_fields, List.append_assoc] at hc
    have hr := read_data_sees tag _ c hc
    rw [hsize tag (List.mem_cons_self _ _)] at hr
    obtain ⟨c2, hrest, hsees2⟩ := ih _ (fun t ht => hsize t (List.mem_cons_of_mem _ ht)) hr.2
    refine ⟨c2, ?_, hsees2⟩
    have hfirst : READ_U8 h h.enum_size c = (some (h.load tag), c.advance h.enum_size) := by
      unfold READ_U8
      rw [step_bind_of_some hr.1, step_pure_apply]
    simp only [List.length_cons, read_array, List.map_cons]
    rw [step_bind_of_some hfirst, step_bind_of_some hrest]
    rfl

set_option maxRecDepth 100000 in
theorem backend_list_in_wire_order_witness :
    ∃ c1, read_array (READ_U8 host_x64 host_x64.enum_size) 2
        (Cursor.init [3, 0, 0, 0, 3, 0, 0, 0, 0]) = (some [3, 3], c1) ∧ c1.sees [0] :=
  backend_list_in_wire_order host_x64 [[3, 0, 0, 0], [3, 0, 0, 0]] [0]
    (Cursor.init [3, 0, 0, 0, 3, 0, 0, 0, 0]) (by decide) (Cursor.init_sees _)

/-! ## The kind of a bundle -/

theorem read_data_some_inv {size : Nat} {c c1 : Cursor} {bytes : List Byte}
    (hr : read_data size c = (some bytes, c1)) :
    size ≤ c.remaining ∧ bytes = c.next size ∧ c1 = c.advance size := by
  by_cases hsize : size ≤ c.remaining
  · rw [read_data_ok size c hsize] at hr
    have h1 := congrArg Prod.fst hr
    have h2 := congrArg Prod.snd hr
    simp only [Option.some.injEq] at h1
    exact ⟨hsize, h1.symm, h2.symm⟩
  · rw [read_data_refused size c (by omega)] at hr
    exact Option.noConfusion (congrArg Prod.fst hr)

theorem READ_U32_some_inv {h : Host} {c c1 : Cursor} {v : Nat}
    (hr : READ_U32 h c = (some v, c1)) :
    4 ≤ c.remaining ∧ v = from_le32 h (h.load (c.next 4)) ∧ c1 = c.advance 4 := by
  unfold READ_U32 at hr
  obtain ⟨bytes, c2, hd, hp⟩ := step_bind_some_inv hr
  obtain ⟨hsize, hb, hc⟩ := read_data_some_inv hd
  subst hb hc
  have h1 := congrArg Prod.fst hp
  have h2 := congrArg Prod.snd hp
  simp only [step_pure_apply, Option.some.injEq] at h1 h2
  exact ⟨hsize, h1.symm, h2.symm⟩

theorem READ_U8_some_inv {h : Host} {size : Nat} {c c1 : Cursor} {v : Nat}
    (hr : READ_U8 h size c = (some v, c1)) :
    size ≤ c.remaining ∧ v = h.load (c.next size) ∧ c1 = c.advance size := by
  unfold READ_U8 at hr
  obtain ⟨bytes, c2, hd, hp⟩ := step_bind_some_inv hr
  obtain ⟨hsize, hb, hc⟩ := read_data_some_inv hd
  subst hb hc
  have h1 := congrArg Prod.fst hp
  have h2 := congrArg Prod.snd hp
  simp only [step_pure_apply, Option.some.injEq] at h1 h2
  exact ⟨hsize, h1.symm, h2.symm⟩

/-- What a successful run of the statements in front of the stage loop has read. -/
theorem read_preamble_some_inv {h : Host} {c c1 : Cursor} {p : Nat × Nat}
    (hr : read_preamble h c = (some p, c1)) :
    8 + h.enum_size + 4 ≤ c.remaining ∧
      p.1 = h.load (((c.advance 4).advance 4).next h.enum_size) ∧
      p.2 = from_le32 h (h.load ((((c.advance 4).advance 4).advance h.enum_size).next 4)) ∧
      c1 = (((c.advance 4).advance 4).advance h.enum_size).advance 4 := by
  unfold read_preamble at hr
  obtain ⟨magic, ca, hm, hr⟩ := step_bind_some_inv hr
  obtain ⟨s1, _, rfl⟩ := READ_U32_some_inv hm
  by_cases hmagic : magic ≠ NSHADER_MAGIC
  · rw [if_pos hmagic] at hr
    exact Option.noConfusion (congrArg Prod.fst hr)
  rw [if_neg hmagic] at hr
  obtain ⟨version, cb, hv, hr⟩ := step_bind_some_inv hr
  obtain ⟨s2, _, rfl⟩ := READ_U32_some_inv hv
  by_cases hversion : version ≠ NSHADER_VERSION
  · rw [if_pos hversion] at hr
    exact Option.noConfusion (congrArg Prod.fst hr)
  rw [if_neg hversion] at hr
  obtain ⟨type, cc, ht, hr⟩ := step_bind_some_inv hr
  obtain ⟨s3, htype, rfl⟩ := READ_U8_some_inv ht
  obtain ⟨n, cd, hn, hr⟩ := step_bind_some_inv hr
  obtain ⟨s4, hnum, rfl⟩ := READ_U32_some_inv hn
  have h1 := congrArg Prod.fst hr
  have h2 := congrArg Prod.snd hr
  simp only [step_pure_apply, Option.some.injEq] at h1 h2
  subst h1
  simp only [Cursor.advance] at s2 s3 s4
  refine ⟨by omega, htype, hnum, h2.symm⟩

/-- What a successful run of the statements from the stage loop on returns. -/
theorem read_body_some_inv {h : Host} {type num_stages : Nat} {c c1 : Cursor}
    {shader : nshader_t} (hr : read_body h type num_stages c = (some shader, c1)) :
    ∃ c2 c3 num_backends, shader.info.type = type ∧
      read_array (read_stage h) num_stages c = (some shader.info.stages, c2) ∧
      READ_U32 h c2 = (some num_backends, c3) ∧
      (∃ c4, read_array (READ_U8 h h.enum_size) num_backends c3
        = (some shader.info.backends, c4)) := by
  unfold read_body at hr
  obtain ⟨stages, c2, hs, hr⟩ := step_bind_some_inv hr
  obtain ⟨nb, c3, hn, hr⟩ := step_bind_some_inv hr
  obtain ⟨backends, c4, hb, hr⟩ := step_bind_some_inv hr
  obtain ⟨blobs, c5, _, hr⟩ := step_bind_some_inv hr
  have h1 := congrArg Prod.fst hr
  simp only [step_pure_apply, Option.some.injEq] at h1
  subst h1
  exact ⟨c2, c3, nb, rfl, hs, hn, c4, hb⟩

theorem read_from_memory_some_inv {h : Host} {buffer : List Byte} {shader : nshader_t}
    (hr : nshader_read_from_memory h buffer = some shader) :
    ∃ p c1 c2, read_preamble h (Cursor.init buffer) = (some p, c1) ∧
      read_body h p.1 p.2 c1 = (some shader, c2) := by
  unfold nshader_read_from_memory nshader_read_from_memory_run at hr
  by_cases hlen : buffer.length = 0
  · rw [if_pos hlen] at hr
    exact Option.noConfusion hr
  rw [if_neg hlen, read_shader_split] at hr
  rcases hrun : (read_preamble h >>= fun p => read_body h p.1 p.2) (Cursor.init buffer)
    with ⟨r, c2⟩
  rw [hrun] at hr
  simp only at hr
  subst hr
  obtain ⟨p, c1, hp, hb⟩ := step_bind_some_inv hrun
  exact ⟨p, c1, c2, hp, hb⟩
set_option maxRecDepth 100000 in
/-- Claim C25 fails for the decoder: a buffer with kind Compute and one Vertex stage is
decoded into a bundle of kind Compute whose first stage is a Vertex stage, for which
`nshader_stage_type_to_shader_type` gives Graphics; on a host with 4-byte enums and, in
the layout of the format, on a host with 1-byte enums. -/
theorem kind_counterexample :
    ((nshader_read_from_memory host_x64 kind_mismatch_buffer).map fun shader =>
        (shader.info.type, shader.info.stages.map fun stage =>
          nshader_stage_type_to_shader_type stage.type))
        = some (NSHADER_SHADER_TYPE_COMPUTE, [NSHADER_SHADER_TYPE_GRAPHICS]) ∧
      ((nshader_read_from_memory host_short_enums kind_mismatch_buffer_short).map
        fun shader =>
          (shader.info.type, shader.info.stages.map fun stage =>
            nshader_stage_type_to_shader_type stage.type))
        = some (NSHADER_SHADER_TYPE_COMPUTE, [NSHADER_SHADER_TYPE_GRAPHICS]) ∧
      NSHADER_SHADER_TYPE_COMPUTE ≠ NSHADER_SHADER_TYPE_GRAPHICS := by
  decide!

/-- Claim C25, amended: the kind of every bundle the compiler returns is
`nshader_stage_type_to_shader_type` of its first stage, and a bundle the compiler
returns has a first stage; the kind of a bundle the decoder returns is the value of the
kind field of the buffer (the enum object read at offset 8), whatever its stages. -/
theorem kind_of_returned_bundle :
    (∀ (config : Option nshader_compiler_config_t) (compiled : Option (List compiled_stage_t))
        (shader : nshader_t),
      nshader_compiler_compile_hlsl config compiled = some shader →
      ∃ first, shader.info.stages.head? = some first ∧
        shader.info.type = nshader_stage_type_to_shader_type first.type) ∧
      ∀ (h : Host) (buffer : List Byte) (shader : nshader_t),
        nshader_read_from_memory h buffer = some shader →
        shader.info.type = h.load ((buffer.drop 8).take h.enum_size) := by
  constructor
  · intro config compiled shader hr
    match config, compiled, hr with
    | some config, some (first :: others), hr =>
      simp only [nshader_compiler_compile_hlsl, Option.some.injEq] at hr
      subst hr
      exact ⟨stage_info_of first, rfl, rfl⟩
  · intro h buffer shader hr
    obtain ⟨p, c1, c2, hp, hb⟩ := read_from_memory_some_inv hr
    obtain ⟨_, htype, _, _⟩ := read_preamble_some_inv hp
    obtain ⟨_, _, _, hkind, _⟩ := read_body_some_inv hb
    rw [hkind, htype]
    rfl
set_option maxRecDepth 100000 in
theorem kind_of_returned_bundle_witness :
    (nshader_compiler_compile_hlsl (some config_all_backends) (some [compiled_compute_stage])
        = some compute_bundle ∧
      ∃ first, compute_bundle.info.stages.head? = some first ∧
        compute_bundle.info.type = nshader_stage_type_to_shader_type first.type) ∧
      nshader_read_from_memory host_x64 kind_mismatch_buffer = some kind_mismatch_bundle ∧
      kind_mismatch_bundle.info.type
        = host_x64.load ((kind_mismatch_buffer.drop 8).take host_x64.enum_size) :=
  ⟨⟨by decide!, kind_of_returned_bundle.1 (some config_all_backends)
      (some [compiled_compute_stage]) compute_bundle (by decide!)⟩,
    by decide!, kind_of_returned_bundle.2 host_x64 kind_mismatch_buffer kind_mismatch_bundle
      (by decide!)⟩

/-! ## Duplicate stage kinds -/

theorem read_array_length {α : Type} (element : Step Cursor α) (n : Nat) (c c1 : Cursor)
    (xs : List α) (hr : read_array element n c = (some xs, c1)) : xs.length = n := by
  induction n generalizing c c1 xs with
  | zero =>
    have h1 := congrArg Prod.fst hr
    simp only [read_array, step_pure_apply, Option.some.injEq] at h1
    subst h1
    rfl
  | succ n ih =>
    unfold read_array at hr
    obtain ⟨x, c2, _, hr⟩ := step_bind_some_inv hr
    obtain ⟨rest, c3, hrest, hr⟩ := step_bind_some_inv hr
    have h1 := congrArg Prod.fst hr
    simp only [step_pure_apply, Option.some.injEq] at h1
    subst h1
    simp only [List.length_cons, ih c2 c3 rest hrest]

/-- With 4-byte enums the decoder takes the stage count from offset 12; in a buffer laid
out as the format says (kind in one byte at offset 8, stage count at offset 9) that is
the last byte of the count and three bytes of the first stage. -/
theorem wide_enum_stage_count (h : Host) (hE : h.enum_size = 4) (buffer : List Byte)
    (shader : nshader_t) (hr : nshader_read_from_memory h buffer = some shader) :
    shader.info.stages.length = le_value ((buffer.drop 12).take 4) ∧ 16 ≤ buffer.length := by
  obtain ⟨p, c1, c2, hp, hb⟩ := read_from_memory_some_inv hr
  obtain ⟨hlen, _, hcount, hc1⟩ := read_preamble_some_inv hp
  obtain ⟨c3, _, _, _, hstages, _⟩ := read_body_some_inv hb
  have hn := read_array_length _ _ _ _ _ hstages
  have hlen2 : 16 ≤ buffer.length := by
    simp only [Cursor.init, hE] at hlen
    exact hlen
  refine ⟨?_, hlen2⟩
  rw [hn, hcount]
  have hnext : (((((Cursor.init buffer).advance 4).advance 4).advance h.enum_size).next 4)
      = (buffer.drop 12).take 4 := by
    simp only [Cursor.next, Cursor.advance, Cursor.init, hE]
  rw [hnext]
  apply from_le32_load
  simp only [List.length_take, List.length_drop]
  omega
set_option maxRecDepth 100000 in
/-- Claim C28, evaluated: on a host with 4-byte enums no buffer whose stage count field,
at the offset the format gives it, holds 2 is decoded into a bundle with two stages; the
buffer that the format prescribes for two Vertex stages "a" and "b" (the encoder's
output) is rejected there. With 1-byte enums that buffer is decoded into both stages in
wire order and `nshader_has_stage` reports Vertex; with 4-byte enums the same holds for
the buffer with four bytes per kind, so no check of the decoder rejects a repeated
kind. -/
theorem duplicate_stage_kinds_with_wide_enums :
    (∀ (h : Host) (buffer : List Byte) (shader : nshader_t), h.enum_size = 4 →
        (buffer.drop 9).take 4 = le_bytes 4 2 →
        nshader_read_from_memory h buffer = some shader →
        shader.info.stages.length ≠ 2) ∧
      encode host_x64 duplicate_stage_bundle = duplicate_stage_buffer_short ∧
      nshader_read_from_memory host_x64 duplicate_stage_buffer_short = none ∧
      nshader_read_from_memory host_short_enums duplicate_stage_buffer_short
        = some duplicate_stage_bundle ∧
      nshader_read_from_memory host_x64 duplicate_stage_buffer
        = some duplicate_stage_bundle ∧
      nshader_has_stage (some duplicate_stage_bundle) NSHADER_STAGE_TYPE_VERTEX = true ∧
      (duplicate_stage_bundle.info.stages.map fun stage => (stage.type, stage.entry_point))
        = [(NSHADER_STAGE_TYPE_VERTEX, some [97]), (NSHADER_STAGE_TYPE_VERTEX, some [98])] := by
  refine ⟨?_, by decide!, by decide!, by decide!, by decide!, by decide!, by decide!⟩
  intro h buffer shader hE hcount hr
  obtain ⟨hlen, h16⟩ := wide_enum_stage_count h hE buffer shader hr
  rw [hlen]
  have hlast : (buffer.drop 12).take 1 = [0] := by
    have h3 := congrArg (List.drop 3) hcount
    rw [List.drop_take, List.drop_drop] at h3
    simpa [le_bytes, byte_of] using h3
  rcases hx : (buffer.drop 12).take 4 with _ | ⟨b, t⟩
  · have := congrArg List.length hx
    simp only [List.length_take, List.length_drop, List.length_nil] at this
    omega
  · have h1 := congrArg (List.take 1) hx
    rw [List.take_take] at h1
    simp only [Nat.min_def] at h1
    simp only [show (1 : Nat) ≤ 4 by omega, if_true, hlast, List.take_succ_cons,
      List.take_zero, List.cons.injEq, and_true] at h1
    subst h1
    simp only [le_value]
    have : ((0 : Byte).val) = 0 := rfl
    omega
set_option maxRecDepth 100000 in
theorem duplicate_stage_kinds_with_wide_enums_witness :
    host_x64.enum_size = 4 ∧ (misread_count_buffer.drop 9).take 4 = le_bytes 4 2 ∧
      nshader_read_from_memory host_x64 misread_count_buffer = some misread_count_bundle ∧
      misread_count_bundle.info.stages.length ≠ 2 :=
  ⟨rfl, by decide!, by decide!,
    duplicate_stage_kinds_with_wide_enums.1 host_x64 misread_count_buffer misread_count_bundle
      rfl (by decide!) (by decide!)⟩

/-! ## Loop iterations of the reader -/

theorem remaining_read_data (bound size : Nat) :
    Preserves (fun c => c.remaining ≤ bound) (read_data size) := by
  intro c hc
  by_cases hlt : c.remaining < size
  · rw [read_data_refused size c hlt]
    exact hc
  · rw [read_data_ok size c (by omega)]
    simp only [Cursor.advance]
    omega

theorem remaining_read_string (bound : Nat) (h : Host) :
    Preserves (fun c => c.remaining ≤ bound) (read_string h) :=
  preserves_bind _ _ _ (remaining_read_data bound 4) fun _ =>
    preserves_ite _ _ _ _ (preserves_fail _) (remaining_read_data bound _)

theorem read_string_some_inv {h : Host} {c c1 : Cursor} {s : CString}
    (hr : read_string h c = (some s, c1)) : c1.remaining + 5 ≤ c.remaining := by
  unfold read_string at hr
  obtain ⟨len_le, c2, hd, hr⟩ := step_bind_some_inv hr
  obtain ⟨hsize, _, rfl⟩ := read_data_some_inv hd
  by_cases hlen : from_le32 h (h.load len_le) = 0
  · simp only [hlen, if_true] at hr
    exact Option.noConfusion (congrArg Prod.fst hr)
  · simp only [hlen, if_false] at hr
    obtain ⟨hbody, _, rfl⟩ := read_data_some_inv hr
    simp only [Cursor.advance] at hbody ⊢
    omega

theorem read_binding_consumes {h : Host} {c c1 : Cursor} {binding : nshader_stage_binding_t}
    (hr : read_binding h c = (some binding, c1)) :
    c1.remaining + 8 + h.enum_size ≤ c.remaining := by
  unfold read_binding at hr
  obtain ⟨name, c2, hname, hr⟩ := step_bind_some_inv hr
  have hc2 : c2.remaining ≤ c.remaining := by
    have hp := remaining_read_string c.remaining h c (Nat.le_refl _)
    have : c2 = (read_string h c).2 := (congrArg Prod.snd hname).symm
    rw [this]
    exact hp
  obtain ⟨t1, c3, h1, hr⟩ := step_bind_some_inv hr
  obtain ⟨s1, _, rfl⟩ := read_data_some_inv h1
  obtain ⟨t2, c4, h2, hr⟩ := step_bind_some_inv hr
  obtain ⟨s2, _, rfl⟩ := read_data_some_inv h2
  obtain ⟨t3, c5, h3, hr⟩ := step_bind_some_inv hr
  obtain ⟨s3, _, rfl⟩ := read_data_some_inv h3
  have hc1 := congrArg Prod.snd hr
  simp only [step_pure_apply] at hc1
  subst hc1
  simp only [Cursor.advance] at s2 s3 ⊢
  omega

/-- A counted loop whose element consumes at least `weight element` bytes. -/
theorem read_array_consumes {α : Type} (element : Step Cursor α) (weight : α → Nat)
    (hel : ∀ c a c1, element c = (some a, c1) → c1.remaining + weight a ≤ c.remaining)
    (n : Nat) (c c1 : Cursor) (xs : List α) (hr : read_array element n c = (some xs, c1)) :
    c1.remaining + (xs.map weight).sum ≤ c.remaining := by
  induction n generalizing c c1 xs with
  | zero =>
    have h1 := congrArg Prod.fst hr
    have h2 := congrArg Prod.snd hr
    simp only [read_array, step_pure_apply, Option.some.injEq] at h1 h2
    subst h1 h2
    simp only [List.map_nil, List.sum_nil, Nat.add_zero, Nat.le_refl]
  | succ n ih =>
    unfold read_array at hr
    obtain ⟨x, c2, hx, hr⟩ := step_bind_some_inv hr
    obtain ⟨rest, c3, hrest, hr⟩ := step_bind_some_inv hr
    have h1 := congrArg Prod.fst hr
    have h2 := congrArg Prod.snd hr
    simp only [step_pure_apply, Option.some.injEq] at h1 h2
    subst h1 h2
    have hx2 := hel c x c2 hx
    have hr2 := ih c2 c3 rest hrest
    simp only [List.map_cons, List.sum_cons]
    omega

theorem sum_map_one {α : Type} (xs : List α) : (xs.map fun _ => 1).sum = xs.length := by
  induction xs with
  | nil => rfl
  | cons x rest ih => simp only [List.map_cons, List.sum_cons, ih, List.length_cons]; omega

theorem read_bindings_consumes {h : Host} {n : Nat} {c c1 : Cursor}
    {xs : List nshader_stage_binding_t}
    (hr : read_array (read_binding h) n c = (some xs, c1)) :
    c1.remaining + xs.length ≤ c.remaining := by
  have := read_array_consumes (read_binding h) (fun _ => 1)
    (fun c a c1 hb => by have := read_binding_consumes hb; simp only; omega) n c c1 xs hr
  rw [sum_map_one] at this
  exact this

/-- A successful `read_stage_metadata` has consumed at least one byte for every binding
of the member it filled. -/
theorem read_stage_metadata_consumes {h : Host} {stage_type : Nat}
    {metadata result : nshader_stage_metadata_t} {c c1 : Cursor}
    (hr : read_stage_metadata h stage_type metadata c = (some result, c1)) :
    c1.remaining +
        (if stage_type = NSHADER_STAGE_TYPE_VERTEX then
          result.vertex.inputs.length + result.vertex.outputs.length
        else if stage_type = NSHADER_STAGE_TYPE_FRAGMENT then
          result.fragment.inputs.length + result.fragment.outputs.length
        else 0) ≤ c.remaining := by
  unfold read_stage_metadata at hr
  by_cases h0 : stage_type = NSHADER_STAGE_TYPE_VERTEX
  · rw [if_pos h0] at hr
    rw [if_pos h0]
    obtain ⟨_, _, r1, hr⟩ := step_bind_some_inv hr
    obtain ⟨s1, _, rfl⟩ := READ_U32_some_inv r1
    obtain ⟨_, _, r2, hr⟩ := step_bind_some_inv hr
    obtain ⟨s2, _, rfl⟩ := READ_U32_some_inv r2
    obtain ⟨_, _, r3, hr⟩ := step_bind_some_inv hr
    obtain ⟨s3, _, rfl⟩ := READ_U32_some_inv r3
    obtain ⟨_, _, r4, hr⟩ := step_bind_some_inv hr
    obtain ⟨s4, _, rfl⟩ := READ_U32_some_inv r4
    obtain ⟨_, _, r5, hr⟩ := step_bind_some_inv hr
    obtain ⟨s5, _, rfl⟩ := READ_U32_some_inv r5
    obtain ⟨inputs, c6, r6, hr⟩ := step_bind_some_inv hr
    have s6 := read_bindings_consumes r6
    obtain ⟨_, _, r7, hr⟩ := step_bind_some_inv hr
    obtain ⟨s7, _, rfl⟩ := READ_U32_some_inv r7
    obtain ⟨outputs, c8, r8, hr⟩ := step_bind_some_inv hr
    have s8 := read_bindings_consumes r8
    have h1 := congrArg Prod.fst hr
    have h2 := congrArg Prod.snd hr
    simp only [step_pure_apply, Option.some.injEq] at h1 h2
    subst h1 h2
    simp only [Cursor.advance] at s2 s3 s4 s5 s6 s7 s8 ⊢
    omega
  · rw [if_neg h0] at hr
    rw [if_neg h0]
    by_cases h1 : stage_type = NSHADER_STAGE_TYPE_FRAGMENT
    · rw [if_pos h1] at hr
      rw [if_pos h1]
      obtain ⟨_, _, r1, hr⟩ := step_bind_some_inv hr
      obtain ⟨s1, _, rfl⟩ := READ_U32_some_inv r1
      obtain ⟨_, _, r2, hr⟩ := step_bind_some_inv hr
      obtain ⟨s2, _, rfl⟩ := READ_U32_some_inv r2
      obtain ⟨_, _, r3, hr⟩ := step_bind_some_inv hr
      obtain ⟨s3, _, rfl⟩ := READ_U32_some_inv r3
      obtain ⟨_, _, r4, hr⟩ := step_bind_some_inv hr
      obtain ⟨s4, _, rfl⟩ := READ_U32_some_inv r4
      obtain ⟨_, _, r5, hr⟩ := step_bind_some_inv hr
      obtain ⟨s5, _, rfl⟩ := READ_U32_some_inv r5
      obtain ⟨inputs, c6, r6, hr⟩ := step_bind_some_inv hr
      have s6 := read_bindings_consumes r6
      obtain ⟨_, _, r7, hr⟩ := step_bind_some_inv hr
      obtain ⟨s7, _, rfl⟩ := READ_U32_some_inv r7
      obtain ⟨outputs, c8, r8, hr⟩ := step_bind_some_inv hr
      have s8 := read_bindings_consumes r8
      have h1 := congrArg Prod.fst hr
      have h2 := congrArg Prod.snd hr
      simp only [step_pure_apply, Option.some.injEq] at h1 h2
      subst h1 h2
      simp only [Cursor.advance] at s2 s3 s4 s5 s6 s7 s8 ⊢
      omega
    · rw [if_neg h1] at hr
      rw [if_neg h1]
      by_cases h2 : stage_type = NSHADER_STAGE_TYPE_COMPUTE
      · rw [if_pos h2] at hr
        obtain ⟨_, _, r1, hr⟩ := step_bind_some_inv hr
        obtain ⟨s1, _, rfl⟩ := READ_U32_some_inv r1
        obtain ⟨_, _, r2, hr⟩ := step_bind_some_inv hr
        obtain ⟨s2, _, rfl⟩ := READ_U32_some_inv r2
        obtain ⟨_, _, r3, hr⟩ := step_bind_some_inv hr
        obtain ⟨s3, _, rfl⟩ := READ_U32_some_inv r3
        obtain ⟨_, _, r4, hr⟩ := step_bind_some_inv hr
        obtain ⟨s4, _, rfl⟩ := READ_U32_some_inv r4
        obtain ⟨_, _, r5, hr⟩ := step_bind_some_inv hr
        obtain ⟨s5, _, rfl⟩ := READ_U32_some_inv r5
        obtain ⟨_, _, r6, hr⟩ := step_bind_some_inv hr
        obtain ⟨s6, _, rfl⟩ := READ_U32_some_inv r6
        obtain ⟨_, _, r7, hr⟩ := step_bind_some_inv hr
        obtain ⟨s7, _, rfl⟩ := READ_U32_some_inv r7
        obtain ⟨_, _, r8, hr⟩ := step_bind_some_inv hr
        obtain ⟨s8, _, rfl⟩ := READ_U32_some_inv r8
        obtain ⟨_, _, r9, hr⟩ := step_bind_some_inv hr
        obtain ⟨s9, _, rfl⟩ := READ_U32_some_inv r9
        have h2 := congrArg Prod.snd hr
        simp only [step_pure_apply] at h2
        subst h2
        simp only [Cursor.advance]
        omega
      · rw [if_neg h2] at hr
        exact Option.noConfusion (congrArg Prod.fst hr)

theorem read_stage_consumes {h : Host} {c c1 : Cursor} {stage : nshader_stage_t}
    (hr : read_stage h c = (some stage, c1)) :
    c1.remaining + (1 + binding_iterations stage) ≤ c.remaining := by
  unfold read_stage at hr
  obtain ⟨type, c2, ht, hr⟩ := step_bind_some_inv hr
  obtain ⟨st, _, rfl⟩ := READ_U8_some_inv ht
  obtain ⟨entry, c3, he, hr⟩ := step_bind_some_inv hr
  have se := read_string_some_inv he
  obtain ⟨metadata, c4, hm, hr⟩ := step_bind_some_inv hr
  have sm := read_stage_metadata_consumes hm
  have h1 := congrArg Prod.fst hr
  have h2 := congrArg Prod.snd hr
  simp only [step_pure_apply, Option.some.injEq] at h1 h2
  subst h1 h2
  simp only [binding_iterations]
  simp only [Cursor.advance] at se
  omega

theorem completed_iterations_le {α : Type} (element : Step Cursor α)
    (hel : ∀ c a c1, element c = (some a, c1) → c1.remaining + 1 ≤ c.remaining)
    (count : Nat) (c : Cursor) : completed_iterations element count c ≤ c.remaining := by
  induction count generalizing c with
  | zero => exact Nat.zero_le _
  | succ n ih =>
    unfold completed_iterations
    rcases hr : element c with ⟨_ | a, c1⟩
    · exact Nat.zero_le _
    · have h1 := hel c a c1 hr
      have h2 := ih c1
      simp only
      omega

/-- The loop returns its array exactly when every declared iteration completes. -/
theorem completed_iterations_spec {α : Type} (element : Step Cursor α) (count : Nat)
    (c : Cursor) :
    ((read_array element count c).1.isSome = true ↔
        completed_iterations element count c = count) ∧
      completed_iterations element count c ≤ count := by
  induction count generalizing c with
  | zero => exact ⟨⟨fun _ => rfl, fun _ => rfl⟩, Nat.le_refl _⟩
  | succ n ih =>
    unfold completed_iterations read_array
    rcases hr : element c with ⟨_ | a, c1⟩
    · rw [step_bind_of_none hr]
      simp only [Option.isSome_none, Bool.false_eq_true, false_iff, Nat.zero_le, and_true]
      omega
    · rw [step_bind_of_some hr]
      obtain ⟨hiff, hle⟩ := ih c1
      rcases hrest : read_array element n c1 with ⟨_ | rest, c2⟩
      · rw [step_bind_of_none hrest]
        rw [hrest] at hiff
        simp only [Option.isSome_none, Bool.false_eq_true, false_iff] at hiff ⊢
        constructor
        · omega
        · omega
      · rw [step_bind_of_some hrest]
        rw [hrest] at hiff
        simp only [Option.isSome_some, true_iff] at hiff
        simp only [step_pure_apply, Option.isSome_some, true_iff]
        constructor
        · omega
        · omega

theorem sum_map_succ {α : Type} (weight : α → Nat) (xs : List α) :
    (xs.map fun x => 1 + weight x).sum = xs.length + (xs.map weight).sum := by
  induction xs with
  | nil => rfl
  | cons x rest ih =>
    simp only [List.map_cons, List.sum_cons, ih, List.length_cons]
    omega

theorem safe_remaining_le {buffer : List Byte} {c : Cursor} (hc : c.safe buffer) :
    c.remaining ≤ buffer.length := by
  have := hc.2.1
  omega

/-- Claim C29: on a host whose enum objects have at least one byte, every completed
iteration of the stage loop, a binding loop and the backend loop of
`nshader_read_from_memory` leaves fewer bytes than it found; so, whatever count the
buffer declares, each of these loops completes at most as many iterations as the buffer
has bytes, and a run that returns a bundle has completed at most that many iterations
of the three kinds of loop together. The loops are counted loops over the declared
count, so each one ends. -/
theorem decoder_iterations_bounded (h : Host) (hE : 0 < h.enum_size) :
    (∀ c c1 stage, read_stage h c = (some stage, c1) → c1.remaining < c.remaining) ∧
      (∀ c c1 binding, read_binding h c = (some binding, c1) → c1.remaining < c.remaining) ∧
      (∀ c c1 backend, READ_U8 h h.enum_size c = (some backend, c1) →
        c1.remaining < c.remaining) ∧
      (∀ (buffer : List Byte) (c : Cursor) (count : Nat), c.safe buffer →
        completed_iterations (read_stage h) count c ≤ buffer.length ∧
          completed_iterations (read_binding h) count c ≤ buffer.length ∧
          completed_iterations (READ_U8 h h.enum_size) count c ≤ buffer.length) ∧
      (∀ (buffer : List Byte) (shader : nshader_t),
        nshader_read_from_memory h buffer = some shader →
        loop_iterations shader ≤ buffer.length) := by
  have hstage : ∀ c stage c1, read_stage h c = (some stage, c1) →
      c1.remaining + 1 ≤ c.remaining := by
    intro c stage c1 hr
    have := read_stage_consumes hr
    omega
  have hbinding : ∀ c binding c1, read_binding h c = (some binding, c1) →
      c1.remaining + 1 ≤ c.remaining := by
    intro c binding c1 hr
    have := read_binding_consumes hr
    omega
  have hbackend : ∀ c backend c1, READ_U8 h h.enum_size c = (some backend, c1) →
      c1.remaining + 1 ≤ c.remaining := by
    intro c backend c1 hr
    obtain ⟨hsize, _, rfl⟩ := READ_U8_some_inv hr
    simp only [Cursor.advance]
    omega
  refine ⟨fun c c1 stage hr => hstage c stage c1 hr,
    fun c c1 binding hr => hbinding c binding c1 hr,
    fun c c1 backend hr => hbackend c backend c1 hr, ?_, ?_⟩
  · intro buffer c count hc
    have hrem := safe_remaining_le hc
    exact ⟨Nat.le_trans (completed_iterations_le _ hstage count c) hrem,
      Nat.le_trans (completed_iterations_le _ hbinding count c) hrem,
      Nat.le_trans (completed_iterations_le _ hbackend count c) hrem⟩
  · intro buffer shader hr
    obtain ⟨p, c1, c2, hp, hb⟩ := read_from_memory_some_inv hr
    obtain ⟨hlen, _, _, hc1⟩ := read_preamble_some_inv hp
    obtain ⟨c3, c4, nb, _, hstages, hnb, c5, hbackends⟩ := read_body_some_inv hb
    have s1 := read_array_consumes (read_stage h) (fun stage => 1 + binding_iterations stage)
      (fun c a c1 hr => read_stage_consumes hr) _ _ _ _ hstages
    rw [sum_map_succ] at s1
    obtain ⟨_, _, rfl⟩ := READ_U32_some_inv hnb
    have s2 := read_array_consumes (READ_U8 h h.enum_size) (fun _ => 1)
      (fun c a c1 hr => hbackend c a c1 hr) _ _ _ _ hbackends
    rw [sum_map_one] at s2
    subst hc1
    simp only [Cursor.advance, Cursor.init] at s1 s2 hlen
    unfold loop_iterations
    omega

set_option maxRecDepth 100000 in
theorem decoder_iterations_bounded_witness :
    0 < host_x64.enum_size ∧
      nshader_read_from_memory host_x64 duplicate_stage_buffer = some duplicate_stage_bundle ∧
      loop_iterations duplicate_stage_bundle ≤ duplicate_stage_buffer.length :=
  ⟨by decide, by decide!,
    (decoder_iterations_bounded host_x64 (by decide)).2.2.2.2 duplicate_stage_buffer
      duplicate_stage_bundle (by decide!)⟩

/-! ## The size of the encoding in closed form -/

theorem strlen_le (s : CString) : strlen s ≤ s.length := by
  unfold strlen
  exact (List.takeWhile_sublist _).length_le

theorem concat_fields_length_append (a b : List (List Byte)) :
    (concat_fields (a ++ b)).length = (concat_fields a).length + (concat_fields b).length := by
  rw [concat_fields_append, List.length_append]

theorem string_fields_length (h : Host) (str : Option CString) :
    (concat_fields (string_fields h str)).length = 4 + string_length str % 2 ^ 32 := by
  cases str with
  | none =>
    simp only [string_fields, string_length, Option.getD_none, strlen, List.takeWhile_nil,
      List.length_nil, Nat.zero_mod, gt_iff_lt, Nat.lt_irrefl, if_false, List.append_nil,
      concat_fields, store_length]
  | some s =>
    simp only [string_fields, string_length, Option.getD_some]
    by_cases hlen : strlen s % 2 ^ 32 > 0
    · rw [if_pos hlen]
      simp only [List.singleton_append, concat_fields, List.length_append, store_length,
        List.length_take, List.length_nil, List.append_nil]
      have h1 := strlen_le s
      have h2 : strlen s % 2 ^ 32 ≤ strlen s := Nat.mod_le _ _
      omega
    · rw [if_neg hlen]
      simp only [List.append_nil, concat_fields, List.length_append, store_length,
        List.length_nil]
      omega

theorem binding_fields_length (h : Host) (binding : nshader_stage_binding_t) :
    (concat_fields (binding_fields h binding)).length
      = 12 + h.enum_size + string_length binding.name % 2 ^ 32 := by
  unfold binding_fields
  rw [concat_fields_length_append, string_fields_length]
  simp only [concat_fields, List.length_append, store_length, List.length_nil]
  omega

theorem bindings_fields_length (h : Host) (bindings : List nshader_stage_binding_t) :
    (concat_fields (bindings_fields h bindings)).length
      = (bindings.map fun binding =>
          12 + h.enum_size + string_length binding.name % 2 ^ 32).sum := by
  induction bindings with
  | nil => rfl
  | cons binding rest ih =>
    simp only [bindings_fields, concat_fields_length_append, binding_fields_length, ih,
      List.map_cons, List.sum_cons]

theorem metadata_fields_length (h : Host) (stage : nshader_stage_t)
    (hv : valid_stage_type stage.type) :
    (concat_fields (metadata_fields h stage.type stage.metadata)).length
      = if stage.type = NSHADER_STAGE_TYPE_COMPUTE then 36
        else 24 + ((stage_bindings stage).map fun binding =>
          12 + h.enum_size + string_length binding.name % 2 ^ 32).sum := by
  unfold metadata_fields stage_bindings
  by_cases h0 : stage.type = NSHADER_STAGE_TYPE_VERTEX
  · have hc : stage.type ≠ NSHADER_STAGE_TYPE_COMPUTE := by rw [h0]; decide
    rw [if_pos h0, if_pos h0, if_neg hc]
    simp only [concat_fields_length_append, bindings_fields_length]
    simp only [concat_fields, u32_field, List.length_append, store_length, List.length_nil,
      List.map_append, List.sum_append]
    omega
  · by_cases h1 : stage.type = NSHADER_STAGE_TYPE_FRAGMENT
    · have hc : stage.type ≠ NSHADER_STAGE_TYPE_COMPUTE := by rw [h1]; decide
      rw [if_neg h0, if_neg h0, if_pos h1, if_pos h1, if_neg hc]
      simp only [concat_fields_length_append, bindings_fields_length]
      simp only [concat_fields, u32_field, List.length_append, store_length, List.length_nil,
        List.map_append, List.sum_append]
      omega
    · have h2 : stage.type = NSHADER_STAGE_TYPE_COMPUTE := by
        rcases hv with hv | hv | hv
        · exact absurd hv h0
        · exact absurd hv h1
        · exact hv
      rw [if_neg h0, if_neg h1, if_pos h2]
      simp only [concat_fields, u32_field, List.length_append, store_length, List.length_nil]

theorem stage_fields_length (h : Host) (stage : nshader_stage_t)
    (hv : valid_stage_type stage.type) :
    (concat_fields (stage_fields h stage)).length
      = 5 + string_length stage.entry_point % 2 ^ 32 +
        (if stage.type = NSHADER_STAGE_TYPE_COMPUTE then 36
        else 24 + ((stage_bindings stage).map fun binding =>
          12 + h.enum_size + string_length binding.name % 2 ^ 32).sum) := by
  unfold stage_fields
  rw [concat_fields_length_append, concat_fields_length_append, string_fields_length,
    metadata_fields_length h stage hv]
  simp only [concat_fields, List.length_append, List.length_singleton, List.length_nil]
  omega

theorem stages_fields_length (h : Host) (stages : List nshader_stage_t)
    (hv : ∀ stage ∈ stages, valid_stage_type stage.type) :
    (concat_fields (stages_fields h stages)).length
      = (stages.map fun stage => 5 + string_length stage.entry_point % 2 ^ 32 +
        (if stage.type = NSHADER_STAGE_TYPE_COMPUTE then 36
        else 24 + ((stage_bindings stage).map fun binding =>
          12 + h.enum_size + string_length binding.name % 2 ^ 32).sum)).sum := by
  induction stages with
  | nil => rfl
  | cons stage rest ih =>
    simp only [stages_fields, concat_fields_length_append,
      stage_fields_length h stage (hv stage (List.mem_cons_self _ _)),
      ih (fun s hs => hv s (List.mem_cons_of_mem _ hs)), List.map_cons, List.sum_cons]

theorem backends_fields_length (backends : List Nat) :
    (concat_fields (backends_fields backends)).length = backends.length := by
  induction backends with
  | nil => rfl
  | cons backend rest ih =>
    simp only [backends_fields, concat_fields, List.length_append, List.length_cons,
      List.length_nil, ih]
    omega

theorem blob_fields_length (h : Host) (slot : Option nshader_blob_t) :
    (concat_fields (blob_fields h slot)).length = 1 + closed_form_slot_size slot := by
  match slot with
  | none => rfl
  | some { data := none } => rfl
  | some { data := some data } =>
    simp only [blob_fields, closed_form_slot_size, nshader_blob_t.size]
    by_cases hlen : data.length > 0
    · rw [if_pos hlen, if_pos hlen]
      simp only [concat_fields, u32_field, List.length_append, List.length_singleton,
        store_length, List.length_nil]
      omega
    · rw [if_neg hlen, if_neg hlen]
      rfl

theorem fields_for_each_length (idxs : List Nat) (fields : Nat → List (List Byte)) :
    (concat_fields (fields_for_each idxs fields)).length
      = (idxs.map fun i => (concat_fields (fields i)).length).sum := by
  induction idxs with
  | nil => rfl
  | cons i rest ih =>
    simp only [fields_for_each, concat_fields_length_append, ih, List.map_cons, List.sum_cons]

theorem blobs_fields_length (h : Host) (shader : nshader_t) :
    (concat_fields (blobs_fields h shader)).length
      = 12 + ((List.range NSHADER_STAGE_TYPE_COUNT).map fun stage_idx =>
        ((List.range NSHADER_BACKEND_COUNT).map fun backend_idx =>
          closed_form_slot_size (shader.blob_at stage_idx backend_idx)).sum).sum := by
  unfold blobs_fields
  simp only [fields_for_each_length, blob_fields_length]
  simp only [NSHADER_STAGE_TYPE_COUNT, NSHADER_BACKEND_COUNT, List.range, List.range.loop,
    List.map_cons, List.map_nil, List.sum_cons, List.sum_nil]
  omega

/-- The size of the encoding on any host, for any string lengths. -/
theorem shader_bytes_length (h : Host) (shader : nshader_t) (hv : valid_stage_types shader) :
    (shader_bytes h shader).length
      = 29 + (shader.info.stages.map fun stage =>
          5 + string_length stage.entry_point % 2 ^ 32 +
          (if stage.type = NSHADER_STAGE_TYPE_COMPUTE then 36
          else 24 + ((stage_bindings stage).map fun binding =>
            12 + h.enum_size + string_length binding.name % 2 ^ 32).sum)).sum
        + shader.info.backends.length
        + ((List.range NSHADER_STAGE_TYPE_COUNT).map fun stage_idx =>
          ((List.range NSHADER_BACKEND_COUNT).map fun backend_idx =>
            closed_form_slot_size (shader.blob_at stage_idx backend_idx)).sum).sum := by
  unfold shader_bytes shader_fields
  simp only [concat_fields_length_append, stages_fields_length h _ hv, backends_fields_length,
    blobs_fields_length]
  simp only [concat_fields, u32_field, List.length_append, store_length,
    List.length_singleton, List.length_nil]
  omega

theorem strlen_replicate (n : Nat) : strlen (List.replicate n (65 : Byte)) = n := by
  unfold strlen
  induction n with
  | zero => rfl
  | succ n ih =>
    have hne : (decide ((65 : Byte) ≠ 0)) = true := by decide
    rw [List.replicate_succ, List.takeWhile_cons, hne]
    simp only [if_true, List.length_cons, ih]

theorem no_slots_size (shader : nshader_t)
    (hb : shader.blobs
      = [ [none, none, none, none], [none, none, none, none], [none, none, none, none] ]) :
    ((List.range NSHADER_STAGE_TYPE_COUNT).map fun stage_idx =>
      ((List.range NSHADER_BACKEND_COUNT).map fun backend_idx =>
        closed_form_slot_size (shader.blob_at stage_idx backend_idx)).sum).sum = 0 := by
  simp only [nshader_t.blob_at, hb]
  rfl

/-- The two sizes of a bundle whose only stage has an entry point of `n` bytes. -/
theorem long_entry_sizes (h : Host) (n : Nat) :
    encoded_size h (long_entry_bundle n) = 58 + n % 2 ^ 32 ∧
      closed_form_size (long_entry_bundle n) = 58 + n := by
  have hv : valid_stage_types (long_entry_bundle n) := by
    intro stage hs
    simp only [long_entry_bundle, List.mem_singleton] at hs
    subst hs
    exact Or.inl rfl
  have hslots := no_slots_size (long_entry_bundle n) rfl
  constructor
  · rw [encoded_size_eq h _ hv, shader_bytes_length h _ hv, hslots]
    simp only [long_entry_bundle, List.map_cons, List.map_nil, List.sum_cons, List.sum_nil,
      string_length, Option.getD_some, strlen_replicate, stage_bindings, List.length_nil]
    rw [if_neg (by decide)]
    simp only [if_true, List.append_nil, List.map_nil, List.sum_nil]
    have hin : (default : nshader_stage_metadata_t).vertex.inputs = [] := rfl
    have hout : (default : nshader_stage_metadata_t).vertex.outputs = [] := rfl
    simp only [hin, hout, List.append_nil, List.map_nil, List.sum_nil]
    omega
  · unfold closed_form_size
    rw [hslots]
    simp only [long_entry_bundle, List.map_cons, List.map_nil, List.sum_cons, List.sum_nil,
      closed_form_stage_size, closed_form_metadata_size, string_length, Option.getD_some,
      strlen_replicate, stage_bindings, List.length_nil]
    rw [if_neg (by decide)]
    simp only [if_true, List.append_nil, List.map_nil, List.sum_nil]
    have hin : (default : nshader_stage_metadata_t).vertex.inputs = [] := rfl
    have hout : (default : nshader_stage_metadata_t).vertex.outputs = [] := rfl
    simp only [hin, hout, List.append_nil, List.map_nil, List.sum_nil]
    omega

set_option maxRecDepth 100000 in
/-- Claim C30 fails: on a host with 4-byte enums the bundle whose only stage has an entry
point of 2^32 bytes is encoded in 58 bytes (the length field holds 0 and no text
follows) while the closed form gives 58 + 2^32; and with 1-byte enums a binding takes
13 + len(name) bytes, so the scenario bundle is encoded in 152 bytes while the closed
form gives 158. -/
theorem closed_form_counterexample :
    valid_stage_types (long_entry_bundle (2 ^ 32)) ∧
      encoded_size host_x64 (long_entry_bundle (2 ^ 32)) = 58 ∧
      closed_form_size (long_entry_bundle (2 ^ 32)) = 58 + 2 ^ 32 ∧
      valid_stage_types scenario_bundle ∧
      encoded_size host_short_enums scenario_bundle = 152 ∧
      closed_form_size scenario_bundle = 158 := by
  refine ⟨?_, ?_, (long_entry_sizes host_x64 (2 ^ 32)).2, by decide!, by decide!, by decide!⟩
  · intro stage hs
    simp only [long_entry_bundle, List.mem_singleton] at hs
    subst hs
    exact Or.inl rfl
  · rw [(long_entry_sizes host_x64 (2 ^ 32)).1, Nat.mod_self]

/-- Claim C30, amended: for every bundle with valid stage kinds the encoded size is at
least 29 and never 0; and on a host whose enum objects are 4 bytes wide, when the entry
points and binding names are shorter than 2^32 bytes, it is 29 + the sum over the stages
of 5 + len(entry point) + M + the number of backends + the sum over the present slots of
4 + blob size, with M = 36 for a Compute stage and M = 24 + the sum over the input and
output bindings of 16 + len(name) otherwise. -/
theorem encoded_size_closed_form (h : Host) (shader : nshader_t)
    (hv : valid_stage_types shader) :
    29 ≤ encoded_size h shader ∧ encoded_size h shader ≠ 0 ∧
      (h.enum_size = 4 → short_strings shader →
        encoded_size h shader = closed_form_size shader) := by
  have hlen := shader_bytes_length h shader hv
  rw [← encoded_size_eq h shader hv] at hlen
  refine ⟨by omega, by omega, ?_⟩
  intro hE hs
  have hstages : (shader.info.stages.map fun stage =>
      5 + string_length stage.entry_point % 2 ^ 32 +
        (if stage.type = NSHADER_STAGE_TYPE_COMPUTE then 36
        else 24 + ((stage_bindings stage).map fun binding =>
          12 + h.enum_size + string_length binding.name % 2 ^ 32).sum))
      = shader.info.stages.map closed_form_stage_size := by
    apply List.map_congr_left
    intro stage hmem
    obtain ⟨hentry, hnames⟩ := hs stage hmem
    have hb : ((stage_bindings stage).map fun binding =>
        12 + h.enum_size + string_length binding.name % 2 ^ 32)
        = (stage_bindings stage).map closed_form_binding_size := by
      apply List.map_congr_left
      intro binding hbm
      simp only [closed_form_binding_size, hE, Nat.mod_eq_of_lt (hnames binding hbm)]
    simp only [closed_form_stage_size, closed_form_metadata_size, hb,
      Nat.mod_eq_of_lt hentry]
  rw [hlen, hstages]
  rfl

set_option maxRecDepth 100000 in
theorem encoded_size_closed_form_witness :
    valid_stage_types scenario_bundle ∧ host_x64.enum_size = 4 ∧
      short_strings scenario_bundle ∧
      29 ≤ encoded_size host_x64 scenario_bundle ∧
      encoded_size host_x64 scenario_bundle ≠ 0 ∧
      encoded_size host_x64 scenario_bundle = closed_form_size scenario_bundle :=
  ⟨by decide!, rfl, by decide!,
    (encoded_size_closed_form host_x64 scenario_bundle (by decide!)).1,
    (encoded_size_closed_form host_x64 scenario_bundle (by decide!)).2.1,
    (encoded_size_closed_form host_x64 scenario_bundle (by decide!)).2.2 rfl (by decide!)⟩

/-! ## The two embeddings of the reader agree -/

theorem mem_read_string_agrees (h : Host) (r : Reader) :
    (Mem.read_string h r).1.isSome = (read_string h r.cursor).1.isSome ∧
      (Mem.read_string h r).2.cursor = (read_string h r.cursor).2 := by
  unfold Mem.read_string read_string
  rcases hd : read_data 4 r.cursor with ⟨_ | len_le, c⟩
  · rw [step_bind_of_none hd]
    exact ⟨rfl, rfl⟩
  · rw [step_bind_of_some hd]
    simp only
    by_cases hlen : from_le32 h (h.load len_le) = 0
    · rw [if_pos hlen, if_pos hlen]
      exact ⟨rfl, rfl⟩
    · rw [if_neg hlen, if_neg hlen]
      rcases hb : read_data (from_le32 h (h.load len_le)) c with ⟨_ | body, c1⟩
      · exact ⟨rfl, rfl⟩
      · exact ⟨rfl, rfl⟩

theorem mem_loop_agrees {α β : Type} (body : Reader → Bool × α × Reader)
    (element : Step Cursor β)
    (hbody : ∀ r, (body r).1 = (element r.cursor).1.isSome ∧
      (body r).2.2.cursor = (element r.cursor).2)
    (count : Nat) (r : Reader) :
    (Mem.loop body count r).1 = (read_array element count r.cursor).1.isSome ∧
      (Mem.loop body count r).2.2.cursor = (read_array element count r.cursor).2 := by
  induction count generalizing r with
  | zero => exact ⟨rfl, rfl⟩
  | succ n ih =>
    unfold Mem.loop read_array
    obtain ⟨hok, hcur⟩ := hbody r
    rcases hb : body r with ⟨ok, a, r1⟩
    rw [hb] at hok hcur
    simp only at hok hcur
    rcases he : element r.cursor with ⟨_ | x, c1⟩
    · rw [he] at hok hcur
      simp only [Option.isSome_none] at hok hcur
      subst hok
      rw [step_bind_of_none he]
      exact ⟨rfl, hcur⟩
    · rw [he] at hok hcur
      simp only [Option.isSome_some] at hok hcur
      subst hok
      rw [step_bind_of_some he]
      obtain ⟨iok, icur⟩ := ih r1
      rw [hcur] at iok icur
      simp only
      rcases hl : Mem.loop body n r1 with ⟨ok2, rest, r2⟩
      rw [hl] at iok icur
      simp only at iok icur ⊢
      rcases hr : read_array element n c1 with ⟨_ | xs, c2⟩
      · rw [hr] at iok icur
        rw [step_bind_of_none hr]
        exact ⟨iok, icur⟩
      · rw [hr] at iok icur
        rw [step_bind_of_some hr]
        exact ⟨iok, icur⟩

theorem mem_read_binding_agrees (h : Host) (r : Reader) :
    (Mem.read_binding h r).1 = (read_binding h r.cursor).1.isSome ∧
      (Mem.read_binding h r).2.2.cursor = (read_binding h r.cursor).2 := by
  unfold Mem.read_binding read_binding
  obtain ⟨_, hcur⟩ := mem_read_string_agrees h r
  rcases hs : Mem.read_string h r with ⟨name, r1⟩
  rw [hs] at hcur
  simp only at hcur ⊢
  have hattempt : Step.attempt (read_string h) r.cursor
      = (some (read_string h r.cursor).1, r1.cursor) := by
    rw [hcur]
    rfl
  rw [step_bind_of_some hattempt]
  rcases h1 : read_data 4 r1.cursor with ⟨_ | t1, c1⟩
  · rw [step_bind_of_none h1, step_bind_of_none h1]
    exact ⟨rfl, rfl⟩
  · rw [step_bind_of_some h1, step_bind_of_some h1]
    rcases h2 : read_data 4 c1 with ⟨_ | t2, c2⟩
    · rw [step_bind_of_none h2, step_bind_of_none h2]
      exact ⟨rfl, rfl⟩
    · rw [step_bind_of_some h2, step_bind_of_some h2]
      rcases h3 : read_data h.enum_size c2 with ⟨_ | t3, c3⟩
      · rw [step_bind_of_none h3, step_bind_of_none h3]
        exact ⟨rfl, rfl⟩
      · rw [step_bind_of_some h3, step_bind_of_some h3]
        exact ⟨rfl, rfl⟩

theorem mem_read_binding_array_agrees (h : Host) (r : Reader) :
    (Mem.read_binding_array h r).1
        = ((READ_U32 h >>= fun count => read_array (read_binding h) count) r.cursor).1.isSome ∧
      (Mem.read_binding_array h r).2.2.cursor
        = ((READ_U32 h >>= fun count => read_array (read_binding h) count) r.cursor).2 := by
  unfold Mem.read_binding_array
  rcases hn : READ_U32 h r.cursor with ⟨_ | count, c⟩
  · rw [step_bind_of_none hn]
    exact ⟨rfl, rfl⟩
  · rw [step_bind_of_some hn]
    simp only
    by_cases hpos : count > 0
    · rw [if_pos hpos]
      exact mem_loop_agrees (Mem.read_binding h) (read_binding h) (mem_read_binding_agrees h)
        count { cursor := c, heap := r.heap.malloc.2 }
    · rw [if_neg hpos]
      have hzero : count = 0 := by omega
      subst hzero
      exact ⟨rfl, rfl⟩

/-- The two binding arrays of a vertex or fragment member, read one after the other. -/
theorem mem_read_two_arrays_agrees {γ : Type} (h : Host) (r : Reader)
    (finish : List nshader_stage_binding_t → List nshader_stage_binding_t → γ) :
    (match Mem.read_binding_array h r with
      | (false, inputs, r1) =>
        (false, ({ inputs := inputs, outputs := binding_array_object.zero } : metadata_object),
          r1)
      | (true, inputs, r1) =>
        match Mem.read_binding_array h r1 with
        | (ok, outputs, r2) => (ok, { inputs := inputs, outputs := outputs }, r2)).1
        = ((do
            let input_count ← READ_U32 h
            let inputs ← read_array (read_binding h) input_count
            let output_count ← READ_U32 h
            let outputs ← read_array (read_binding h) output_count
            pure (finish inputs outputs)) r.cursor).1.isSome ∧
      (match Mem.read_binding_array h r with
      | (false, inputs, r1) =>
        (false, ({ inputs := inputs, outputs := binding_array_object.zero } : metadata_object),
          r1)
      | (true, inputs, r1) =>
        match Mem.read_binding_array h r1 with
        | (ok, outputs, r2) => (ok, { inputs := inputs, outputs := outputs }, r2)).2.2.cursor
        = ((do
            let input_count ← READ_U32 h
            let inputs ← read_array (read_binding h) input_count
            let output_count ← READ_U32 h
            let outputs ← read_array (read_binding h) output_count
            pure (finish inputs outputs)) r.cursor).2 := by
  have hregroup : (do
      let input_count ← READ_U32 h
      let inputs ← read_array (read_binding h) input_count
      let output_count ← READ_U32 h
      let outputs ← read_array (read_binding h) output_count
      pure (finish inputs outputs))
      = ((READ_U32 h >>= fun count => read_array (read_binding h) count) >>= fun inputs =>
          (READ_U32 h >>= fun count => read_array (read_binding h) count) >>= fun outputs =>
            (pure (finish inputs outputs) : Step Cursor γ)) := by
    simp only [step_bind_assoc]
  rw [hregroup]
  obtain ⟨hok, hcur⟩ := mem_read_binding_array_agrees h r
  rcases hm : Mem.read_binding_array h r with ⟨ok, inputs, r1⟩
  rw [hm] at hok hcur
  simp only at hok hcur
  rcases hv : (READ_U32 h >>= fun count => read_array (read_binding h) count) r.cursor
    with ⟨_ | xs, c1⟩
  · rw [hv] at hok hcur
    simp only [Option.isSome_none] at hok hcur
    subst hok
    rw [step_bind_of_none hv]
    exact ⟨rfl, hcur⟩
  · rw [hv] at hok hcur
    simp only [Option.isSome_some] at hok hcur
    subst hok
    rw [step_bind_of_some hv]
    simp only
    obtain ⟨hok2, hcur2⟩ := mem_read_binding_array_agrees h r1
    rw [hcur] at hok2 hcur2
    rcases hm2 : Mem.read_binding_array h r1 with ⟨ok2, outputs, r2⟩
    rw [hm2] at hok2 hcur2
    simp only at hok2 hcur2 ⊢
    rcases hv2 : (READ_U32 h >>= fun count => read_array (read_binding h) count) c1
      with ⟨_ | ys, c2⟩
    · rw [hv2] at hok2 hcur2
      rw [step_bind_of_none hv2]
      exact ⟨hok2, hcur2⟩
    · rw [hv2] at hok2 hcur2
      rw [step_bind_of_some hv2]
      exact ⟨hok2, hcur2⟩

theorem mem_read_stage_metadata_agrees (h : Host) (stage_type : Nat)
    (metadata : nshader_stage_metadata_t) (r : Reader) :
    (Mem.read_stage_metadata h stage_type r).1
        = (read_stage_metadata h stage_type metadata r.cursor).1.isSome ∧
      (Mem.read_stage_metadata h stage_type r).2.2.cursor
        = (read_stage_metadata h stage_type metadata r.cursor).2 := by
  unfold Mem.read_stage_metadata read_stage_metadata
  by_cases h0 : stage_type = NSHADER_STAGE_TYPE_VERTEX
  · rw [if_pos (Or.inl h0), if_pos h0]
    rcases h1 : READ_U32 h r.cursor with ⟨_ | v1, c1⟩
    · rw [step_bind_of_none h1, step_bind_of_none h1]
      exact ⟨rfl, rfl⟩
    rw [step_bind_of_some h1, step_bind_of_some h1]
    rcases h2 : READ_U32 h c1 with ⟨_ | v2, c2⟩
    · rw [step_bind_of_none h2, step_bind_of_none h2]
      exact ⟨rfl, rfl⟩
    rw [step_bind_of_some h2, step_bind_of_some h2]
    rcases h3 : READ_U32 h c2 with ⟨_ | v3, c3⟩
    · rw [step_bind_of_none h3, step_bind_of_none h3]
      exact ⟨rfl, rfl⟩
    rw [step_bind_of_some h3, step_bind_of_some h3]
    rcases h4 : READ_U32 h c3 with ⟨_ | v4, c4⟩
    · rw [step_bind_of_none h4, step_bind_of_none h4]
      exact ⟨rfl, rfl⟩
    rw [step_bind_of_some h4, step_bind_of_some h4]
    exact mem_read_two_arrays_agrees h { r with cursor := c4 } _
  · by_cases hf : stage_type = NSHADER_STAGE_TYPE_FRAGMENT
    · rw [if_pos (Or.inr hf), if_neg h0, if_pos hf]
      rcases h1 : READ_U32 h r.cursor with ⟨_ | v1, c1⟩
      · rw [step_bind_of_none h1, step_bind_of_none h1]
        exact ⟨rfl, rfl⟩
      rw [step_bind_of_some h1, step_bind_of_some h1]
      rcases h2 : READ_U32 h c1 with ⟨_ | v2, c2⟩
      · rw [step_bind_of_none h2, step_bind_of_none h2]
        exact ⟨rfl, rfl⟩
      rw [step_bind_of_some h2, step_bind_of_some h2]
      rcases h3 : READ_U32 h c2 with ⟨_ | v3, c3⟩
      · rw [step_bind_of_none h3, step_bind_of_none h3]
        exact ⟨rfl, rfl⟩
      rw [step_bind_of_some h3, step_bind_of_some h3]
      rcases h4 : READ_U32 h c3 with ⟨_ | v4, c4⟩
      · rw [step_bind_of_none h4, step_bind_of_none h4]
        exact ⟨rfl, rfl⟩
      rw [step_bind_of_some h4, step_bind_of_some h4]
      exact mem_read_two_arrays_agrees h { r with cursor := c4 } _
    · have hgraphics : ¬ (stage_type = NSHADER_STAGE_TYPE_VERTEX ∨
          stage_type = NSHADER_STAGE_TYPE_FRAGMENT) := by
        rintro (hx | hx)
        · exact h0 hx
        · exact hf hx
      rw [if_neg hgraphics, if_neg h0, if_neg hf]
      by_cases hc : stage_type = NSHADER_STAGE_TYPE_COMPUTE
      · rw [if_pos hc, if_pos hc]
        rcases h1 : READ_U32 h r.cursor with ⟨_ | v1, c1⟩
        · rw [step_bind_of_none h1, step_bind_of_none h1]
          exact ⟨rfl, rfl⟩
        rw [step_bind_of_some h1, step_bind_of_some h1]
        rcases h2 : READ_U32 h c1 with ⟨_ | v2, c2⟩
        · rw [step_bind_of_none h2, step_bind_of_none h2]
          exact ⟨rfl, rfl⟩
        rw [step_bind_of_some h2, step_bind_of_some h2]
        rcases h3 : READ_U32 h c2 with ⟨_ | v3, c3⟩
        · rw [step_bind_of_none h3, step_bind_of_none h3]
          exact ⟨rfl, rfl⟩
        rw [step_bind_of_some h3, step_bind_of_some h3]
        rcases h4 : READ_U32 h c3 with ⟨_ | v4, c4⟩
        · rw [step_bind_of_none h4, step_bind_of_none h4]
          exact ⟨rfl, rfl⟩
        rw [step_bind_of_some h4, step_bind_of_some h4]
        rcases h5 : READ_U32 h c4 with ⟨_ | v5, c5⟩
        · rw [step_bind_of_none h5, step_bind_of_none h5]
          exact ⟨rfl, rfl⟩
        rw [step_bind_of_some h5, step_bind_of_some h5]
        rcases h6 : READ_U32 h c5 with ⟨_ | v6, c6⟩
        · rw [step_bind_of_none h6, step_bind_of_none h6]
          exact ⟨rfl, rfl⟩
        rw [step_bind_of_some h6, step_bind_of_some h6]
        rcases h7 : READ_U32 h c6 with ⟨_ | v7, c7⟩
        · rw [step_bind_of_none h7, step_bind_of_none h7]
          exact ⟨rfl, rfl⟩
        rw [step_bind_of_some h7, step_bind_of_some h7]
        rcases h8 : READ_U32 h c7 with ⟨_ | v8, c8⟩
        · rw [step_bind_of_none h8, step_bind_of_none h8]
          exact ⟨rfl, rfl⟩
        rw [step_bind_of_some h8, step_bind_of_some h8]
        rcases h9 : READ_U32 h c8 with ⟨_ | v9, c9⟩
        · rw [step_bind_of_none h9, step_bind_of_none h9]
          exact ⟨rfl, rfl⟩
        rw [step_bind_of_some h9, step_bind_of_some h9]
        exact ⟨rfl, rfl⟩
      · rw [if_neg hc, if_neg hc]
        exact ⟨rfl, rfl⟩

theorem mem_read_stage_agrees (h : Host) (r : Reader) :
    (Mem.read_stage h r).1 = (read_stage h r.cursor).1.isSome ∧
      (Mem.read_stage h r).2.2.cursor = (read_stage h r.cursor).2 := by
  unfold Mem.read_stage read_stage
  rcases ht : READ_U8 h h.enum_size r.cursor with ⟨_ | type, c⟩
  · rw [step_bind_of_none ht]
    exact ⟨rfl, rfl⟩
  rw [step_bind_of_some ht]
  simp only
  obtain ⟨hok, hcur⟩ := mem_read_string_agrees h { r with cursor := c }
  rcases hs : Mem.read_string h { r with cursor := c } with ⟨entry, r1⟩
  rw [hs] at hok hcur
  simp only at hok hcur
  rcases he : read_string h c with ⟨_ | text, c1⟩
  · rw [he] at hok hcur
    simp only [Option.isSome_none] at hok hcur
    rw [step_bind_of_none he]
    cases entry with
    | some ptr => exact Bool.noConfusion hok
    | none => exact ⟨rfl, hcur⟩
  · rw [he] at hok hcur
    simp only [Option.isSome_some] at hok hcur
    rw [step_bind_of_some he]
    cases entry with
    | none => exact Bool.noConfusion hok
    | some ptr =>
    simp only
    obtain ⟨hok2, hcur2⟩ := mem_read_stage_metadata_agrees h type default r1
    rw [hcur] at hok2 hcur2
    rcases hm : Mem.read_stage_metadata h type r1 with ⟨ok, metadata, r2⟩
    rw [hm] at hok2 hcur2
    simp only at hok2 hcur2 ⊢
    rcases hv : read_stage_metadata h type default c1 with ⟨_ | md, c2⟩
    · rw [hv] at hok2 hcur2
      rw [step_bind_of_none hv]
      exact ⟨hok2, hcur2⟩
    · rw [hv] at hok2 hcur2
      rw [step_bind_of_some hv]
      exact ⟨hok2, hcur2⟩

theorem mem_read_blob_agrees (h : Host) (r : Reader) :
    (Mem.read_blob h r).1 = (read_blob h r.cursor).1.isSome ∧
      (Mem.read_blob h r).2.2.cursor = (read_blob h r.cursor).2 := by
  unfold Mem.read_blob read_blob
  rcases hf : READ_U8 h 1 r.cursor with ⟨_ | has_blob, c⟩
  · rw [step_bind_of_none hf]
    exact ⟨rfl, rfl⟩
  rw [step_bind_of_some hf]
  simp only
  by_cases hb : has_blob ≠ 0
  · rw [if_pos hb, if_pos hb]
    rcases hn : READ_U32 h c with ⟨_ | blob_size, c1⟩
    · rw [step_bind_of_none hn]
      exact ⟨rfl, rfl⟩
    rw [step_bind_of_some hn]
    simp only
    rcases hd : READ_BYTES blob_size c1 with ⟨_ | data, c2⟩
    · rw [step_bind_of_none hd]
      exact ⟨rfl, rfl⟩
    · rw [step_bind_of_some hd]
      exact ⟨rfl, rfl⟩
  · rw [if_neg hb, if_neg hb]
    exact ⟨rfl, rfl⟩

theorem mem_read_fields_agrees (h : Host) (shader : Nat) (r : Reader) :
    (Mem.read_fields h shader r).1
        = ((READ_U8 h h.enum_size >>= fun type => READ_U32 h >>= fun num_stages =>
            read_body h type num_stages) r.cursor).1.isSome ∧
      (Mem.read_fields h shader r).2.2.cursor
        = ((READ_U8 h h.enum_size >>= fun type => READ_U32 h >>= fun num_stages =>
            read_body h type num_stages) r.cursor).2 := by
  unfold Mem.read_fields
  rcases ht : READ_U8 h h.enum_size r.cursor with ⟨_ | type, c⟩
  · rw [step_bind_of_none ht, step_bind_of_none ht]
    exact ⟨rfl, rfl⟩
  rw [step_bind_of_some ht, step_bind_of_some ht]
  rcases hn : READ_U32 h c with ⟨_ | num_stages, c0⟩
  · rw [step_bind_of_none hn]
    exact ⟨rfl, rfl⟩
  rw [step_bind_of_some hn]
  simp only
  unfold read_body
  -- the stage loop
  have hstages : ∃ ok stages elements r1,
      (if num_stages > 0 then
        match r.heap.malloc with
        | (stages, heap) =>
          match Mem.loop (Mem.read_stage h) num_stages { cursor := c0, heap := heap } with
          | (ok, elements, r1) => (ok, some stages, elements, r1)
      else (true, none, [], { r with cursor := c0 })) = (ok, stages, elements, r1) ∧
      ok = (read_array (read_stage h) num_stages c0).1.isSome ∧
      r1.cursor = (read_array (read_stage h) num_stages c0).2 := by
    by_cases hpos : num_stages > 0
    · rw [if_pos hpos]
      obtain ⟨hok, hcur⟩ := mem_loop_agrees (Mem.read_stage h) (read_stage h)
        (mem_read_stage_agrees h) num_stages { cursor := c0, heap := r.heap.malloc.2 }
      exact ⟨_, _, _, _, rfl, hok, hcur⟩
    · rw [if_neg hpos]
      have hzero : num_stages = 0 := by omega
      subst hzero
      exact ⟨_, _, _, _, rfl, rfl, rfl⟩
  obtain ⟨ok, stages, elements, r1, heq, hok, hcur⟩ := hstages
  rw [heq]
  rcases hs : read_array (read_stage h) num_stages c0 with ⟨_ | xs, c1⟩
  · rw [hs] at hok hcur
    simp only [Option.isSome_none] at hok hcur
    subst hok
    rw [step_bind_of_none hs]
    exact ⟨rfl, hcur⟩
  rw [hs] at hok hcur
  simp only [Option.isSome_some] at hok hcur
  subst hok
  rw [step_bind_of_some hs]
  simp only
  rw [hcur]
  rcases hb : READ_U32 h c1 with ⟨_ | num_backends, c2⟩
  · rw [step_bind_of_none hb]
    exact ⟨rfl, rfl⟩
  rw [step_bind_of_some hb]
  simp only
  -- the backend loop
  have hbackends : ∃ ok backends r2,
      (if num_backends > 0 then
        match r1.heap.malloc with
        | (backends, heap) =>
          match read_array (READ_U8 h h.enum_size) num_backends c2 with
          | (result, c3) => (result.isSome, some backends, ({ cursor := c3, heap := heap } : Reader))
      else (true, none, { r1 with cursor := c2 })) = (ok, backends, r2) ∧
      ok = (read_array (READ_U8 h h.enum_size) num_backends c2).1.isSome ∧
      r2.cursor = (read_array (READ_U8 h h.enum_size) num_backends c2).2 := by
    by_cases hpos : num_backends > 0
    · rw [if_pos hpos]
      exact ⟨_, _, _, rfl, rfl, rfl⟩
    · rw [if_neg hpos]
      have hzero : num_backends = 0 := by omega
      subst hzero
      exact ⟨_, _, _, rfl, rfl, rfl⟩
  obtain ⟨ok, backends, r2, heq2, hok2, hcur2⟩ := hbackends
  rw [heq2]
  rcases hbs : read_array (READ_U8 h h.enum_size) num_backends c2 with ⟨_ | ys, c3⟩
  · rw [hbs] at hok2 hcur2
    simp only [Option.isSome_none] at hok2 hcur2
    subst hok2
    rw [step_bind_of_none hbs]
    exact ⟨rfl, hcur2⟩
  rw [hbs] at hok2 hcur2
  simp only [Option.isSome_some] at hok2 hcur2
  subst hok2
  rw [step_bind_of_some hbs]
  simp only
  -- the blob loops
  obtain ⟨hok3, hcur3⟩ := mem_loop_agrees (Mem.loop (Mem.read_blob h) NSHADER_BACKEND_COUNT)
    (read_array (read_blob h) NSHADER_BACKEND_COUNT)
    (mem_loop_agrees (Mem.read_blob h) (read_blob h) (mem_read_blob_agrees h)
      NSHADER_BACKEND_COUNT) NSHADER_STAGE_TYPE_COUNT r2
  rw [hcur2] at hok3 hcur3
  rcases hl : Mem.loop (Mem.loop (Mem.read_blob h) NSHADER_BACKEND_COUNT)
    NSHADER_STAGE_TYPE_COUNT r2 with ⟨ok3, blobs, r3⟩
  rw [hl] at hok3 hcur3
  simp only at hok3 hcur3 ⊢
  rcases hv : read_array (read_array (read_blob h) NSHADER_BACKEND_COUNT)
    NSHADER_STAGE_TYPE_COUNT c3 with ⟨_ | rows, c4⟩
  · rw [hv] at hok3 hcur3
    rw [step_bind_of_none hv]
    exact ⟨hok3, hcur3⟩
  · rw [hv] at hok3 hcur3
    rw [step_bind_of_some hv]
    exact ⟨hok3, hcur3⟩

/-- The embedding with allocations fails exactly when the embedding without them fails,
and leaves the cursor in the same state. -/
theorem mem_read_from_memory_agrees (h : Host) (buffer : List Byte) (heap : Heap) :
    (Mem.nshader_read_from_memory h buffer heap).1.isSome
        = (nshader_read_from_memory h buffer).isSome ∧
      (Mem.nshader_read_from_memory h buffer heap).2.cursor
        = (nshader_read_from_memory_run h buffer).2 := by
  unfold Mem.nshader_read_from_memory nshader_read_from_memory nshader_read_from_memory_run
  by_cases hlen : buffer.length = 0
  · rw [if_pos hlen, if_pos hlen]
    exact ⟨rfl, rfl⟩
  rw [if_neg hlen, if_neg hlen]
  have hsplit : read_shader h = (do
      let magic ← READ_U32 h
      if magic ≠ NSHADER_MAGIC then
        Step.fail
      else do
        let version ← READ_U32 h
        if version ≠ NSHADER_VERSION then
          Step.fail
        else
          pure ()) >>= fun _ =>
        (READ_U8 h h.enum_size >>= fun type => READ_U32 h >>= fun num_stages =>
          read_body h type num_stages) := by
    simp only [read_shader, read_body, step_bind_assoc, step_ite_bind, step_fail_bind,
      step_pure_bind]
  rw [hsplit]
  split
  · next c hh =>
    rw [step_bind_of_none hh]
    exact ⟨rfl, rfl⟩
  · next u c hh =>
    rw [step_bind_of_some hh]
    obtain ⟨hok, hcur⟩ := mem_read_fields_agrees h heap.malloc.1
      { cursor := c, heap := heap.malloc.2 }
    rcases hf : Mem.read_fields h heap.malloc.1 { cursor := c, heap := heap.malloc.2 }
      with ⟨ok, object, r⟩
    rw [hf] at hok hcur
    simp only at hok hcur ⊢
    rw [hf]
    cases ok with
    | true => exact ⟨hok, hcur⟩
    | false => exact ⟨hok, hcur⟩
/-! ## Allocations of a failed decode -/

set_option maxRecDepth 100000 in
/-- Claim C23, evaluated: on an input that ends inside the body of a blob
`nshader_read_from_memory` fails and returns with two allocations still live (the
`nshader_blob_t` and its data buffer), on a host with 4-byte enums and, for the first 24
bytes of an encoding, on a host with 1-byte enums. For the encoding of the scenario
bundle cut at any offset `k`, the run fails, and it ends without live allocations exactly
when `k` is not inside the length field or the body of the blob (offsets 124 to 143).
On every input the embedding with allocations fails exactly when the embedding without
them fails, and leaves the same cursor. -/
theorem blob_read_failure_leaks :
    nshader_read_from_memory host_x64 truncated_blob_buffer = none ∧
      (Mem.nshader_read_from_memory host_x64 truncated_blob_buffer Heap.empty).1 = none ∧
      (Mem.nshader_read_from_memory host_x64 truncated_blob_buffer Heap.empty).2.heap
        = { next := 3, live := [2, 1] } ∧
      truncated_blob_buffer_short
        = (encode host_short_enums (single_blob_bundle [9, 9, 9, 9, 9])).take 24 ∧
      nshader_read_from_memory host_short_enums truncated_blob_buffer_short = none ∧
      (Mem.nshader_read_from_memory host_short_enums truncated_blob_buffer_short
        Heap.empty).2.heap = { next := 3, live := [2, 1] } ∧
      (encode host_short_enums scenario_bundle).length = 152 ∧
      (∀ k < 152,
        nshader_read_from_memory host_short_enums
            ((encode host_short_enums scenario_bundle).take k) = none ∧
          (live_after_truncation scenario_bundle k = [] ↔ ¬ (124 ≤ k ∧ k < 144))) ∧
      (∀ (h : Host) (buffer : List Byte) (heap : Heap),
        (Mem.nshader_read_from_memory h buffer heap).1.isSome
            = (nshader_read_from_memory h buffer).isSome ∧
          (Mem.nshader_read_from_memory h buffer heap).2.cursor
            = (nshader_read_from_memory_run h buffer).2) := by
  refine ⟨by decide!, by decide!, by decide!, by decide!, by decide!, by decide!, by decide!,
    by decide!, mem_read_from_memory_agrees⟩

/-! ## Command line -/

theorem takeWhile_append_dropWhile_mem (ch : Byte) (text : List Byte) (hmem : ch ∈ text) :
    text.takeWhile (fun b => b ≠ ch) ++ ch :: text.drop ((text.takeWhile fun b => b ≠ ch).length + 1)
      = text ∧ ch ∉ text.takeWhile (fun b => b ≠ ch) := by
  induction text with
  | nil => exact absurd hmem (List.not_mem_nil _)
  | cons b rest ih =>
    by_cases hb : b = ch
    · subst hb
      simp [List.takeWhile_cons]
    · have hrest : ch ∈ rest := by
        rcases List.mem_cons.mp hmem with h | h
        · exact absurd h.symm hb
        · exact h
      obtain ⟨h1, h2⟩ := ih hrest
      have hd : decide (b ≠ ch) = true := by simp [hb]
      rw [List.takeWhile_cons, hd]
      simp only [if_true, List.length_cons, List.drop_succ_cons, List.cons_append,
        List.mem_cons, not_or]
      refine ⟨?_, fun e => hb e.symm, h2⟩
      rw [h1]

theorem take_length_takeWhile (p : Byte → Bool) (text : List Byte) :
    text.take (text.takeWhile p).length = text.takeWhile p := by
  induction text with
  | nil => rfl
  | cons b rest ih =>
    rw [List.takeWhile_cons]
    split
    · simp only [List.length_cons, List.take_succ_cons, ih]
    · rfl

/-- Claim C39: `parse_define` splits its argument at the first '=': when the string holds
an '=', `name` is the part in front of the first one (it holds no '=' and may be empty),
`value` is everything after it (it may be empty and may hold further '='), and
name ++ "=" ++ value is the string; when it holds none, `name` is the string and `value`
is absent. -/
theorem parse_define_splits_at_first_equals (str : CString) :
    ((61 : Byte) ∈ c_text str →
        ∃ name value, parse_define str = (name, some value) ∧ (61 : Byte) ∉ name ∧
          name ++ [61] ++ value = c_text str) ∧
      ((61 : Byte) ∉ c_text str → parse_define str = (c_text str, none)) ∧
      parse_define [65, 61, 66, 61, 67, 0] = ([65], some [66, 61, 67]) ∧
      parse_define [61, 120, 0] = ([], some [120]) ∧
      parse_define [65, 61, 0] = ([65], some []) ∧
      parse_define [70, 79, 79, 0] = ([70, 79, 79], none) := by
  refine ⟨?_, ?_, by decide, by decide, by decide, by decide⟩
  · intro hmem
    obtain ⟨hsplit, hnot⟩ := takeWhile_append_dropWhile_mem 61 (c_text str) hmem
    refine ⟨(c_text str).take ((c_text str).takeWhile fun b => b ≠ 61).length,
      (c_text str).drop (((c_text str).takeWhile fun b => b ≠ 61).length + 1), ?_, ?_, ?_⟩
    · simp only [parse_define, strchr, hmem, if_true]
    · rw [take_length_takeWhile]
      exact hnot
    · rw [take_length_takeWhile]
      simpa using hsplit
  · intro hnot
    simp only [parse_define, strchr, hnot, if_false]
/-! ## Error list of the compiler -/

theorem set_append_slot (messages : List CString) (copy : CString) :
    (messages ++ [[]]).set messages.length copy = messages ++ [copy] := by
  induction messages with
  | nil => rfl
  | cons m rest ih => simp only [List.cons_append, List.length_cons, List.set_cons_succ, ih]

/-- Claim C38: `nshader_error_list_push` on a list holding the messages `messages`
yields a list holding one more message: the former ones unchanged, followed by a copy of
the characters of `msg`; on an absent list it does nothing; `nshader_error_list_free`
leaves the list without array and with `num_errors` = 0. -/
theorem error_list_push_and_free (list : nshader_error_list_t) (messages : List CString)
    (msg : CString) (hholds : holds_messages list messages) :
    (∃ pushed, nshader_error_list_push (some list) msg = some pushed ∧
        holds_messages pushed (messages ++ [c_text msg]) ∧
        pushed.num_errors = messages.length + 1) ∧
      nshader_error_list_push none msg = none ∧
      nshader_error_list_free (some list) = some { errors := none, num_errors := 0 } ∧
      nshader_error_list_free none = none := by
  obtain ⟨hcount, harray⟩ := hholds
  have htext : msg.take (strlen msg) = c_text msg := by
    unfold strlen c_text
    exact take_length_takeWhile _ msg
  refine ⟨⟨_, rfl, ⟨?_, ?_⟩, ?_⟩, rfl, rfl, rfl⟩
  · simp only [List.length_append, List.length_singleton, hcount]
  · simp only [Option.getD_some, realloc_slots, harray, hcount, htext]
    have htake : messages.take (messages.length + 1) = messages :=
      List.take_of_length_le (by omega)
    have hpad : messages.length + 1 - messages.length = 1 := by omega
    rw [htake, hpad]
    exact set_append_slot messages (c_text msg)
  · simp only [hcount]

theorem error_list_push_and_free_witness :
    holds_messages empty_error_list [] ∧
      (∃ pushed, nshader_error_list_push (some empty_error_list) [69, 114, 114, 0] = some pushed ∧
        holds_messages pushed ([] ++ [c_text [69, 114, 114, 0]]) ∧
        pushed.num_errors = ([] : List CString).length + 1) :=
  ⟨⟨rfl, rfl⟩,
    (error_list_push_and_free empty_error_list [] [69, 114, 114, 0] ⟨rfl, rfl⟩).1⟩

/-! ## The backend list and the table the compiler builds -/

/-- The table entry at a row and a column. -/
theorem table_at_store_blob (blobs : List (List (Option nshader_blob_t)))
    (stage_idx backend_idx : Nat) (blob : nshader_blob_t) (k b : Nat)
    (hne : ((store_blob blobs stage_idx backend_idx blob).getD k []).getD b none ≠ none) :
    (blobs.getD k []).getD b none ≠ none ∨ (k = stage_idx ∧ b = backend_idx) := by
  unfold store_blob at hne
  by_cases hk : k = stage_idx
  · subst hk
    by_cases hb : b = backend_idx
    · exact Or.inr ⟨rfl, hb⟩
    · left
      by_cases hlen : k < blobs.length
      · simp only [List.getD_eq_getElem?_getD, List.getElem?_set, hlen, if_true,
          Option.getD_some] at hne
        rw [if_neg (fun e => hb e.symm)] at hne
        simpa only [List.getD_eq_getElem?_getD] using hne
      · rw [List.set_eq_of_length_le (by omega)] at hne
        exact hne
  · left
    simp only [List.getD_eq_getElem?_getD] at hne ⊢
    rw [List.getElem?_set_ne (fun e => hk e.symm)] at hne
    exact hne

theorem store_stage_blobs_slots (compiled : compiled_stage_t) (backends : List Nat)
    (blobs : List (List (Option nshader_blob_t))) (k b : Nat)
    (hne : ((store_stage_blobs compiled backends blobs).getD k []).getD b none ≠ none) :
    (blobs.getD k []).getD b none ≠ none ∨ (k = compiled.stage_type ∧ b ∈ backends) := by
  induction backends generalizing blobs with
  | nil => exact Or.inl hne
  | cons backend rest ih =>
    unfold store_stage_blobs at hne
    have hkeep : ((store_stage_blobs compiled rest blobs).getD k []).getD b none ≠ none →
        (blobs.getD k []).getD b none ≠ none ∨
          (k = compiled.stage_type ∧ b ∈ backend :: rest) := by
      intro hx
      rcases ih blobs hx with hold | ⟨hk, hb⟩
      · exact Or.inl hold
      · exact Or.inr ⟨hk, List.mem_cons_of_mem _ hb⟩
    cases hdata : data_to_copy compiled backend with
    | none =>
      rw [hdata] at hne
      exact hkeep hne
    | some data =>
      rw [hdata] at hne
      simp only at hne
      by_cases hlen : data.length > 0
      · rw [if_pos hlen] at hne
        rcases ih _ hne with hold | ⟨hk, hb⟩
        · rcases table_at_store_blob blobs _ _ _ k b hold with hold2 | ⟨hk, hb⟩
          · exact Or.inl hold2
          · exact Or.inr ⟨hk, by rw [hb]; exact List.mem_cons_self _ _⟩
        · exact Or.inr ⟨hk, List.mem_cons_of_mem _ hb⟩
      · rw [if_neg hlen] at hne
        exact hkeep hne

theorem store_blobs_slots (backends : List Nat) (stages : List compiled_stage_t)
    (blobs : List (List (Option nshader_blob_t))) (k b : Nat)
    (hne : ((store_blobs backends stages blobs).getD k []).getD b none ≠ none) :
    (blobs.getD k []).getD b none ≠ none ∨
      ((∃ compiled ∈ stages, compiled.stage_type = k) ∧ b ∈ backends) := by
  induction stages generalizing blobs with
  | nil => exact Or.inl hne
  | cons compiled rest ih =>
    unfold store_blobs at hne
    rcases ih _ hne with hold | ⟨⟨c, hc, hk⟩, hb⟩
    · rcases store_stage_blobs_slots compiled backends blobs k b hold with hold2 | ⟨hk, hb⟩
      · exact Or.inl hold2
      · exact Or.inr ⟨⟨compiled, List.mem_cons_self _ _, hk.symm⟩, hb⟩
    · exact Or.inr ⟨⟨c, List.mem_cons_of_mem _ hc, hk⟩, hb⟩

theorem empty_table_at (k b : Nat) : (empty_table.getD k []).getD b none = none := by
  have hrow : ∀ j, ([none, none, none, none] : List (Option nshader_blob_t)).getD j none
      = none := by
    intro j
    match j with
    | 0 | 1 | 2 | 3 => rfl
    | j + 4 => rfl
  match k with
  | 0 | 1 | 2 => exact hrow b
  | k + 3 => rfl

theorem mem_ite_singleton (cond : Bool) (a b : Nat) :
    b ∈ (if cond = true then [a] else []) ↔ cond = true ∧ b = a := by
  cases cond <;> simp

theorem available_backends_mem (config : nshader_compiler_config_t) (first : compiled_stage_t)
    (b : Nat) :
    b ∈ available_backends config first ↔
      backend_disabled config b = false ∧ (data_to_copy first b).isSome = true := by
  unfold available_backends backend_disabled data_to_copy
  simp only [List.mem_append, mem_ite_singleton, Bool.and_eq_true, Bool.not_eq_true']
  simp only [NSHADER_BACKEND_DXIL, NSHADER_BACKEND_DXBC, NSHADER_BACKEND_MSL,
    NSHADER_BACKEND_SPV]
  by_cases h0 : b = 0
  · subst h0
    simp
  by_cases h1 : b = 1
  · subst h1
    simp
  by_cases h2 : b = 2
  · subst h2
    simp
  by_cases h3 : b = 3
  · subst h3
    simp
  simp [h0, h1, h2, h3]

theorem available_backends_sublist (config : nshader_compiler_config_t)
    (first : compiled_stage_t) :
    (available_backends config first).Sublist
      [NSHADER_BACKEND_DXIL, NSHADER_BACKEND_DXBC, NSHADER_BACKEND_MSL, NSHADER_BACKEND_SPV] := by
  unfold available_backends
  have hone : ∀ (cond : Bool) (b : Nat), (if cond = true then [b] else []).Sublist [b] := by
    intro cond b
    cases cond
    · exact List.nil_sublist _
    · exact List.Sublist.refl _
  exact ((((hone _ _).append (hone _ _)).append (hone _ _)).append (hone _ _))

/-- Claim C37: the backend list of a bundle the compiler returns holds exactly the
backends that the configuration does not disable and for which the first compiled stage
has data; it is a sublist of DXIL, DXBC, MSL, SPV, so it keeps that order, has no
duplicates and at most 4 entries; and, the compiled stage kinds being Vertex, Fragment or
Compute, a table entry (k, b) is filled only when k is the kind of a compiled stage and b
is in the backend list. -/
theorem compiler_backend_list (config : nshader_compiler_config_t)
    (compiled : List compiled_stage_t) (shader : nshader_t)
    (hreturned : nshader_compiler_compile_hlsl (some config) (some compiled) = some shader)
    (hkinds : ∀ stage ∈ compiled, stage.stage_type < NSHADER_STAGE_TYPE_COUNT) :
    (∃ first, compiled.head? = some first ∧
        ∀ b, b ∈ shader.info.backends ↔
          backend_disabled config b = false ∧ (data_to_copy first b).isSome = true) ∧
      shader.info.backends.Sublist
        [NSHADER_BACKEND_DXIL, NSHADER_BACKEND_DXBC, NSHADER_BACKEND_MSL,
          NSHADER_BACKEND_SPV] ∧
      shader.info.backends.Nodup ∧ shader.info.backends.length ≤ 4 ∧
      ∀ k b, shader.blob_at k b ≠ none →
        (∃ stage ∈ compiled, stage.stage_type = k) ∧ b ∈ shader.info.backends := by
  match compiled, hreturned with
  | first :: others, hreturned =>
    simp only [nshader_compiler_compile_hlsl, Option.some.injEq] at hreturned
    subst hreturned
    have hsub := available_backends_sublist config first
    have hnodup : ([NSHADER_BACKEND_DXIL, NSHADER_BACKEND_DXBC, NSHADER_BACKEND_MSL,
        NSHADER_BACKEND_SPV] : List Nat).Nodup := by decide
    refine ⟨⟨first, rfl, available_backends_mem config first⟩, hsub, hsub.nodup hnodup, ?_, ?_⟩
    · have := hsub.length_le
      simpa using this
    · intro k b hne
      rcases store_blobs_slots _ _ _ k b hne with hold | hnew
      · exact absurd (empty_table_at k b) hold
      · exact hnew

set_option maxRecDepth 100000 in
theorem compiler_backend_list_witness :
    nshader_compiler_compile_hlsl (some config_all_backends) (some [compiled_vertex_stage])
        = some compiled_vertex_bundle ∧
      (∀ stage ∈ [compiled_vertex_stage], stage.stage_type < NSHADER_STAGE_TYPE_COUNT) ∧
      compiled_vertex_bundle.info.backends.Sublist
        [NSHADER_BACKEND_DXIL, NSHADER_BACKEND_DXBC, NSHADER_BACKEND_MSL,
          NSHADER_BACKEND_SPV] ∧
      compiled_vertex_bundle.info.backends = [NSHADER_BACKEND_DXIL, NSHADER_BACKEND_SPV] :=
  ⟨by decide!, by decide!,
    (compiler_backend_list config_all_backends [compiled_vertex_stage] compiled_vertex_bundle
      (by decide!) (by decide!)).2.1, rfl⟩

/-! ## The backend chosen for a device -/

theorem select_backend_loop_find (supported_formats : Nat) (shader : Option nshader_t)
    (backends : List Nat) :
    select_backend_loop supported_formats shader backends
      = (backends.find? fun backend =>
          device_supports supported_formats backend
            && nshader_has_backend shader backend).getD NSHADER_BACKEND_COUNT := by
  induction backends with
  | nil => rfl
  | cons b rest ih =>
    unfold select_backend_loop
    simp only [List.find?]
    by_cases hcond : (supported_formats &&& nshader_backend_to_sdl_format b) ≠ 0 ∧
        nshader_has_backend shader b = true
    · have hb : (device_supports supported_formats b && nshader_has_backend shader b)
          = true := by
        simp only [device_supports, hcond.1, hcond.2, ne_eq, not_false_eq_true, decide_True,
          Bool.and_self]
      rw [if_pos hcond, hb]
      rfl
    · have hb : (device_supports supported_formats b && nshader_has_backend shader b)
          = false := by
        rcases Classical.not_and_iff_or_not_not.mp hcond with h1 | h1
        · simp only [device_supports, h1, decide_False, Bool.false_and]
        · simp only [Bool.not_eq_true] at h1
          simp only [h1, Bool.and_false]
      rw [if_neg hcond, hb]
      exact ih

theorem device_supports_in_range (supported_formats backend : Nat)
    (hs : device_supports supported_formats backend = true) :
    backend ∈ backend_priority := by
  unfold device_supports nshader_backend_to_sdl_format at hs
  unfold backend_priority
  by_cases h0 : backend = NSHADER_BACKEND_DXIL
  · simp [h0]
  by_cases h1 : backend = NSHADER_BACKEND_DXBC
  · simp [h1]
  by_cases h2 : backend = NSHADER_BACKEND_MSL
  · simp [h2]
  by_cases h3 : backend = NSHADER_BACKEND_SPV
  · simp [h3]
  rw [if_neg h0, if_neg h1, if_neg h2, if_neg h3] at hs
  simp [SDL_GPU_SHADERFORMAT_INVALID] at hs

/-- Claim C35: `select_backend_for_device` returns the first backend in the order DXIL,
SPV, MSL, DXBC whose format is in the device's format mask and which
`nshader_has_backend` reports for the shader; it returns `NSHADER_BACKEND_COUNT` exactly
when no backend satisfies both (and for a NULL device); and it has no stage parameter and
gives the same result whatever the blob table holds. -/
theorem select_backend_first_match (supported_formats : Nat) (shader : Option nshader_t) :
    select_backend_for_device (some supported_formats) shader
        = (backend_priority.find? fun backend =>
            device_supports supported_formats backend
              && nshader_has_backend shader backend).getD NSHADER_BACKEND_COUNT ∧
      backend_priority
        = [NSHADER_BACKEND_DXIL, NSHADER_BACKEND_SPV, NSHADER_BACKEND_MSL,
            NSHADER_BACKEND_DXBC] ∧
      (select_backend_for_device (some supported_formats) shader = NSHADER_BACKEND_COUNT ↔
        ∀ backend, ¬ ((supported_formats &&& nshader_backend_to_sdl_format backend) ≠ 0 ∧
          nshader_has_backend shader backend = true)) ∧
      select_backend_for_device none shader = NSHADER_BACKEND_COUNT ∧
      (∀ (info : nshader_info_t) (blobs1 blobs2 : List (List (Option nshader_blob_t))),
        select_backend_for_device (some supported_formats)
            (some { info := info, blobs := blobs1 })
          = select_backend_for_device (some supported_formats)
            (some { info := info, blobs := blobs2 })) := by
  have hsel : select_backend_for_device (some supported_formats) shader
      = (backend_priority.find? fun backend =>
          device_supports supported_formats backend
            && nshader_has_backend shader backend).getD NSHADER_BACKEND_COUNT := by
    cases shader with
    | none =>
      simp only [select_backend_for_device, nshader_has_backend, Bool.and_false,
        backend_priority, List.find?, Option.getD_none]
    | some sh =>
      simp only [select_backend_for_device]
      exact select_backend_loop_find supported_formats (some sh) backend_priority
  refine ⟨hsel, rfl, ?_, ?_, ?_⟩
  · rw [hsel]
    constructor
    · intro hcount backend hboth
      have hsup : device_supports supported_formats backend = true := by
        simp only [device_supports, hboth.1, ne_eq, not_false_eq_true, decide_True]
      have hmem := device_supports_in_range supported_formats backend hsup
      cases hfind : backend_priority.find? fun backend =>
          device_supports supported_formats backend && nshader_has_backend shader backend with
      | none =>
        have := List.find?_eq_none.mp hfind backend hmem
        simp only [hsup, hboth.2, Bool.and_self, not_true_eq_false] at this
      | some found =>
        rw [hfind] at hcount
        simp only [Option.getD_some] at hcount
        have hin := List.mem_of_find?_eq_some hfind
        rw [hcount] at hin
        exact absurd hin (by decide)
    · intro hnone
      cases hfind : backend_priority.find? fun backend =>
          device_supports supported_formats backend && nshader_has_backend shader backend with
      | none => rfl
      | some found =>
        have hsat := List.find?_some hfind
        simp only [Bool.and_eq_true, device_supports, decide_eq_true_eq] at hsat
        exact absurd hsat (hnone found)
  · cases shader <;> rfl
  · intro info blobs1 blobs2
    rfl

/-! ## The 32-bit length fields of the encoder -/

/-- The fields `write_string` emits for a string of `n` characters 'A'. -/
theorem string_fields_replicate (h : Host) (n : Nat) :
    string_fields h (some (List.replicate n 65))
      = [le_bytes 4 (n % 2 ^ 32)]
        ++ (if n % 2 ^ 32 > 0 then [List.replicate (n % 2 ^ 32) 65] else []) := by
  have hle : n % 2 ^ 32 ≤ n := Nat.mod_le _ _
  have hfield : h.store 4 (to_le32 h (n % 2 ^ 32)) = le_bytes 4 (n % 2 ^ 32) := by
    have := u32_field_eq h (n % 2 ^ 32)
    rw [Nat.mod_mod] at this
    exact this
  simp only [string_fields, strlen_replicate, Option.getD_some, List.take_replicate,
    Nat.min_eq_left hle, hfield]

/-- Claim C36 fails for strings: for a string of 2^32 + 3 characters `write_string`
emits the length field 3 and then 3 characters, not the whole string. -/
theorem string_payload_counterexample :
    write_string host_x64 (some (List.replicate (2 ^ 32 + 3) 65))
        = write_fields [le_bytes 4 3, List.replicate 3 65] ∧
      strlen (List.replicate (2 ^ 32 + 3) 65) = 2 ^ 32 + 3 := by
  have hmod : (2 ^ 32 + 3) % 2 ^ 32 = 3 := by norm_num
  refine ⟨?_, strlen_replicate (2 ^ 32 + 3)⟩
  rw [write_string_eq, string_fields_replicate, hmod, if_pos (by decide)]
  rfl

theorem stages_fields_mem (h : Host) (stages : List nshader_stage_t) (stage : nshader_stage_t)
    (hmem : stage ∈ stages) :
    ∃ before after, stages_fields h stages = before ++ stage_fields h stage ++ after := by
  induction stages with
  | nil => exact absurd hmem (List.not_mem_nil _)
  | cons first rest ih =>
    rcases List.mem_cons.mp hmem with heq | hrest
    · subst heq
      exact ⟨[], stages_fields h rest, by simp only [stages_fields, List.nil_append]⟩
    · obtain ⟨before, after, hsplit⟩ := ih hrest
      exact ⟨stage_fields h first ++ before, after, by
        simp only [stages_fields, hsplit, List.append_assoc]⟩

theorem bindings_fields_mem (h : Host) (bindings : List nshader_stage_binding_t)
    (binding : nshader_stage_binding_t) (hmem : binding ∈ bindings) :
    ∃ before after, bindings_fields h bindings = before ++ binding_fields h binding ++ after := by
  induction bindings with
  | nil => exact absurd hmem (List.not_mem_nil _)
  | cons first rest ih =>
    rcases List.mem_cons.mp hmem with heq | hrest
    · subst heq
      exact ⟨[], bindings_fields h rest, by simp only [bindings_fields, List.nil_append]⟩
    · obtain ⟨before, after, hsplit⟩ := ih hrest
      exact ⟨binding_fields h first ++ before, after, by
        simp only [bindings_fields, hsplit, List.append_assoc]⟩

theorem backends_fields_length_eq (backends : List Nat) :
    (backends_fields backends).length = backends.length := by
  induction backends with
  | nil => rfl
  | cons b rest ih => simp only [backends_fields, List.length_cons, ih]

/-- Claim C36, amended: on every host the stage count, the backend count, the binding
counts and the blob size are stored in their 32-bit fields reduced modulo 2^32 while every
stage, backend and binding and every byte of the blob is emitted; a blob of `s` > 0 bytes
is written as the byte 1, the field `s mod 2^32` and all `s` bytes, and the field equals
`s` exactly when `s < 2^32`. The length of a string is stored reduced modulo 2^32 as
well, but only that many of its characters are emitted. -/
theorem length_fields_modulo (h : Host) :
    (∀ data : List Byte, data ≠ [] →
        write_blob h (some { data := some data })
            = write_fields [[1], le_bytes 4 (data.length % 2 ^ 32), data] ∧
          (le_value (le_bytes 4 (data.length % 2 ^ 32)) = data.length ↔
            data.length < 2 ^ 32)) ∧
      (∀ str : CString,
        write_string h (some str)
            = write_fields ([le_bytes 4 (strlen str % 2 ^ 32)]
                ++ (if strlen str % 2 ^ 32 > 0 then [str.take (strlen str % 2 ^ 32)] else [])) ∧
          (str.take (strlen str % 2 ^ 32)).length = strlen str % 2 ^ 32) ∧
      (∀ shader : nshader_t, valid_stage_types shader →
        write_shader h shader
            = write_fields
              ([le_bytes 4 NSHADER_MAGIC, le_bytes 4 NSHADER_VERSION,
                  [byte_of shader.info.type],
                  le_bytes 4 (shader.info.stages.length % 2 ^ 32)]
                ++ stages_fields h shader.info.stages
                ++ [le_bytes 4 (shader.info.backends.length % 2 ^ 32)]
                ++ backends_fields shader.info.backends
                ++ blobs_fields h shader) ∧
          (∀ stage ∈ shader.info.stages, ∃ before after,
            stages_fields h shader.info.stages = before ++ stage_fields h stage ++ after) ∧
          (backends_fields shader.info.backends).length = shader.info.backends.length) ∧
      (∀ metadata : nshader_stage_metadata_t,
        write_stage_metadata h NSHADER_STAGE_TYPE_VERTEX metadata
            = write_fields
              ([le_bytes 4 (metadata.vertex.num_samplers % 2 ^ 32),
                  le_bytes 4 (metadata.vertex.num_storage_textures % 2 ^ 32),
                  le_bytes 4 (metadata.vertex.num_storage_buffers % 2 ^ 32),
                  le_bytes 4 (metadata.vertex.num_uniform_buffers % 2 ^ 32),
                  le_bytes 4 (metadata.vertex.inputs.length % 2 ^ 32)]
                ++ bindings_fields h metadata.vertex.inputs
                ++ [le_bytes 4 (metadata.vertex.outputs.length % 2 ^ 32)]
                ++ bindings_fields h metadata.vertex.outputs) ∧
          (∀ binding ∈ metadata.vertex.inputs, ∃ before after,
            bindings_fields h metadata.vertex.inputs
              = before ++ binding_fields h binding ++ after)) := by
  refine ⟨?_, ?_, ?_, ?_⟩
  · intro data hdata
    have hpos : data.length > 0 := List.length_pos.mpr hdata
    constructor
    · rw [write_blob_eq]
      simp only [blob_fields, nshader_blob_t.size, hpos, if_true, u32_field_eq, Nat.mod_mod]
      rfl
    · rw [le_value_le_bytes]
      have hpow : (256 : Nat) ^ 4 = 2 ^ 32 := by norm_num
      rw [hpow, Nat.mod_mod]
      constructor
      · intro heq
        rw [← heq]
        exact Nat.mod_lt _ (by norm_num)
      · intro hlt
        exact Nat.mod_eq_of_lt hlt
  · intro str
    constructor
    · rw [write_string_eq]
      have hfield : h.store 4 (to_le32 h (strlen str % 2 ^ 32))
          = le_bytes 4 (strlen str % 2 ^ 32) := by
        have := u32_field_eq h (strlen str % 2 ^ 32)
        rw [Nat.mod_mod] at this
        exact this
      simp only [string_fields, Option.getD_some, hfield]
    · have h1 := strlen_le str
      have h2 : strlen str % 2 ^ 32 ≤ strlen str := Nat.mod_le _ _
      simp only [List.length_take]
      omega
  · intro shader hv
    refine ⟨?_, fun stage hmem => stages_fields_mem h _ stage hmem,
      backends_fields_length_eq _⟩
    rw [write_shader_eq h shader hv]
    simp only [shader_fields, u32_field_eq, Nat.mod_mod]
    have hmagic : NSHADER_MAGIC % 2 ^ 32 = NSHADER_MAGIC := by decide
    have hversion : NSHADER_VERSION % 2 ^ 32 = NSHADER_VERSION := by decide
    rw [hmagic, hversion]
  · intro metadata
    refine ⟨?_, fun binding hmem => bindings_fields_mem h _ binding hmem⟩
    rw [write_stage_metadata_eq h _ _ (Or.inl rfl)]
    simp only [metadata_fields, if_true, u32_field_eq, Nat.mod_mod]

theorem length_fields_modulo_witness :
    write_blob host_x64 (some { data := some [1, 2, 3] })
      = write_fields [[1], le_bytes 4 (([1, 2, 3] : List Byte).length % 2 ^ 32), [1, 2, 3]] :=
  ((length_fields_modulo host_x64).1 [1, 2, 3] (by decide)).1

/-! ## Stage kinds outside the three kinds -/

theorem le_value_append (xs ys : List Byte) :
    le_value (xs ++ ys) = le_value xs + 256 ^ xs.length * le_value ys := by
  induction xs with
  | nil => simp [le_value]
  | cons x rest ih =>
    rw [List.cons_append]
    simp only [le_value, List.length_cons, pow_succ]
    rw [ih]
    ring

/-- The value of an object is at least its first byte, in either byte order. -/
theorem load_ge_first_byte (h : Host) (b : Byte) (rest : List Byte) :
    b.val ≤ h.load (b :: rest) := by
  unfold Host.load
  split
  · rw [List.reverse_cons, le_value_append]
    have hpos : 0 < 256 ^ rest.reverse.length := Nat.pow_pos (by decide)
    have hone : le_value [b] = b.val := by simp [le_value]
    rw [hone]
    calc b.val ≤ 256 ^ rest.reverse.length * b.val := Nat.le_mul_of_pos_left _ hpos
      _ ≤ le_value rest.reverse + 256 ^ rest.reverse.length * b.val := Nat.le_add_left _ _
  · simp only [le_value]
    omega

theorem read_stage_metadata_invalid (h : Host) (stage_type : Nat)
    (metadata : nshader_stage_metadata_t) (hge : 3 ≤ stage_type) :
    read_stage_metadata h stage_type metadata = Step.fail := by
  unfold read_stage_metadata
  have h0 : ¬ stage_type = NSHADER_STAGE_TYPE_VERTEX := by
    simp only [NSHADER_STAGE_TYPE_VERTEX]; omega
  have h1 : ¬ stage_type = NSHADER_STAGE_TYPE_FRAGMENT := by
    simp only [NSHADER_STAGE_TYPE_FRAGMENT]; omega
  have h2 : ¬ stage_type = NSHADER_STAGE_TYPE_COMPUTE := by
    simp only [NSHADER_STAGE_TYPE_COMPUTE]; omega
  rw [if_neg h0, if_neg h1, if_neg h2]

theorem next_first_byte (c : Cursor) (b : Byte) (size : Nat) (hsize : 0 < size)
    (hb : c.next 1 = [b]) : ∃ rest, c.next size = b :: rest := by
  unfold Cursor.next at hb ⊢
  rcases hd : c.memory.drop c.buffer with _ | ⟨x, tail⟩
  · rw [hd] at hb
    exact absurd hb (by simp)
  · rw [hd] at hb
    simp only [List.take_succ_cons, List.take_zero, List.cons.injEq, and_true] at hb
    subst hb
    obtain ⟨m, rfl⟩ : ∃ m, size = m + 1 := ⟨size - 1, by omega⟩
    exact ⟨tail.take m, by simp only [List.take_succ_cons]⟩

/-- A stage whose first byte is 3 or more cannot be read. -/
theorem read_stage_bad_kind (h : Host) (hE : 0 < h.enum_size) (c : Cursor) (b : Byte)
    (hb : c.next 1 = [b]) (hge : 3 ≤ b.val) : (read_stage h c).1 = none := by
  unfold read_stage
  rcases ht : READ_U8 h h.enum_size c with ⟨_ | type, c1⟩
  · rw [step_bind_of_none ht]
  · rw [step_bind_of_some ht]
    obtain ⟨_, hval, _⟩ := READ_U8_some_inv ht
    obtain ⟨rest, hnext⟩ := next_first_byte c b h.enum_size hE hb
    have htype : 3 ≤ type := by
      rw [hval, hnext]
      exact Nat.le_trans hge (load_ge_first_byte h b rest)
    rcases hs : read_string h c1 with ⟨_ | entry, c2⟩
    · rw [step_bind_of_none hs]
    · rw [step_bind_of_some hs, read_stage_metadata_invalid h type _ htype, step_fail_bind]
      rfl

/-- A failing step fails the sequence it is part of. -/
theorem writer_bind_fails_of_rest {α β : Type} (m : Step Writer α) (f : α → Step Writer β)
    (w : Writer) (hf : ∀ a w1, (f a w1).1 = none) : ((m >>= f) w).1 = none := by
  rcases hm : m w with ⟨_ | a, w1⟩
  · rw [step_bind_of_none hm]
  · rw [step_bind_of_some hm]
    exact hf a w1

theorem write_stages_invalid (h : Host) (stages : List nshader_stage_t)
    (hbad : ∃ stage ∈ stages, ¬ valid_stage_type stage.type) (w : Writer) :
    (write_stages h stages w).1 = none := by
  induction stages generalizing w with
  | nil =>
    obtain ⟨stage, hmem, _⟩ := hbad
    exact absurd hmem (List.not_mem_nil _)
  | cons first rest ih =>
    unfold write_stages
    apply writer_bind_fails_of_rest
    intro _ w1
    apply writer_bind_fails_of_rest
    intro _ w2
    by_cases hv : valid_stage_type first.type
    · have hrest : ∃ stage ∈ rest, ¬ valid_stage_type stage.type := by
        obtain ⟨stage, hmem, hx⟩ := hbad
        rcases List.mem_cons.mp hmem with heq | hin
        · subst heq
          exact absurd hv hx
        · exact ⟨stage, hin, hx⟩
      apply writer_bind_fails_of_rest
      intro _ w3
      exact ih hrest w3
    · rw [write_stage_metadata_invalid h _ _ hv, step_fail_bind]
      rfl

/-- The decode fails when the stage loop reaches, as stage `k` of the `n` declared, a
stage that cannot be read. -/
theorem read_from_memory_fails_at_stage (h : Host) (buffer : List Byte) (type n k : Nat)
    (cs c0 : Cursor) (stages : List nshader_stage_t)
    (hpre : read_preamble h (Cursor.init buffer) = (some (type, n), cs))
    (hloop : read_array (read_stage h) k cs = (some stages, c0)) (hlt : k < n)
    (hfail : (read_stage h c0).1 = none) : nshader_read_from_memory h buffer = none := by
  have hfails := read_array_fails_at (read_stage h) k n cs c0 stages hloop hfail hlt
  have hlen : ¬ buffer.length = 0 := by
    obtain ⟨hsize, _⟩ := read_preamble_some_inv hpre
    simp only [Cursor.init] at hsize
    omega
  unfold nshader_read_from_memory nshader_read_from_memory_run
  rw [if_neg hlen, read_shader_split, step_bind_of_some hpre]
  unfold read_body
  exact step_bind_fails hfails

/-- Claim C34: on a host whose enum objects have at least one byte, a stage whose kind
byte is 3 or greater cannot be read, so `nshader_read_from_memory` fails on every buffer
in which the parse reaches such a stage (as stage `k` of the `n` declared, after `k`
stages were read); and `nshader_write_to_memory` returns 0, with or without a
destination, for every bundle that contains a stage whose kind is not Vertex, Fragment
or Compute. -/
theorem stage_kind_validation (h : Host) (hE : 0 < h.enum_size) :
    (∀ (c : Cursor) (b : Byte), c.next 1 = [b] → 3 ≤ b.val → (read_stage h c).1 = none) ∧
      (∀ (buffer : List Byte) (type n k : Nat) (cs c0 : Cursor)
          (stages : List nshader_stage_t) (b : Byte),
        read_preamble h (Cursor.init buffer) = (some (type, n), cs) →
        read_array (read_stage h) k cs = (some stages, c0) → k < n →
        c0.next 1 = [b] → 3 ≤ b.val →
        nshader_read_from_memory h buffer = none) ∧
      (∀ (shader : nshader_t) (buffer : Option (List Byte)) (buffer_size : Nat),
        (∃ stage ∈ shader.info.stages, ¬ valid_stage_type stage.type) →
        nshader_write_to_memory h (some shader) buffer buffer_size = 0) := by
  refine ⟨fun c b hb hge => read_stage_bad_kind h hE c b hb hge, ?_, ?_⟩
  · intro buffer type n k cs c0 stages b hpre hloop hlt hb hge
    exact read_from_memory_fails_at_stage h buffer type n k cs c0 stages hpre hloop hlt
      (read_stage_bad_kind h hE c0 b hb hge)
  · intro shader buffer buffer_size hbad
    unfold nshader_write_to_memory nshader_write_to_memory_run
    simp only
    have hfail : (write_shader h shader (Writer.init buffer buffer_size)).1 = none := by
      unfold write_shader
      apply writer_bind_fails_of_rest
      intro _ w1
      apply writer_bind_fails_of_rest
      intro _ w2
      apply writer_bind_fails_of_rest
      intro _ w3
      apply writer_bind_fails_of_rest
      intro _ w4
      exact step_bind_fails (write_stages_invalid h _ hbad w4)
    rcases hr : write_shader h shader (Writer.init buffer buffer_size) with ⟨r, w⟩
    rw [hr] at hfail
    simp only at hfail
    subst hfail
    rfl

set_option maxRecDepth 100000 in
theorem stage_kind_validation_witness :
    0 < host_x64.enum_size ∧
      read_preamble host_x64 (Cursor.init bad_kind_buffer) = (some (0, 1), bad_kind_stage_cursor) ∧
      bad_kind_stage_cursor.next 1 = [7] ∧
      nshader_read_from_memory host_x64 bad_kind_buffer = none ∧
      (∃ stage ∈ bad_stage_bundle.info.stages, ¬ valid_stage_type stage.type) ∧
      nshader_write_to_memory host_x64 (some bad_stage_bundle) none 0 = 0 ∧
      nshader_write_to_memory host_x64 (some bad_stage_bundle) (some (List.replicate 64 0)) 64
        = 0 :=
  ⟨by decide, by decide!, by decide!,
    (stage_kind_validation host_x64 (by decide)).2.1 bad_kind_buffer 0 1 0
      bad_kind_stage_cursor bad_kind_stage_cursor [] 7 (by decide!) rfl (by decide)
      (by decide!) (by decide),
    by decide!,
    (stage_kind_validation host_x64 (by decide)).2.2 bad_stage_bundle none 0 (by decide!),
    (stage_kind_validation host_x64 (by decide)).2.2 bad_stage_bundle
      (some (List.replicate 64 0)) 64 (by decide!)⟩

/-! ## Entry points of length zero -/

theorem load_zero_field (h : Host) : from_le32 h (h.load [0, 0, 0, 0]) = 0 := by
  have hlen : ([0, 0, 0, 0] : List Byte).length = 4 := rfl
  rw [from_le32_load h [0, 0, 0, 0] hlen]
  rfl

/-- A stage whose entry-point length field holds four zero bytes cannot be read. -/
theorem read_stage_zero_length (h : Host) (c0 c : Cursor) (t : Nat)
    (htype : READ_U8 h h.enum_size c0 = (some t, c)) (hzero : c.next 4 = [0, 0, 0, 0]) :
    (read_stage h c0).1 = none := by
  unfold read_stage
  rw [step_bind_of_some htype]
  have hstring : (read_string h c).1 = none := by
    unfold read_string
    by_cases hsize : 4 ≤ c.remaining
    · rw [step_bind_of_some (read_data_ok 4 c hsize), hzero, load_zero_field]
      rfl
    · rw [step_bind_of_none (read_data_refused 4 c (by omega))]
  exact step_bind_fails hstring

theorem write_string_zero (h : Host) (str : Option CString)
    (hzero : strlen (str.getD []) = 0) :
    write_string h str = write_fields [le_bytes 4 0] := by
  rw [write_string_eq]
  have hfield : h.store 4 (to_le32 h 0) = le_bytes 4 0 := u32_field_eq h 0
  cases str with
  | none => simp only [string_fields, hfield, gt_iff_lt, Nat.lt_irrefl, if_false, List.append_nil]
  | some s =>
    simp only [Option.getD_some] at hzero
    simp only [string_fields, hzero, Nat.zero_mod, hfield, gt_iff_lt, Nat.lt_irrefl, if_false,
      List.append_nil]

set_option maxRecDepth 100000 in
/-- Claim C33, evaluated: on every host `write_string` emits the length field 0 and
nothing else for an absent or empty entry point, the encoding of a bundle with valid
stage kinds succeeds, and the decode fails on every buffer in which the stage loop
reaches a stage whose entry-point length field is zero. But on a host with 4-byte enums
the decoder accepts the encoder's output for the bundle whose only stage has no entry
point (and for the one whose entry point is empty): it returns a bundle of kind 256
without stages; with 1-byte enums it rejects both. -/
theorem entry_point_asymmetry_with_wide_enums :
    (∀ (h : Host) (str : Option CString), strlen (str.getD []) = 0 →
        write_string h str = write_fields [le_bytes 4 0]) ∧
      (∀ (h : Host) (shader : nshader_t), valid_stage_types shader →
        encoded_size h shader ≠ 0 ∧ (encode h shader).length = encoded_size h shader) ∧
      (∀ (h : Host) (buffer : List Byte) (type n k t : Nat) (cs c0 c : Cursor)
          (stages : List nshader_stage_t),
        read_preamble h (Cursor.init buffer) = (some (type, n), cs) →
        read_array (read_stage h) k cs = (some stages, c0) → k < n →
        READ_U8 h h.enum_size c0 = (some t, c) → c.next 4 = [0, 0, 0, 0] →
        nshader_read_from_memory h buffer = none) ∧
      valid_stage_types entryless_bundle ∧ valid_stage_types empty_entry_bundle ∧
      nshader_read_from_memory host_x64 (encode host_x64 entryless_bundle)
        = some { info := { type := 256, stages := [], backends := [] },
                 blobs := empty_bundle.blobs } ∧
      nshader_read_from_memory host_x64 (encode host_x64 empty_entry_bundle)
        = some { info := { type := 256, stages := [], backends := [] },
                 blobs := empty_bundle.blobs } ∧
      nshader_read_from_memory host_short_enums (encode host_short_enums entryless_bundle)
        = none ∧
      nshader_read_from_memory host_short_enums (encode host_short_enums empty_entry_bundle)
        = none := by
  refine ⟨fun h str hzero => write_string_zero h str hzero, ?_, ?_, by decide!, by decide!,
    by decide!, by decide!, by decide!, by decide!⟩
  · intro h shader hv
    have hlen := shader_bytes_length h shader hv
    rw [← encoded_size_eq h shader hv] at hlen
    refine ⟨by omega, ?_⟩
    rw [encode_eq h shader hv, encoded_size_eq h shader hv]
  · intro h buffer type n k t cs c0 c stages hpre hloop hlt htype hzero
    exact read_from_memory_fails_at_stage h buffer type n k cs c0 stages hpre hloop hlt
      (read_stage_zero_length h c0 c t htype hzero)

set_option maxRecDepth 100000 in
theorem entry_point_asymmetry_with_wide_enums_witness :
    read_preamble host_x64 (Cursor.init entryless_buffer)
        = (some (0, 1), entryless_stage_cursor) ∧
      READ_U8 host_x64 host_x64.enum_size entryless_stage_cursor
        = (some 0, entryless_entry_cursor) ∧
      entryless_entry_cursor.next 4 = [0, 0, 0, 0] ∧
      nshader_read_from_memory host_x64 entryless_buffer = none :=
  ⟨by decide!, by decide!, by decide!,
    entry_point_asymmetry_with_wide_enums.2.2.1 host_x64 entryless_buffer 0 1 0 0
      entryless_stage_cursor entryless_stage_cursor entryless_entry_cursor []
      (by decide!) rfl (by decide) (by decide!) (by decide!)⟩
/-! ## The shortest buffers -/

theorem read_blob_consumes {h : Host} {c c1 : Cursor} {slot : Option nshader_blob_t}
    (hr : read_blob h c = (some slot, c1)) : c1.remaining + 1 ≤ c.remaining := by
  unfold read_blob at hr
  obtain ⟨has_blob, c2, hf, hr⟩ := step_bind_some_inv hr
  obtain ⟨hsize, _, rfl⟩ := READ_U8_some_inv hf
  by_cases hb : has_blob ≠ 0
  · rw [if_pos hb] at hr
    obtain ⟨blob_size, c3, hn, hr⟩ := step_bind_some_inv hr
    obtain ⟨s1, _, rfl⟩ := READ_U32_some_inv hn
    obtain ⟨data, c4, hd, hr⟩ := step_bind_some_inv hr
    obtain ⟨s2, _, rfl⟩ := read_data_some_inv hd
    have h2 := congrArg Prod.snd hr
    simp only [step_pure_apply] at h2
    subst h2
    simp only [Cursor.advance]
    omega
  · rw [if_neg hb] at hr
    have h2 := congrArg Prod.snd hr
    simp only [step_pure_apply] at h2
    subst h2
    simp only [Cursor.advance]
    omega

/-- A successful run of the statements from the stage loop on has consumed at least the
backend count and the twelve presence bytes. -/
theorem read_body_consumes {h : Host} {type num_stages : Nat} {c c1 : Cursor}
    {shader : nshader_t} (hr : read_body h type num_stages c = (some shader, c1)) :
    c1.remaining + 16 ≤ c.remaining := by
  unfold read_body at hr
  obtain ⟨stages, c2, hs, hr⟩ := step_bind_some_inv hr
  obtain ⟨nb, c3, hn, hr⟩ := step_bind_some_inv hr
  obtain ⟨backends, c4, hb, hr⟩ := step_bind_some_inv hr
  obtain ⟨blobs, c5, hbl, hr⟩ := step_bind_some_inv hr
  have h2 := congrArg Prod.snd hr
  simp only [step_pure_apply] at h2
  subst h2
  have s1 := read_array_consumes (read_stage h) (fun _ => 0)
    (fun c a c1 hx => by have := read_stage_consumes hx; simp only; omega) _ _ _ _ hs
  obtain ⟨s2, _, rfl⟩ := READ_U32_some_inv hn
  have s3 := read_array_consumes (READ_U8 h h.enum_size) (fun _ => 0)
    (fun c a c1 hx => by
      obtain ⟨_, _, rfl⟩ := READ_U8_some_inv hx
      simp only [Cursor.advance]
      omega) _ _ _ _ hb
  have hrow : ∀ c a c1, read_array (read_blob h) NSHADER_BACKEND_COUNT c = (some a, c1) →
      c1.remaining + 4 ≤ c.remaining := by
    intro c a c1 hx
    have hlen := read_array_length _ _ _ _ _ hx
    have := read_array_consumes (read_blob h) (fun _ => 1)
      (fun c a c1 hy => read_blob_consumes hy) _ _ _ _ hx
    rw [sum_map_one, hlen] at this
    exact this
  have s4 := read_array_consumes (read_array (read_blob h) NSHADER_BACKEND_COUNT)
    (fun _ => 4) hrow _ _ _ _ hbl
  have hlen := read_array_length _ _ _ _ _ hbl
  have hsum : (blobs.map fun _ => 4).sum = 12 := by
    match blobs, hlen with
    | [_, _, _], _ => rfl
  rw [hsum] at s4
  simp only [Cursor.advance] at s1 s3 s4 s2
  omega

/-- Every buffer the decoder accepts has at least 28 bytes and an enum object. -/
theorem accepted_buffer_length (h : Host) (buffer : List Byte) (shader : nshader_t)
    (hr : nshader_read_from_memory h buffer = some shader) :
    28 + h.enum_size ≤ buffer.length := by
  obtain ⟨p, c1, c2, hp, hb⟩ := read_from_memory_some_inv hr
  obtain ⟨hlen, _, _, hc1⟩ := read_preamble_some_inv hp
  have hbody := read_body_consumes hb
  subst hc1
  simp only [Cursor.advance, Cursor.init] at hbody hlen
  omega

set_option maxRecDepth 100000 in
/-- Claim C31, evaluated: every buffer shorter than 28 bytes plus the size of an enum
object is rejected on every host, so every buffer shorter than 29 bytes is; but on a host
with 4-byte enums the 29-byte buffer of the format (magic, version 1, kind byte, stage
count 0, backend count 0, twelve zero presence bytes) is rejected too, whatever its kind
byte, because anything shorter than 32 bytes is. With 1-byte enums it is accepted and
gives a bundle of that kind with no stages, no backends and twelve empty slots. -/
theorem shortest_buffer_with_wide_enums :
    (∀ (h : Host) (buffer : List Byte), buffer.length < 28 + h.enum_size →
        nshader_read_from_memory h buffer = none) ∧
      (∀ (h : Host) (buffer : List Byte), 0 < h.enum_size → buffer.length < 29 →
        nshader_read_from_memory h buffer = none) ∧
      (∀ kind : Byte, (minimal_buffer_of_kind kind).length = 29 ∧
        nshader_read_from_memory host_x64 (minimal_buffer_of_kind kind) = none) ∧
      (∀ kind : Byte,
        nshader_read_from_memory host_short_enums (minimal_buffer_of_kind kind)
          = some { info := { type := kind.val, stages := [], backends := [] },
                   blobs := [ [none, none, none, none], [none, none, none, none],
                              [none, none, none, none] ] }) := by
  have hshort : ∀ (h : Host) (buffer : List Byte), buffer.length < 28 + h.enum_size →
      nshader_read_from_memory h buffer = none := by
    intro h buffer hlen
    cases hr : nshader_read_from_memory h buffer with
    | none => rfl
    | some shader =>
      have := accepted_buffer_length h buffer shader hr
      omega
  refine ⟨hshort, fun h buffer hE hlen => hshort h buffer (by omega), ?_, by decide!⟩
  intro kind
  have hlen : (minimal_buffer_of_kind kind).length = 29 := rfl
  refine ⟨hlen, hshort host_x64 _ ?_⟩
  rw [hlen]
  decide

/-! ## Input with bytes after the encoding -/

theorem stable_pure {α : Type} (a : α) : Stable (pure a : Step Cursor α) := by
  refine ⟨fun c => Nat.le_refl _, ?_⟩
  intro extra c longer r c1 hext hr _
  have h1 := congrArg Prod.fst hr
  have h2 := congrArg Prod.snd hr
  simp only [step_pure_apply] at h1 h2
  subst h1 h2
  exact ⟨longer, rfl, hext, rfl⟩

theorem stable_fail {α : Type} : Stable (Step.fail : Step Cursor α) := by
  refine ⟨fun c => Nat.le_refl _, ?_⟩
  intro extra c longer r c1 hext hr _
  have h1 := congrArg Prod.fst hr
  have h2 := congrArg Prod.snd hr
  simp only [Step.fail] at h1 h2
  subst h1 h2
  exact ⟨longer, rfl, hext, rfl⟩

theorem stable_bind {α β : Type} (m : Step Cursor α) (f : α → Step Cursor β)
    (hm : Stable m) (hf : ∀ a, Stable (f a)) : Stable (m >>= f) := by
  constructor
  · intro c
    have h1 := hm.1 c
    rcases hr : m c with ⟨_ | a, c1⟩
    · rw [step_bind_of_none hr]
      rw [hr] at h1
      exact h1
    · rw [step_bind_of_some hr]
      rw [hr] at h1
      exact Nat.le_trans h1 ((hf a).1 c1)
  · intro extra c longer r c2 hext hr hsame
    have h1 := hm.1 c
    rcases hmc : m c with ⟨_ | a, c1⟩
    · rw [step_bind_of_none hmc] at hr
      have e1 := congrArg Prod.fst hr
      have e2 := congrArg Prod.snd hr
      simp only at e1 e2
      subst e1 e2
      obtain ⟨longer1, hl, hext1, href⟩ := hm.2 extra c longer none c1 hext hmc hsame
      exact ⟨longer1, by rw [step_bind_of_none hl], hext1, href⟩
    · rw [step_bind_of_some hmc] at hr
      rw [hmc] at h1
      have h2 := (hf a).1 c1
      rw [hr] at h2
      simp only at h1 h2
      have hc1 : c1.refused = c.refused := by omega
      obtain ⟨longer1, hl, hext1, href⟩ := hm.2 extra c longer (some a) c1 hext hmc hc1
      obtain ⟨longer2, hl2, hext2, href2⟩ := (hf a).2 extra c1 longer1 r c2 hext1 hr
        (by omega)
      exact ⟨longer2, by rw [step_bind_of_some hl, hl2], hext2, by omega⟩

theorem stable_ite {α : Type} (cond : Prop) [Decidable cond] (m1 m2 : Step Cursor α)
    (h1 : Stable m1) (h2 : Stable m2) : Stable (if cond then m1 else m2) := by
  split
  · exact h1
  · exact h2

theorem stable_attempt {α : Type} (m : Step Cursor α) (hm : Stable m) :
    Stable (Step.attempt m) := by
  constructor
  · intro c
    exact hm.1 c
  · intro extra c longer r c1 hext hr hsame
    have e1 := congrArg Prod.fst hr
    have e2 := congrArg Prod.snd hr
    simp only [Step.attempt] at e1 e2
    subst e1 e2
    obtain ⟨longer1, hl, hext1, href⟩ := hm.2 extra c longer (m c).1 (m c).2 hext rfl hsame
    refine ⟨longer1, ?_, hext1, href⟩
    simp only [Step.attempt, hl]

theorem stable_read_array {α : Type} (m : Step Cursor α) (hm : Stable m) (count : Nat) :
    Stable (read_array m count) := by
  induction count with
  | zero => exact stable_pure _
  | succ n ih =>
    unfold read_array
    exact stable_bind _ _ hm fun _ => stable_bind _ _ ih fun _ => stable_pure _

theorem stable_read_data (size : Nat) : Stable (read_data size) := by
  constructor
  · intro c
    by_cases hlt : c.remaining < size
    · rw [read_data_refused size c hlt]
      simp only [Cursor.refuse]
      omega
    · rw [read_data_ok size c (by omega)]
      exact Nat.le_refl _
  · intro extra c longer r c1 hext hr hsame
    obtain ⟨hmem, hbuf, hrem, hin⟩ := hext
    by_cases hlt : c.remaining < size
    · rw [read_data_refused size c hlt] at hr
      have e2 := congrArg Prod.snd hr
      simp only at e2
      subst e2
      simp only [Cursor.refuse] at hsame
      omega
    · have hsize : size ≤ c.remaining := by omega
      rw [read_data_ok size c hsize] at hr
      have e1 := congrArg Prod.fst hr
      have e2 := congrArg Prod.snd hr
      simp only at e1 e2
      subst e1 e2
      unfold Cursor.in_bounds at hin
      have hnext : longer.next size = c.next size := by
        simp only [Cursor.next, hmem, hbuf]
        rw [List.drop_append_of_le_length (by omega)]
        apply List.take_append_of_le_length
        simp only [List.length_drop]
        omega
      refine ⟨longer.advance size, ?_, ⟨?_, ?_, ?_, ?_⟩, rfl⟩
      · rw [read_data_ok size longer (by omega), hnext]
      · exact hmem
      · simp only [Cursor.advance, hbuf]
      · simp only [Cursor.advance, hrem]
        omega
      · simp only [Cursor.in_bounds, Cursor.advance]
        omega

theorem stable_READ_U32 (h : Host) : Stable (READ_U32 h) :=
  stable_bind _ _ (stable_read_data 4) fun _ => stable_pure _

theorem stable_READ_U8 (h : Host) (sizeof_val : Nat) : Stable (READ_U8 h sizeof_val) :=
  stable_bind _ _ (stable_read_data sizeof_val) fun _ => stable_pure _

theorem stable_read_string (h : Host) : Stable (read_string h) :=
  stable_bind _ _ (stable_read_data 4) fun _ =>
    stable_ite _ _ _ stable_fail (stable_read_data _)

theorem stable_read_binding (h : Host) : Stable (read_binding h) :=
  stable_bind _ _ (stable_attempt _ (stable_read_string h)) fun _ =>
    stable_bind _ _ (stable_read_data 4) fun _ =>
      stable_bind _ _ (stable_read_data 4) fun _ =>
        stable_bind _ _ (stable_read_data h.enum_size) fun _ => stable_pure _

theorem stable_read_stage_metadata (h : Host) (stage_type : Nat)
    (metadata : nshader_stage_metadata_t) :
    Stable (read_stage_metadata h stage_type metadata) := by
  have hb := fun count => stable_read_array _ (stable_read_binding h) count
  have hu := stable_READ_U32 h
  unfold read_stage_metadata
  refine stable_ite _ _ _ ?_ (stable_ite _ _ _ ?_ (stable_ite _ _ _ ?_ stable_fail))
  · exact stable_bind _ _ hu fun _ => stable_bind _ _ hu fun _ =>
      stable_bind _ _ hu fun _ => stable_bind _ _ hu fun _ =>
      stable_bind _ _ hu fun _ => stable_bind _ _ (hb _) fun _ =>
      stable_bind _ _ hu fun _ => stable_bind _ _ (hb _) fun _ =>
      stable_pure _
  · exact stable_bind _ _ hu fun _ => stable_bind _ _ hu fun _ =>
      stable_bind _ _ hu fun _ => stable_bind _ _ hu fun _ =>
      stable_bind _ _ hu fun _ => stable_bind _ _ (hb _) fun _ =>
      stable_bind _ _ hu fun _ => stable_bind _ _ (hb _) fun _ =>
      stable_pure _
  · exact stable_bind _ _ hu fun _ => stable_bind _ _ hu fun _ =>
      stable_bind _ _ hu fun _ => stable_bind _ _ hu fun _ =>
      stable_bind _ _ hu fun _ => stable_bind _ _ hu fun _ =>
      stable_bind _ _ hu fun _ => stable_bind _ _ hu fun _ =>
      stable_bind _ _ hu fun _ => stable_pure _

theorem stable_read_stage (h : Host) : Stable (read_stage h) :=
  stable_bind _ _ (stable_READ_U8 h _) fun _ =>
    stable_bind _ _ (stable_read_string h) fun _ =>
      stable_bind _ _ (stable_read_stage_metadata h _ _) fun _ => stable_pure _

theorem stable_read_blob (h : Host) : Stable (read_blob h) :=
  stable_bind _ _ (stable_READ_U8 h 1) fun _ =>
    stable_ite _ _ _
      (stable_bind _ _ (stable_READ_U32 h) fun _ =>
        stable_bind _ _ (stable_read_data _) fun _ => stable_pure _)
      (stable_pure _)

theorem stable_read_shader (h : Host) : Stable (read_shader h) :=
  stable_bind _ _ (stable_READ_U32 h) fun _ =>
    stable_ite _ _ _ stable_fail <|
      stable_bind _ _ (stable_READ_U32 h) fun _ =>
        stable_ite _ _ _ stable_fail <|
          stable_bind _ _ (stable_READ_U8 h _) fun _ =>
          stable_bind _ _ (stable_READ_U32 h) fun _ =>
          stable_bind _ _ (stable_read_array _ (stable_read_stage h) _) fun _ =>
          stable_bind _ _ (stable_READ_U32 h) fun _ =>
          stable_bind _ _ (stable_read_array _ (stable_READ_U8 h _) _) fun _ =>
          stable_bind _ _
            (stable_read_array _ (stable_read_array _ (stable_read_blob h) _) _)
            fun _ => stable_pure _

/-- A decode that succeeds without a refused read returns the same bundle when bytes
follow the input. -/
theorem read_from_memory_extended (h : Host) (buffer extra : List Byte) (shader : nshader_t)
    (hr : nshader_read_from_memory h buffer = some shader)
    (hrefused : (nshader_read_from_memory_run h buffer).2.refused = 0) :
    nshader_read_from_memory h (buffer ++ extra) = some shader := by
  unfold nshader_read_from_memory at hr ⊢
  unfold nshader_read_from_memory_run at hr hrefused ⊢
  by_cases hlen : buffer.length = 0
  · rw [if_pos hlen] at hr
    exact Option.noConfusion hr
  · have hlen2 : ¬ (buffer ++ extra).length = 0 := by
      simp only [List.length_append]
      omega
    rw [if_neg hlen] at hr hrefused
    rw [if_neg hlen2]
    rcases hrun : read_shader h (Cursor.init buffer) with ⟨r, c1⟩
    rw [hrun] at hr hrefused
    simp only at hr hrefused
    subst hr
    have hext : (Cursor.init buffer).extended extra (Cursor.init (buffer ++ extra)) := by
      refine ⟨rfl, rfl, ?_, ?_⟩
      · simp only [Cursor.init, List.length_append]
      · simp only [Cursor.in_bounds, Cursor.init]
        omega
    obtain ⟨longer1, hl, _, _⟩ := (stable_read_shader h).2 extra _ _ _ c1 hext hrun
      (by rw [hrefused]; rfl)
    rw [hl]

set_option maxRecDepth 100000 in
/-- Claim C32, evaluated: on every host a decode that succeeds without a refused read
returns the same bundle when any bytes follow the input. But on a host with 4-byte enums
the decoder rejects the encoding of the empty bundle and accepts it when three zero bytes
follow, and it rejects the encoding of the scenario bundle with or without bytes after
it. With 1-byte enums the encoding of the scenario bundle is decoded into the same bundle
with and without bytes after it. -/
theorem trailing_bytes_with_wide_enums :
    (∀ (h : Host) (buffer extra : List Byte) (shader : nshader_t),
        nshader_read_from_memory h buffer = some shader →
        (nshader_read_from_memory_run h buffer).2.refused = 0 →
        nshader_read_from_memory h (buffer ++ extra) = some shader) ∧
      valid_bundle empty_bundle ∧ valid_bundle scenario_bundle ∧
      nshader_read_from_memory host_x64 (encode host_x64 empty_bundle) = none ∧
      nshader_read_from_memory host_x64 (encode host_x64 empty_bundle ++ [0, 0, 0])
        = some empty_bundle ∧
      nshader_read_from_memory host_x64 (encode host_x64 scenario_bundle) = none ∧
      nshader_read_from_memory host_x64 (encode host_x64 scenario_bundle ++ [1, 2, 3])
        = none ∧
      nshader_read_from_memory host_short_enums (encode host_short_enums scenario_bundle)
        = some scenario_bundle ∧
      (nshader_read_from_memory_run host_short_enums
        (encode host_short_enums scenario_bundle)).2.refused = 0 ∧
      nshader_read_from_memory host_short_enums
          (encode host_short_enums scenario_bundle ++ [1, 2, 3])
        = some scenario_bundle := by
  refine ⟨read_from_memory_extended, by decide!, by decide!, by decide!, by decide!,
    by decide!, by decide!, by decide!, by decide!, by decide!⟩

set_option maxRecDepth 100000 in
theorem trailing_bytes_with_wide_enums_witness :
    nshader_read_from_memory host_x64 minimal_buffer_x64 = some empty_bundle ∧
      (nshader_read_from_memory_run host_x64 minimal_buffer_x64).2.refused = 0 ∧
      nshader_read_from_memory host_x64 (minimal_buffer_x64 ++ [9, 9]) = some empty_bundle :=
  ⟨by decide!, by decide!,
    trailing_bytes_with_wide_enums.1 host_x64 minimal_buffer_x64 [9, 9] empty_bundle
      (by decide!) (by decide!)⟩

end NShader
